import Mathlib

/-!
VibrationDAQ: register protocol layer and sampling pipeline

A shallow embedding of `VibrationSensorModule.cpp` and `HexUtils.hpp`.

* Machine integers are natural numbers below their width: `Byte` is `uint8_t`,
  `Word` is `uint16_t`; every narrowing conversion is an explicit `% 2^w`.
* The SPI bus and the busy GPIO line are an arbitrary device: a state type with a
  transfer function and a poll function, either of which may report a transport
  error (the code then calls `exit(1)`).
* The session records every poll and every exchange in a trace, so that "no exchange
  occurs" and "exactly three exchanges in this order" are statements about the trace.
* The busy-wait loop of `transferBlocking` has no bound in the code; the embedding
  gives it a poll budget and reports `Fault.busyForever` when the budget is used up.
* `float` and `double` values are an abstract type with the operations the code uses
  (`FloatArith`, no law assumed). `binary32` interprets the `float` operations in
  IEEE 754 single precision with rounding; `exactFloat` interprets them in a field and
  is used only where the values involved are exactly representable.
-/

namespace VibrationDAQ

/-! ## Machine integers -/

/-- The type `uint8_t`. -/
abbrev Byte := Fin 256

/-- The type `uint16_t`. -/
abbrev Word := Fin 65536

/-- The conversion `static_cast<unsigned char>(n)` of a non-negative `int`. -/
def toByte (n : Nat) : Byte := ⟨n % 256, Nat.mod_lt n (by decide)⟩

/-- The conversion of a non-negative `int` to `uint16_t`. -/
def toWord (n : Nat) : Word := ⟨n % 65536, Nat.mod_lt n (by decide)⟩

/-! ## HexUtils.hpp -/

/-- The 2-byte buffer `std::array<uint8_t, 2>`. -/
abbrev WordBuffer := Byte × Byte

/-- `convert`: `(wordBuffer[0] << 8) | wordBuffer[1]`, returned as `uint16_t`. -/
def convert (wordBuffer : WordBuffer) : Word :=
  toWord ((wordBuffer.1.val <<< 8) ||| wordBuffer.2.val)

/-- `convertRTS`: `(wordBuffer[1] << 8) | wordBuffer[0]`, returned as `uint16_t`. -/
def convertRTS (wordBuffer : WordBuffer) : Word :=
  toWord ((wordBuffer.2.val <<< 8) ||| wordBuffer.1.val)

/-! ## Declarations the driver uses -/

/-- The register descriptor `SpiCommand`: the fields `read` and `write` use. -/
structure SpiCommand where
  pageId : Byte
  address : Byte
  readFlag : Bool
  writeFlag : Bool
deriving DecidableEq, Repr

/-- Modelled from the spec: `RecordingMode.hpp` is not among the sources. The four
modes of the data model (Streaming `RTS`, Capture `MTC`, AveragedSpectrum `MFFT`,
RawSpectrum `AFFT`). -/
inductive RecordingMode where
  | MFFT
  | AFFT
  | MTC
  | RTS
deriving DecidableEq, Repr

/-- Modelled from the spec: the enumerator values of `RecordingMode` (the header is not
among the sources) are the two mode bits of the recording-control register, so that
`static_cast<uint8_t>(mode)` and `static_cast<RecordingMode>(recCtrl & 0x3)` are inverse
to each other. -/
def RecordingMode.code : RecordingMode → Nat
  | .MFFT => 0
  | .AFFT => 1
  | .MTC => 2
  | .RTS => 3

/-- The conversion `static_cast<RecordingMode>(bits)` for `bits = recCtrl & 0x3`. -/
def RecordingMode.ofBits (bits : Nat) : RecordingMode :=
  if bits = 0 then .MFFT else if bits = 1 then .AFFT else if bits = 2 then .MTC else .RTS

/-! ## The bus, the session and its observable effects -/

/-- The device behind the `spi` handle and the `gpioBusy` line. `spi_transfer`
exchanges one 2-byte frame, `gpio_read` reads the busy line (`true` = not busy);
`none` is a negative return code. -/
structure Bus (σ : Type) where
  spi_transfer : σ → WordBuffer → Option (WordBuffer × σ)
  gpio_read : σ → Option (Bool × σ)

/-- What happened on the wires, in the order it happened. -/
inductive BusEvent where
  | busyPoll (notBusy : Bool)
  | exchange (sent received : WordBuffer)
deriving DecidableEq, Repr

/-- The messages the driver logs (the sensor name, a constant, is left out). -/
inductive LogEntry where
  | readFlagNotSet (pageId address : Byte)
  | writeFlagNotSet (pageId address : Byte)
  | rtsParsingError
  | gpioOpenError
  | spiOpenError
  | gpioWriteError
  | wrongProdId (prodId : Word)
deriving DecidableEq, Repr

/-- Why a call did not return. -/
inductive Fault where
  /-- The code logged a transport error and called `exit(1)`. -/
  | processExit
  /-- The busy line still read busy when the poll budget was used up. -/
  | busyForever
  /-- `std::length_error` thrown by `std::vector::reserve`. -/
  | lengthError
deriving DecidableEq, Repr

/-- The sensor object together with the world it acts on. -/
structure Session (σ : Type) where
  dev : σ
  trace : List BusEvent
  log : List LogEntry
  currentRecordingMode : RecordingMode

/-- The exchanges of a trace, in order, as (sent, received) pairs. -/
def exchanges : List BusEvent → List (WordBuffer × WordBuffer)
  | [] => []
  | .busyPoll _ :: t => exchanges t
  | .exchange sent received :: t => (sent, received) :: exchanges t

/-- A computation of the driver: a result and the next session, or a fault. -/
abbrev Run (σ α : Type) := Session σ → Except Fault (α × Session σ)

/-! ## VibrationSensorModule.cpp: the register protocol layer -/

/-- `VibrationSensorModule::transfer`: one exchange; a negative return code of
`spi_transfer` ends the process. The settle loop that follows has no effect on the
state. -/
def transfer {σ : Type} (bus : Bus σ) (sendBuf : WordBuffer) : Run σ WordBuffer := fun s =>
  match bus.spi_transfer s.dev sendBuf with
  | none => .error .processExit
  | some (recBuf, d) =>
    .ok (recBuf, { s with dev := d, trace := s.trace ++ [.exchange sendBuf recBuf] })

/-- `VibrationSensorModule::transferBlocking`: poll the busy line until it reads
not busy, then exchange. `fuel` is the number of polls allowed. -/
def transferBlocking {σ : Type} (bus : Bus σ) : Nat → WordBuffer → Run σ WordBuffer
  | 0, _, _ => .error .busyForever
  | fuel + 1, sendBuf, s =>
    match bus.gpio_read s.dev with
    | none => .error .processExit
    | some (notBusy, d) =>
      let s1 := { s with dev := d, trace := s.trace ++ [.busyPoll notBusy] }
      if notBusy then transfer bus sendBuf s1 else transferBlocking bus fuel sendBuf s1

/-- `VibrationSensorModule::read`. -/
def read {σ : Type} (bus : Bus σ) (fuel : Nat) (cmd : SpiCommand) : Run σ Word := fun s =>
  if !cmd.readFlag then
    .ok (0, { s with log := s.log ++ [.readFlagNotSet cmd.pageId cmd.address] })
  else do
    -- select page
    let (_, s1) ← transferBlocking bus fuel (0x80, cmd.pageId) s
    let (_, s2) ← transferBlocking bus fuel (cmd.address, 0) s1
    let (resp, s3) ← transferBlocking bus fuel (0, 0) s2
    pure (convert resp, s3)

/-- `VibrationSensorModule::write`. -/
def write {σ : Type} (bus : Bus σ) (fuel : Nat) (cmd : SpiCommand) (value : Word) :
    Run σ Unit := fun s =>
  if !cmd.writeFlag then
    .ok ((), { s with log := s.log ++ [.writeFlagNotSet cmd.pageId cmd.address] })
  else do
    -- select page
    let (_, s1) ← transferBlocking bus fuel (0x80, cmd.pageId) s
    let (_, s2) ← transferBlocking bus fuel
      (toByte (cmd.address.val ||| 0x80), toByte (value.val &&& 0xff)) s1
    let (_, s3) ← transferBlocking bus fuel
      (toByte ((cmd.address.val + 1) ||| 0x80), toByte (value.val >>> 8)) s2
    pure ((), s3)

/-! ## Declarations that are not among the sources -/

/-- Modelled from the spec: the enumeration `WindowSetting` is declared in a header that
is not among the sources; it is represented by its enumerator value, which the code
only uses through `static_cast<uint8_t>`. -/
structure WindowSetting where
  value : Nat
deriving DecidableEq, Repr

/-- Modelled from the spec: the enumeration of decimation factors of a `RecordingConfig`,
declared in a header that is not among the sources; represented by its enumerator
value, which the code only uses through `static_cast<uint8_t>`. -/
structure DecimationFactor where
  value : Nat
deriving DecidableEq, Repr

/-- Modelled from the spec: the enumeration `FIRFilter` (filter choice), declared in a
header that is not among the sources; represented by its enumerator value, which the
code compares and casts to `uint8_t`. -/
structure FIRFilter where
  value : Nat
deriving DecidableEq, Repr

/-- Modelled from the spec: the configuration inputs consumed by mode activation
(decimation factor, filter choice, 32 custom filter taps of type `int16_t`); the struct
is declared in a header that is not among the sources. -/
structure RecordingConfig where
  decimationFactor : DecimationFactor
  firFilter : FIRFilter
  customFilterTaps : Fin 32 → Int

/-- The constants of `spi_commands` (the register catalog) and the two `FIRFilter`
enumerators that `VibrationSensorModule.cpp` names. Their declarations are not among
the sources, so the driver takes them as a parameter. -/
structure Declarations where
  PROD_ID : SpiCommand
  REC_CTRL : SpiCommand
  AVG_CNT : SpiCommand
  FILT_CTRL : SpiCommand
  FFT_AVG1 : SpiCommand
  BUF_PNTR : SpiCommand
  X_BUF : SpiCommand
  Y_BUF : SpiCommand
  Z_BUF : SpiCommand
  REC_INFO1 : SpiCommand
  REC_INFO2 : SpiCommand
  GLOB_CMD : SpiCommand
  MISC_CTRL : SpiCommand
  X_STATISTIC : SpiCommand
  Y_STATISTIC : SpiCommand
  Z_STATISTIC : SpiCommand
  X_ANULL : SpiCommand
  Y_ANULL : SpiCommand
  Z_ANULL : SpiCommand
  FIR_COEFFS_F : Fin 32 → SpiCommand
  CUSTOM : FIRFilter
  HIGH_PASS_10kHz : FIRFilter

/-! ## VibrationData.hpp -/

/-- The struct `VibrationData`. `F` stands for `float`: the theorems hold for every
interpretation of the float operations the code uses. -/
structure VibrationData (F : Type) where
  recordingMode : RecordingMode
  stepAxis : List F
  xAxis : List F
  yAxis : List F
  zAxis : List F
  temperature : List F
  status : List F
  crc : List F
  sequenceNumber : List F

/-- A default-constructed `VibrationData`: every sequence empty. (The code leaves
`recordingMode` uninitialised; `mode` is the value it happens to hold.) -/
def VibrationData.empty (F : Type) (mode : RecordingMode) : VibrationData F :=
  { recordingMode := mode, stepAxis := [], xAxis := [], yAxis := [], zAxis := [],
    temperature := [], status := [], crc := [], sequenceNumber := [] }

/-! ## VibrationSensorModule.cpp: configuration and sampling -/

/-- The conversion `static_cast<uint16_t>(x)` of an `int16_t`. -/
def wordOfInt (x : Int) : Word := toWord (x % 65536).toNat

/-- `VibrationSensorModule::writeRecordingControl`. -/
def writeRecordingControl {σ : Type} (decl : Declarations) (bus : Bus σ) (fuel : Nat)
    (recordingMode : RecordingMode) (windowSetting : WindowSetting) : Run σ Bool := fun s => do
  -- hard type sample rate option 0
  let recCtrl : Word := 0x100
  let recCtrl := toWord (recCtrl.val ||| ((toByte windowSetting.value).val <<< 12))
  let recCtrl := toWord (recCtrl.val ||| (toByte recordingMode.code).val)
  let (_, s1) ← write bus fuel decl.REC_CTRL recCtrl s
  let (recCtrl, s2) ← read bus fuel decl.REC_CTRL s1
  let s3 := { s2 with currentRecordingMode := RecordingMode.ofBits (recCtrl.val &&& 0x3) }
  pure (decide (s3.currentRecordingMode = recordingMode), s3)

/-- `VibrationSensorModule::writeFIRFilter`. -/
def writeFIRFilter {σ : Type} (decl : Declarations) (bus : Bus σ) (fuel : Nat)
    (firFilter : FIRFilter) : Run σ Unit := fun s =>
  let filtCtrl : Word := 0x0000
  -- set for every axis same filter
  let filtCtrl := toWord (filtCtrl.val ||| (toByte firFilter.value).val)
  let filtCtrl := toWord (filtCtrl.val ||| ((toByte firFilter.value).val <<< 3))
  let filtCtrl := toWord (filtCtrl.val ||| ((toByte firFilter.value).val <<< 6))
  write bus fuel decl.FILT_CTRL filtCtrl s

/-- The loop of `writeCustomFIRFilterTaps`: one `write` per pair, in order. -/
def writeEach {σ : Type} (bus : Bus σ) (fuel : Nat) : List (SpiCommand × Word) → Run σ Unit
  | [], s => .ok ((), s)
  | (cmd, value) :: rest, s => do
    let (_, s1) ← write bus fuel cmd value s
    writeEach bus fuel rest s1

/-- `VibrationSensorModule::writeCustomFIRFilterTaps`: store custom values in filter
bank F, tap `i` to `FIR_COEFFS_F[i]` for `i = 0 .. 31`. -/
def writeCustomFIRFilterTaps {σ : Type} (decl : Declarations) (bus : Bus σ) (fuel : Nat)
    (customFilterTaps : Fin 32 → Int) : Run σ Unit :=
  writeEach bus fuel
    ((List.finRange 32).map fun i => (decl.FIR_COEFFS_F i, wordOfInt (customFilterTaps i)))

/-- `VibrationSensorModule::activateMode(recordingConfig, recordingMode, windowSetting)`. -/
def activateMode {σ : Type} (decl : Declarations) (bus : Bus σ) (fuel : Nat)
    (recordingConfig : RecordingConfig) (recordingMode : RecordingMode)
    (windowSetting : WindowSetting) : Run σ Bool := fun s =>
  -- only modify SR0 as we only work with that. keep rest default.
  match recordingMode with
  | .RTS => writeRecordingControl decl bus fuel recordingMode windowSetting s
  | _ => do
    let avgCnt : Word := 0x7420
    let avgCnt := toWord (avgCnt.val ||| (toByte recordingConfig.decimationFactor.value).val)
    let (_, s1) ← write bus fuel decl.AVG_CNT avgCnt s
    let (_, s2) ←
      if recordingConfig.firFilter = decl.CUSTOM then do
        let (_, t) ← writeCustomFIRFilterTaps decl bus fuel recordingConfig.customFilterTaps s1
        -- select filter bank F
        writeFIRFilter decl bus fuel decl.HIGH_PASS_10kHz t
      else
        writeFIRFilter decl bus fuel recordingConfig.firFilter s1
    writeRecordingControl decl bus fuel recordingMode windowSetting s2

/-- `VibrationSensorModule::generateSteps`. `reserve` takes a `size_t`: a negative
`samplesCount` converts to a size above `max_size()` and `reserve` throws
`std::length_error`. -/
def generateSteps {F : Type} [Mul F] [IntCast F] (stepSize : F) (samplesCount : Int) :
    Except Fault (List F) :=
  if samplesCount < 0 then .error .lengthError
  else
    .ok ((List.range samplesCount.toNat).foldl
      (fun stepAxis (i : Nat) => stepAxis ++ [stepSize * ((Int.ofNat i : Int) : F)]) [])

/-- The body of the loop of `parseRtsData` for index `i`. -/
def parseRtsData.body {F : Type} [NatCast F] (resp : List Word)
    (vibrationData : VibrationData F) (i : Nat) : VibrationData F :=
  let w : F := ((resp.getD i 0).val : F)
  -- sequenceNumber
  if i = 0 then { vibrationData with sequenceNumber := vibrationData.sequenceNumber ++ [w] }
  -- x
  else if i ≤ 32 then { vibrationData with xAxis := vibrationData.xAxis ++ [w] }
  -- y
  else if i ≤ 64 then { vibrationData with yAxis := vibrationData.yAxis ++ [w] }
  -- z
  else if i ≤ 96 then { vibrationData with zAxis := vibrationData.zAxis ++ [w] }
  -- Temperature
  else if i = 97 then { vibrationData with temperature := vibrationData.temperature ++ [w] }
  -- Status
  else if i = 98 then { vibrationData with status := vibrationData.status ++ [w] }
  -- CRC
  else if i = 99 then { vibrationData with crc := vibrationData.crc ++ [w] }
  else vibrationData

/-- `VibrationSensorModule::parseRtsData`: the returned flag and the batch after the
call. -/
def parseRtsData {σ F : Type} [NatCast F] (resp : List Word)
    (vibrationData : VibrationData F) : Run σ (Bool × VibrationData F) := fun s =>
  if resp.length ≠ 100 then
    .ok ((false, vibrationData), { s with log := s.log ++ [.rtsParsingError] })
  else
    .ok ((true, (List.range 100).foldl (parseRtsData.body resp) vibrationData), s)

/-! ## VibrationSensorModule.cpp: the sampling and conversion pipeline -/

/-- The float operations the pipeline uses, on an arbitrary carrier `F` for `float` and
`double` alike: the literal 0.0, multiplication, division, the conversions from `int`
and from unsigned integers, decimal literals, and `std::pow`. No law is assumed: every
theorem stated for a `FloatArith` holds for every interpretation of these operations. -/
class FloatArith (F : Type) extends Zero F, Mul F, Div F, IntCast F, NatCast F,
    OfScientific F where
  /-- The function `std::pow`. -/
  pow : F → F → F

/-- The conversion `static_cast<int16_t>(resp)` of a `uint16_t`. -/
def toInt16 (resp : Word) : Int :=
  if resp.val < 32768 then Int.ofNat resp.val else Int.ofNat resp.val - 65536

/-- The closure `convertVibrationValue` that the switch of `retrieveVibrationData`
selects for each mode; `numberOfFFTAvg` is captured in the two spectrum modes only. -/
def convertVibrationValue {F : Type} [FloatArith F] (mode : RecordingMode)
    (numberOfFFTAvg : Byte) (valueRaw : Int) : F :=
  match mode with
  | .RTS => ((valueRaw : Int) : F)
  | .MTC => ((valueRaw : Int) : F) * (0.001907349 : F)
  | _ =>
    -- handle special case
    if valueRaw = 0 then 0
    else
      FloatArith.pow ((2 : Nat) : F) (((valueRaw : Int) : F) / ((2048 : Nat) : F)) /
        ((numberOfFFTAvg.val : Nat) : F) * (0.9535 : F)

/-- `VibrationSensorModule::readRecInfoFFTAveragesCount`. -/
def readRecInfoFFTAveragesCount {σ : Type} (decl : Declarations) (bus : Bus σ) (fuel : Nat) :
    Run σ Int := fun s => do
  let (v, s1) ← read bus fuel decl.REC_INFO1 s
  pure (Int.ofNat (v.val &&& 0xFF), s1)

/-- `VibrationSensorModule::readRecInfoDecimationFactor`. `pow(2, avgCnt)` is the
`double` power of two small integers, which is exact, so its conversion to `int` is
the integer power. -/
def readRecInfoDecimationFactor {σ : Type} (decl : Declarations) (bus : Bus σ) (fuel : Nat) :
    Run σ Int := fun s => do
  let (v, s1) ← read bus fuel decl.REC_INFO2 s
  let avgCnt := v.val &&& 0x7
  pure (Int.ofNat (2 ^ avgCnt), s1)

/-- The loop of `readSamplesBuffer`: `n` busy-checked exchanges of the address frame,
each response converted and pushed. -/
def readSamplesBuffer.loop {σ F : Type} (bus : Bus σ) (fuel : Nat) (cmd : SpiCommand)
    (convertVibrationValue : Int → F) : Nat → List F → Run σ (List F)
  | 0, axisData, s => .ok (axisData, s)
  | n + 1, axisData, s => do
    let (recBuf, s1) ← transferBlocking bus fuel (cmd.address, 0) s
    let resp := convert recBuf
    let valueRaw := toInt16 resp
    readSamplesBuffer.loop bus fuel cmd convertVibrationValue n
      (axisData ++ [convertVibrationValue valueRaw]) s1

/-- `VibrationSensorModule::readSamplesBuffer`. `reserve` throws for a negative
`samplesCount`; the loop runs `samplesCount - 1` times when that is positive. -/
def readSamplesBuffer {σ F : Type} (bus : Bus σ) (fuel : Nat) (cmd : SpiCommand)
    (samplesCount : Int) (convertVibrationValue : Int → F) : Run σ (List F) := fun s =>
  if samplesCount < 0 then .error .lengthError
  else do
    -- select page
    let (_, s1) ← transferBlocking bus fuel (0x80, cmd.pageId) s
    let (_, s2) ← transferBlocking bus fuel (cmd.address, 0) s1
    let (axisData, s3) ←
      readSamplesBuffer.loop bus fuel cmd convertVibrationValue (samplesCount - 1).toNat [] s2
    let (recBuf, s4) ← transfer bus (0, 0) s3
    let valueRaw := toInt16 (convert recBuf)
    pure (axisData ++ [convertVibrationValue valueRaw], s4)

/-- The inner loop of `readRtsSamplesBuffer`: `n` raw exchanges of the null frame, each
response pushed in reversed byte order. -/
def readRtsSamplesBuffer.block {σ : Type} (bus : Bus σ) : Nat → List Word → Run σ (List Word)
  | 0, resp, s => .ok (resp, s)
  | n + 1, resp, s => do
    let (recBuf, s1) ← transfer bus (0, 0) s
    let raw := convertRTS recBuf
    readRtsSamplesBuffer.block bus n (resp ++ [raw]) s1

/-- The outer loop of `readRtsSamplesBuffer`: per iteration one block of 100 words,
parsed into the batch; the flag `parseRtsData` returns is not looked at. -/
def readRtsSamplesBuffer.loop {σ F : Type} [NatCast F] (bus : Bus σ) :
    Nat → VibrationData F → Run σ (VibrationData F)
  | 0, vibrationData, s => .ok (vibrationData, s)
  | n + 1, vibrationData, s => do
    let (resp, s1) ← readRtsSamplesBuffer.block bus 100 [] s
    let (parsed, s2) ← parseRtsData resp vibrationData s1
    readRtsSamplesBuffer.loop bus n parsed.2 s2

/-- `VibrationSensorModule::readRtsSamplesBuffer`. The closure it is given is not
used. `uninit` is the indeterminate value of the default-constructed batch's
`recordingMode`. -/
def readRtsSamplesBuffer {σ F : Type} [NatCast F] (bus : Bus σ) (samplesCount : Int)
    (_convertVibrationValue : Int → F) (uninit : RecordingMode) : Run σ (VibrationData F) :=
  readRtsSamplesBuffer.loop bus samplesCount.toNat (VibrationData.empty F uninit)

/-- The switch of `retrieveVibrationData` on the current mode: `samplesCount`,
`recordStepSize` and the conversion closure. -/
def retrieveVibrationData.dispatch {σ F : Type} [FloatArith F] (decl : Declarations)
    (bus : Bus σ) (fuel : Nat) : Run σ (Int × F × (Int → F)) := fun s =>
  match s.currentRecordingMode with
  | .RTS =>
    .ok ((10, ((1 : Nat) : F) / ((220000 : Nat) : F), convertVibrationValue .RTS 0), s)
  | .MTC => do
    let (decimationFactor, s1) ← readRecInfoDecimationFactor decl bus fuel s
    pure ((4096,
      ((1 : Nat) : F) / (((220000 : Nat) : F) / ((decimationFactor : Int) : F)),
      convertVibrationValue .MTC 0), s1)
  | mode => do
    let (decimationFactor, s1) ← readRecInfoDecimationFactor decl bus fuel s
    let (averages, s2) ← readRecInfoFFTAveragesCount decl bus fuel s1
    let numberOfFFTAvg : Byte := toByte averages.toNat
    let samplesCount : Int := 2048
    pure ((samplesCount,
      ((110000 : Nat) : F) / ((decimationFactor : Int) : F) / ((samplesCount : Int) : F),
      convertVibrationValue mode numberOfFFTAvg), s2)

/-- `VibrationSensorModule::retrieveVibrationData`. `uninit` is the indeterminate
`recordingMode` of a default-constructed batch, overwritten before the return. -/
def retrieveVibrationData {σ F : Type} [FloatArith F] (decl : Declarations) (bus : Bus σ)
    (fuel : Nat) (uninit : RecordingMode) : Run σ (VibrationData F) := fun s => do
  let ((samplesCount, recordStepSize, convertVibrationValue), s1) ←
    retrieveVibrationData.dispatch decl bus fuel s
  if s1.currentRecordingMode = .RTS then do
    let (vibrationData, s2) ←
      readRtsSamplesBuffer bus samplesCount convertVibrationValue uninit s1
    let stepAxis ← generateSteps recordStepSize (samplesCount * 32)
    pure ({ vibrationData with
      stepAxis := stepAxis, recordingMode := s2.currentRecordingMode }, s2)
  else do
    let (_, s2) ← write bus fuel decl.BUF_PNTR 0 s1
    let (xAxis, s3) ← readSamplesBuffer bus fuel decl.X_BUF samplesCount convertVibrationValue s2
    let (yAxis, s4) ← readSamplesBuffer bus fuel decl.Y_BUF samplesCount convertVibrationValue s3
    let (zAxis, s5) ← readSamplesBuffer bus fuel decl.Z_BUF samplesCount convertVibrationValue s4
    let stepAxis ← generateSteps recordStepSize samplesCount
    pure ({ VibrationData.empty F uninit with
      xAxis := xAxis, yAxis := yAxis, zAxis := zAxis, stepAxis := stepAxis,
      recordingMode := s5.currentRecordingMode }, s5)

/-! ## VibrationSensorModule.cpp: setup -/

/-- The two GPIO handles of the sensor object. -/
inductive GpioLine where
  | gpioReset
  | gpioBusy
deriving DecidableEq, Repr

/-- The calls of the periphery library that `setup` makes besides the bus: opening a
GPIO line, opening the SPI device, writing the reset line. `none` is a negative return
code; the state is then left as it was. -/
structure Board (σ : Type) extends Bus σ where
  gpio_open : σ → GpioLine → Nat → Option σ
  spi_open_advanced : σ → String → Nat → Option σ
  gpio_write : σ → Bool → Option σ

/-- `VibrationSensorModule::setup`. The two sleeps have no effect on the state. -/
def setup {σ : Type} (decl : Declarations) (board : Board σ) (fuel : Nat)
    (resetPin busyPin : Nat) (spiPath : String) (speed : Nat) : Run σ Bool := fun s =>
  match board.gpio_open s.dev .gpioReset resetPin with
  | none => .ok (false, { s with log := s.log ++ [.gpioOpenError] })
  | some d1 =>
    match board.gpio_open d1 .gpioBusy busyPin with
    | none => .ok (false, { s with dev := d1, log := s.log ++ [.gpioOpenError] })
    | some d2 =>
      match board.spi_open_advanced d2 spiPath speed with
      | none => .ok (false, { s with dev := d2, log := s.log ++ [.spiOpenError] })
      | some d3 =>
        match board.gpio_write d3 true with
        | none => .ok (false, { s with dev := d3, log := s.log ++ [.gpioWriteError] })
        | some d4 => do
          -- check if the right model is connected and if the connection works
          let (prodId, s1) ← read board.toBus fuel decl.PROD_ID { s with dev := d4 }
          if prodId.val ≠ 0x0BCD then
            pure (false, { s1 with log := s1.log ++ [.wrongProdId prodId] })
          else
            pure (true, s1)

/-! ## StorageModule.cpp: the row loop -/

/-- One iteration of the row loop of `StorageModule::storeVibrationData`: the values
written to the row for index `i`. Every `operator[]` is a checked access: `none` is an
index out of bounds. -/
def storeVibrationData.row {F : Type} (vibrationData : VibrationData F) (i : Nat) :
    Option (List F) :=
  if vibrationData.recordingMode = .RTS then do
    let step ← vibrationData.stepAxis[i]?
    let x ← vibrationData.xAxis[i]?
    let y ← vibrationData.yAxis[i]?
    let z ← vibrationData.zAxis[i]?
    let temperature ← vibrationData.temperature[i / 32]?
    let status ← vibrationData.status[i / 32]?
    let crc ← vibrationData.crc[i / 32]?
    let sequenceNumber ← vibrationData.sequenceNumber[i / 32]?
    pure [step, x, y, z, temperature, status, crc, sequenceNumber]
  else do
    let step ← vibrationData.stepAxis[i]?
    let x ← vibrationData.xAxis[i]?
    let y ← vibrationData.yAxis[i]?
    let z ← vibrationData.zAxis[i]?
    pure [step, x, y, z]

/-- The row loop over a list of indices. -/
def storeVibrationData.loop {F : Type} (vibrationData : VibrationData F) :
    List Nat → Option (List (List F))
  | [] => some []
  | i :: rest => do
    let row ← storeVibrationData.row vibrationData i
    let rows ← storeVibrationData.loop vibrationData rest
    pure (row :: rows)

/-- The row loop of `StorageModule::storeVibrationData`,
`for (int i = 0; i < vibrationData.xAxis.size(); ++i)`: the rows written, or `none` when
an index is out of bounds. -/
def storeVibrationData.rows {F : Type} (vibrationData : VibrationData F) :
    Option (List (List F)) :=
  storeVibrationData.loop vibrationData (List.range vibrationData.xAxis.length)

/-! ## Devices that answer -/

/-- From device state `d` the busy line reads not busy within `n` polls, no poll
fails, and the exchange that follows does not fail. -/
def readyWithin {σ : Type} (bus : Bus σ) : Nat → σ → Prop
  | 0, _ => False
  | n + 1, d =>
    match bus.gpio_read d with
    | none => False
    | some (true, d1) => ∀ sendBuf, (bus.spi_transfer d1 sendBuf).isSome = true
    | some (false, d1) => readyWithin bus n d1

/-- The device never stays busy for `fuel` polls and never reports a transport error. -/
def Responsive {σ : Type} (bus : Bus σ) (fuel : Nat) : Prop :=
  ∀ d, readyWithin bus fuel d

/-- A device that is never busy and answers every frame with its own bytes swapped. -/
def swapBus : Bus Unit where
  spi_transfer := fun _ sendBuf => some ((sendBuf.2, sendBuf.1), ())
  gpio_read := fun _ => some (true, ())

/-- A fresh session on a device in state `d`. -/
def Session.start {σ : Type} (d : σ) : Session σ :=
  { dev := d, trace := [], log := [], currentRecordingMode := .MFFT }

/-- A register catalog for the examples: every register on page 0, readable and
writable, and the filter bank on page 6. -/
def sampleDeclarations : Declarations where
  PROD_ID := ⟨0, 0x56, true, false⟩
  REC_CTRL := ⟨0, 0x1A, true, true⟩
  AVG_CNT := ⟨0, 0x3A, true, true⟩
  FILT_CTRL := ⟨0, 0x38, true, true⟩
  FFT_AVG1 := ⟨0, 0x06, true, true⟩
  BUF_PNTR := ⟨0, 0x0A, true, true⟩
  X_BUF := ⟨0, 0x0E, true, false⟩
  Y_BUF := ⟨0, 0x10, true, false⟩
  Z_BUF := ⟨0, 0x12, true, false⟩
  REC_INFO1 := ⟨0, 0x66, true, false⟩
  REC_INFO2 := ⟨0, 0x68, true, false⟩
  GLOB_CMD := ⟨0, 0x3E, false, true⟩
  MISC_CTRL := ⟨0, 0x64, true, true⟩
  X_STATISTIC := ⟨0, 0x2A, true, false⟩
  Y_STATISTIC := ⟨0, 0x2C, true, false⟩
  Z_STATISTIC := ⟨0, 0x2E, true, false⟩
  X_ANULL := ⟨0, 0x14, true, true⟩
  Y_ANULL := ⟨0, 0x16, true, true⟩
  Z_ANULL := ⟨0, 0x18, true, true⟩
  FIR_COEFFS_F := fun i => ⟨6, toByte (2 * i.val + 2), true, true⟩
  CUSTOM := ⟨7⟩
  HIGH_PASS_10kHz := ⟨6⟩

/-- A configuration for the examples. -/
def sampleConfig : RecordingConfig :=
  { decimationFactor := ⟨0⟩, firFilter := ⟨0⟩, customFilterTaps := fun _ => 0 }

/-- A mock device that reports mode = Capture whatever is written: it is never busy
and answers every exchange with the frame 0x01 0x02, a recording-control value whose
two mode bits are those of `MTC`. -/
def captureBus : Bus Unit where
  spi_transfer := fun _ _ => some ((0x01, 0x02), ())
  gpio_read := fun _ => some (true, ())

/-- The 100-word block of the parser example: sequence number 5, x-values 1..32,
y-values 33..64, z-values 65..96, temperature 7, status 8, crc 9. -/
def sampleBlock : List Word :=
  [5] ++ (List.range 96).map (fun i => toWord (i + 1)) ++ [7, 8, 9]

/-! ## A mock device that echoes writes -/

/-- The register file of the mock: the selected page, one byte per (page, address),
and the answer it has prepared for the next exchange. -/
structure EchoDevice where
  page : Byte
  mem : Byte → Byte → Byte
  answer : WordBuffer

/-- One exchange with the mock. Every exchange returns the answer prepared by the
previous frame. A frame with the write bit (0x80) stores its data byte at
(selected page, address), where a write to address 0 is the page select and changes
the selected page first. A frame without the write bit is an address frame for `a`:
it prepares the answer (mem[a+1], mem[a]) of the selected page. -/
def EchoDevice.exchange (d : EchoDevice) (sendBuf : WordBuffer) : WordBuffer × EchoDevice :=
  if 0x80 ≤ sendBuf.1.val then
    let a := toByte (sendBuf.1.val - 0x80)
    let page := if a = 0 then sendBuf.2 else d.page
    (d.answer,
      { page := page
        mem := fun p x => if p = page ∧ x = a then sendBuf.2 else d.mem p x
        answer := (0, 0) })
  else
    (d.answer,
      { d with answer := (d.mem d.page (toByte (sendBuf.1.val + 1)), d.mem d.page sendBuf.1) })

/-- The mock as a bus: never busy, never a transport error. -/
def echoBus : Bus EchoDevice where
  spi_transfer := fun d sendBuf => some (d.exchange sendBuf)
  gpio_read := fun d => some (true, d)

/-- The mock after power-up: page 0 selected, all registers 0. -/
def EchoDevice.blank : EchoDevice :=
  { page := 0, mem := fun _ _ => 0, answer := (0, 0) }

/-- The round trip of the register protocol: `write(cmd, value)` followed by
`read(cmd)`; the result of the read. -/
def writeThenRead {σ : Type} (bus : Bus σ) (fuel : Nat) (cmd : SpiCommand) (value : Word)
    (s : Session σ) : Except Fault Word := do
  let (_, s1) ← write bus fuel cmd value s
  let (v, _) ← read bus fuel cmd s1
  pure v

/-- The indices among `a, a+1, .., a+b-1` that are below `n`: the words of a field
that the parser loop has appended before it reaches index `n`. -/
def seen (a b n : Nat) : List Nat := List.range' a (min b (n - a))

/-- Word `i` of a block as the parser stores it: converted to `float`. -/
def wordAt {F : Type} [NatCast F] (resp : List Word) (i : Nat) : F :=
  ((resp.getD i 0).val : F)

/-- The batch after the parser loop has run over the indices below `n`. -/
def parsedUpTo {F : Type} [NatCast F] (resp : List Word) (vibrationData : VibrationData F)
    (n : Nat) : VibrationData F :=
  { recordingMode := vibrationData.recordingMode
    stepAxis := vibrationData.stepAxis
    xAxis := vibrationData.xAxis ++ (seen 1 32 n).map (wordAt resp)
    yAxis := vibrationData.yAxis ++ (seen 33 32 n).map (wordAt resp)
    zAxis := vibrationData.zAxis ++ (seen 65 32 n).map (wordAt resp)
    temperature := vibrationData.temperature ++ (seen 97 1 n).map (wordAt resp)
    status := vibrationData.status ++ (seen 98 1 n).map (wordAt resp)
    crc := vibrationData.crc ++ (seen 99 1 n).map (wordAt resp)
    sequenceNumber := vibrationData.sequenceNumber ++ (seen 0 1 n).map (wordAt resp) }

/-! ## Binary32 arithmetic -/

/-- The integer nearest to `y`, ties to the even one. -/
def roundHalfEven (y : ℚ) : ℤ :=
  if y - ⌊y⌋ < 1 / 2 then ⌊y⌋
  else if 1 / 2 < y - ⌊y⌋ then ⌊y⌋ + 1
  else if ⌊y⌋ % 2 = 0 then ⌊y⌋
  else ⌊y⌋ + 1

/-- The rounding of IEEE 754 binary32 (`float`), round to nearest, ties to even, with
the exponent unbounded above: a significand of 24 bits for a value of binary exponent
`e >= -126`, and the fixed quantum 2^-149 below that (subnormal values). -/
def roundBinary32 (x : ℚ) : ℚ :=
  if x = 0 then 0
  else (roundHalfEven (x / 2 ^ (max (Int.log 2 |x|) (-126) - 23)) : ℚ)
    * 2 ^ (max (Int.log 2 |x|) (-126) - 23)

/-- A rounded result as a `float`: finite below 2^128 in magnitude; at or above that the
result is an infinity, which is not a number of the model (`none`). -/
def finite32 (y : ℚ) : Option ℚ :=
  if |y| < 2 ^ 128 then some y else none

/-- The `float` operations of the code in IEEE 754 binary32 arithmetic: a value is a
finite number (the sign of a zero is not kept) or `none`, which stands for everything the
model does not follow: an infinity or NaN (overflow, a division by zero) and every
operation of the code that is carried out in `double` (a decimal literal, `std::pow`).
An operation on `none` gives `none`. So whenever this model gives `some q`, `q` is the
value the code computes in `float`. -/
@[reducible]
def binary32 : FloatArith (Option ℚ) :=
  { toZero := ⟨some 0⟩
    toMul := ⟨fun a b =>
      match a, b with
      | some x, some y => finite32 (roundBinary32 (x * y))
      | _, _ => none⟩
    toDiv := ⟨fun a b =>
      match a, b with
      | some x, some y => if y = 0 then none else finite32 (roundBinary32 (x / y))
      | _, _ => none⟩
    toIntCast := ⟨fun i => finite32 (roundBinary32 (i : ℚ))⟩
    toNatCast := ⟨fun n => finite32 (roundBinary32 (n : ℚ))⟩
    toOfScientific := ⟨fun _ _ _ => none⟩
    pow := fun _ _ => none }

/-! ## Notions the later statements use -/

/-- Exact arithmetic as an interpretation of the float operations: the operations of
a field, with `std::pow` left as a parameter. It is an idealisation: it gives the value
the code computes only where every value involved is a number that `float` holds exactly
and no division by zero occurs (the small integers of the decimation factor and of the
streaming words); where the code rounds, `binary32` is the interpretation to use. -/
@[reducible]
def exactFloat (F : Type) [Field F] (pow : F → F → F) : FloatArith F :=
  { toZero := inferInstance
    toMul := inferInstance
    toDiv := inferInstance
    toIntCast := inferInstance
    toNatCast := inferInstance
    toOfScientific := inferInstance
    pow := pow }

/-- No exchange ever reports a transport error. -/
def Reliable {σ : Type} (bus : Bus σ) : Prop :=
  ∀ d sendBuf, (bus.spi_transfer d sendBuf).isSome = true

/-- The device state after `k` polls of the busy line that all read busy; `none` when
one of them fails or reads not busy. -/
def busyPolls {σ : Type} (bus : Bus σ) : Nat → σ → Option σ
  | 0, d => some d
  | k + 1, d =>
    match bus.gpio_read d with
    | some (false, d1) => busyPolls bus k d1
    | _ => none

/-- Whether the last event of a trace is a poll that read not busy (`c` for the empty
trace). -/
def carry : Bool → List BusEvent → Bool
  | c, [] => c
  | _, .busyPoll notBusy :: t => carry notBusy t
  | _, .exchange _ _ :: t => carry false t

/-- The exchanges of a trace, each with the mark whether it was busy-checked: whether the
event right before it is a poll that read not busy (`c` for a first exchange). -/
def checked : Bool → List BusEvent → List (Bool × WordBuffer × WordBuffer)
  | _, [] => []
  | _, .busyPoll notBusy :: t => checked notBusy t
  | c, .exchange sent received :: t => (c, sent, received) :: checked false t

/-- The sample the buffer reads store for a response. -/
def sampleOf {F : Type} (convertVibrationValue : Int → F) (r : WordBuffer) : F :=
  convertVibrationValue (toInt16 (convert r))

/-- The frames `write(cmd, value)` sends: none without the write flag. -/
def writeFrames (cmd : SpiCommand) (value : Word) : List WordBuffer :=
  if cmd.writeFlag then
    [(0x80, cmd.pageId),
     (toByte (cmd.address.val ||| 0x80), toByte (value.val &&& 0xff)),
     (toByte ((cmd.address.val + 1) ||| 0x80), toByte (value.val >>> 8))]
  else []

/-- The frames `read(cmd)` sends: none without the read flag. -/
def readFrames (cmd : SpiCommand) : List WordBuffer :=
  if cmd.readFlag then [(0x80, cmd.pageId), (cmd.address, 0), (0, 0)] else []

/-- The frames sent so far, in order. -/
def sentFrames {σ : Type} (s : Session σ) : List WordBuffer :=
  (exchanges s.trace).map Prod.fst

/-- The words `100 k + a, .., 100 k + a + b - 1` of blocks `k = 0, .., n - 1`, in order,
as the parser stores them. -/
def gather {F : Type} [NatCast F] (words : List Word) (n a b : Nat) : List F :=
  (List.range n).flatMap fun k => (List.range' (100 * k + a) b).map (wordAt words)

/-- The batch after `n` blocks of 100 words each, taken from `words` in order, have been
parsed into `vibrationData`: block `k` adds word `100 k` to sequenceNumber, the 32 words
from `100 k + 1` to xAxis, the 32 from `100 k + 33` to yAxis, the 32 from `100 k + 65`
to zAxis, and words `100 k + 97`, `+ 98`, `+ 99` to temperature, status and crc. -/
def appendBlocks {F : Type} [NatCast F] (vibrationData : VibrationData F) (words : List Word)
    (n : Nat) : VibrationData F :=
  { recordingMode := vibrationData.recordingMode
    stepAxis := vibrationData.stepAxis
    xAxis := vibrationData.xAxis ++ gather words n 1 32
    yAxis := vibrationData.yAxis ++ gather words n 33 32
    zAxis := vibrationData.zAxis ++ gather words n 65 32
    temperature := vibrationData.temperature ++ gather words n 97 1
    status := vibrationData.status ++ gather words n 98 1
    crc := vibrationData.crc ++ gather words n 99 1
    sequenceNumber := vibrationData.sequenceNumber ++ gather words n 0 1 }

/-- The word `writeRecordingControl` writes for a mode and a window setting. -/
def recCtrlWord (recordingMode : RecordingMode) (windowSetting : WindowSetting) : Word :=
  toWord ((toWord ((0x100 : Word).val ||| ((toByte windowSetting.value).val <<< 12))).val |||
    (toByte recordingMode.code).val)

/-- The word `writeFIRFilter` writes for a filter. -/
def filtCtrlWord (firFilter : FIRFilter) : Word :=
  toWord ((toWord ((toWord ((0x0000 : Word).val ||| (toByte firFilter.value).val)).val |||
    ((toByte firFilter.value).val <<< 3))).val ||| ((toByte firFilter.value).val <<< 6))

/-- The word `activateMode` writes to `AVG_CNT` for a decimation factor. -/
def avgCntWord (decimationFactor : DecimationFactor) : Word :=
  toWord ((0x7420 : Word).val ||| (toByte decimationFactor.value).val)

/-- A board for the examples: every open and the reset write succeed, the bus is the
device that reports `idFrame` on every exchange and is never busy. -/
def sampleBoard (idFrame : WordBuffer) : Board Unit where
  spi_transfer := fun _ _ => some (idFrame, ())
  gpio_read := fun _ => some (true, ())
  gpio_open := fun _ _ _ => some ()
  spi_open_advanced := fun _ _ _ => some ()
  gpio_write := fun _ _ => some ()

/-! ## Arithmetic of the byte conversions -/

theorem shl8_or (a b : Nat) (hb : b < 256) : (a <<< 8) ||| b = 256 * a + b := by
  have h := @Nat.mul_add_lt_is_or 8 b (by simpa using hb) a
  rw [Nat.shiftLeft_eq, Nat.mul_comm]
  simpa using h.symm

theorem convert_val (w : WordBuffer) : (convert w).val = 256 * w.1.val + w.2.val := by
  have h1 := w.1.isLt
  have h2 := w.2.isLt
  simp only [convert, toWord, shl8_or _ _ h2]
  omega

theorem convertRTS_val (w : WordBuffer) : (convertRTS w).val = 256 * w.2.val + w.1.val := by
  have h1 := w.1.isLt
  have h2 := w.2.isLt
  simp only [convertRTS, toWord, shl8_or _ _ h1]
  omega

theorem convert_injective : Function.Injective convert := by
  intro a b h
  have h1 := convert_val a
  have h2 := convert_val b
  rw [h] at h1
  have a1 := a.1.isLt
  have a2 := a.2.isLt
  have b1 := b.1.isLt
  have b2 := b.2.isLt
  apply Prod.ext
  · apply Fin.ext; omega
  · apply Fin.ext; omega

theorem convert_surjective : Function.Surjective convert := by
  intro v
  have hv := v.isLt
  refine ⟨(⟨v.val / 256, by omega⟩, ⟨v.val % 256, by omega⟩), ?_⟩
  apply Fin.ext
  rw [convert_val]
  simp only
  omega

theorem convertRTS_eq_convert_swap (w : WordBuffer) : convertRTS w = convert (w.2, w.1) := rfl

theorem low_high_recombine (v : Word) :
    256 * (toByte (v.val >>> 8)).val + (toByte (v.val &&& 0xff)).val = v.val := by
  have hv := v.isLt
  have h1 : v.val &&& 0xff = v.val % 256 := Nat.and_pow_two_sub_one_eq_mod v.val 8
  have h2 : v.val >>> 8 = v.val / 256 := Nat.shiftRight_eq_div_pow v.val 8
  simp only [toByte, h1, h2]
  omega

/-! ## What one busy-checked exchange does -/

theorem exchanges_append (a b : List BusEvent) :
    exchanges (a ++ b) = exchanges a ++ exchanges b := by
  induction a with
  | nil => rfl
  | cons e t ih => cases e <;> simp [exchanges, ih]

theorem exchanges_replicate_busyPoll (k : Nat) (b : Bool) :
    exchanges (List.replicate k (.busyPoll b)) = [] := by
  induction k with
  | zero => rfl
  | succ k ih => simpa [List.replicate_succ, exchanges] using ih

theorem transfer_ok {σ : Type} (bus : Bus σ) (sendBuf : WordBuffer) (s : Session σ)
    (r : WordBuffer) (s1 : Session σ) (h : transfer bus sendBuf s = .ok (r, s1)) :
    ∃ d, bus.spi_transfer s.dev sendBuf = some (r, d) ∧
      s1 = { s with dev := d, trace := s.trace ++ [.exchange sendBuf r] } := by
  unfold transfer at h
  split at h
  · cases h
  · rename_i recBuf d heq
    simp only [Except.ok.injEq, Prod.mk.injEq] at h
    obtain ⟨h1, h2⟩ := h
    subst h1
    exact ⟨d, heq, h2.symm⟩

/-- A busy-checked exchange that returns polled busy `k` times, polled not busy once,
and then exchanged exactly once; it touches neither the log nor the current mode. -/
theorem transferBlocking_ok {σ : Type} (bus : Bus σ) (fuel : Nat) (sendBuf : WordBuffer)
    (s : Session σ) (r : WordBuffer) (s1 : Session σ)
    (h : transferBlocking bus fuel sendBuf s = .ok (r, s1)) :
    (∃ k, k < fuel ∧ s1.trace = s.trace ++ List.replicate k (.busyPoll false)
        ++ [.busyPoll true, .exchange sendBuf r]) ∧
      s1.log = s.log ∧ s1.currentRecordingMode = s.currentRecordingMode := by
  induction fuel generalizing s with
  | zero => simp [transferBlocking] at h
  | succ n ih =>
    unfold transferBlocking at h
    split at h
    · cases h
    · rename_i notBusy d heq
      cases notBusy with
      | true =>
        simp only [if_true] at h
        obtain ⟨d1, _, hs⟩ := transfer_ok bus sendBuf _ r s1 h
        subst hs
        exact ⟨⟨0, Nat.succ_pos n, by simp⟩, rfl, rfl⟩
      | false =>
        simp only [Bool.false_eq_true, if_false] at h
        obtain ⟨⟨k, hk, ht⟩, hl, hm⟩ := ih _ h
        refine ⟨⟨k + 1, Nat.succ_lt_succ hk, ?_⟩, hl, hm⟩
        rw [ht]
        simp [List.replicate_succ]

/-- The exchange view of `transferBlocking_ok`: exactly one exchange is added. -/
theorem transferBlocking_exchanges {σ : Type} (bus : Bus σ) (fuel : Nat)
    (sendBuf : WordBuffer) (s : Session σ) (r : WordBuffer) (s1 : Session σ)
    (h : transferBlocking bus fuel sendBuf s = .ok (r, s1)) :
    exchanges s1.trace = exchanges s.trace ++ [(sendBuf, r)] ∧
      s1.log = s.log ∧ s1.currentRecordingMode = s.currentRecordingMode := by
  obtain ⟨⟨k, _, ht⟩, hl, hm⟩ := transferBlocking_ok bus fuel sendBuf s r s1 h
  refine ⟨?_, hl, hm⟩
  rw [ht]
  simp [exchanges_append, exchanges_replicate_busyPoll, exchanges]

theorem transferBlocking_returns {σ : Type} (bus : Bus σ) (fuel : Nat)
    (sendBuf : WordBuffer) (s : Session σ) (h : readyWithin bus fuel s.dev) :
    ∃ r s1, transferBlocking bus fuel sendBuf s = .ok (r, s1) := by
  induction fuel generalizing s with
  | zero => exact absurd h (by simp [readyWithin])
  | succ n ih =>
    unfold readyWithin at h
    unfold transferBlocking
    split at h
    · exact absurd h id
    · rename_i d1 heq
      rw [heq]
      have hx := h sendBuf
      simp only [if_true, transfer]
      cases hsp : bus.spi_transfer d1 sendBuf with
      | none => rw [hsp] at hx; cases hx
      | some p => exact ⟨p.1, _, rfl⟩
    · rename_i d1 heq
      rw [heq]
      simp only [Bool.false_eq_true, if_false]
      exact ih _ h

theorem swapBus_responsive : Responsive swapBus 1 := by
  intro d
  simp [readyWithin, swapBus]

/-- The bind of the driver's computations returns exactly when both parts do. -/
theorem bind_ok {α β : Type} (x : Except Fault α) (f : α → Except Fault β) (b : β) :
    (x >>= f) = .ok b ↔ ∃ a, x = .ok a ∧ f a = .ok b := by
  cases x with
  | error e => simp [bind, Except.bind]
  | ok a => simp [bind, Except.bind]

/-! ## Register reads and writes -/

/-- A register read that returns made exactly the three exchanges of the protocol and
returns the third response in standard byte order. -/
theorem read_ok {σ : Type} (bus : Bus σ) (fuel : Nat) (cmd : SpiCommand) (s : Session σ)
    (hr : cmd.readFlag = true) (v : Word) (s1 : Session σ)
    (h : read bus fuel cmd s = .ok (v, s1)) :
    ∃ r1 r2 r3 : WordBuffer,
      exchanges s1.trace = exchanges s.trace ++
        [((0x80, cmd.pageId), r1), ((cmd.address, 0), r2), ((0, 0), r3)] ∧
      v = convert r3 ∧
      (∃ pre, s1.trace = pre ++ [.exchange (0, 0) r3]) ∧
      s1.log = s.log ∧ s1.currentRecordingMode = s.currentRecordingMode := by
  simp only [read, hr, Bool.not_true, Bool.false_eq_true, if_false] at h
  obtain ⟨⟨r1, t1⟩, h1, h⟩ := (bind_ok _ _ _).1 h
  obtain ⟨⟨r2, t2⟩, h2, h⟩ := (bind_ok _ _ _).1 h
  obtain ⟨⟨r3, t3⟩, h3, h⟩ := (bind_ok _ _ _).1 h
  simp only [pure, Except.pure, Except.ok.injEq, Prod.mk.injEq] at h
  obtain ⟨hv, hs⟩ := h
  subst hs
  obtain ⟨e1, l1, m1⟩ := transferBlocking_exchanges _ _ _ _ _ _ h1
  obtain ⟨e2, l2, m2⟩ := transferBlocking_exchanges _ _ _ _ _ _ h2
  obtain ⟨e3, l3, m3⟩ := transferBlocking_exchanges _ _ _ _ _ _ h3
  obtain ⟨⟨k, _, ht⟩, _, _⟩ := transferBlocking_ok _ _ _ _ _ _ h3
  refine ⟨r1, r2, r3, ?_, hv.symm, ?_, ?_, ?_⟩
  · rw [e3, e2, e1]; simp
  · exact ⟨t2.trace ++ List.replicate k (.busyPoll false) ++ [.busyPoll true], by
      rw [ht]; simp⟩
  · rw [l3, l2, l1]
  · rw [m3, m2, m1]

theorem read_returns {σ : Type} (bus : Bus σ) (fuel : Nat) (cmd : SpiCommand)
    (s : Session σ) (hb : Responsive bus fuel) :
    ∃ v s1, read bus fuel cmd s = .ok (v, s1) := by
  unfold read
  split
  · exact ⟨_, _, rfl⟩
  · obtain ⟨r1, t1, h1⟩ := transferBlocking_returns bus fuel (0x80, cmd.pageId) s (hb _)
    obtain ⟨r2, t2, h2⟩ := transferBlocking_returns bus fuel (cmd.address, 0) t1 (hb _)
    obtain ⟨r3, t3, h3⟩ := transferBlocking_returns bus fuel (0, 0) t2 (hb _)
    refine ⟨convert r3, t3, ?_⟩
    simp only [h1, h2, h3, bind, Except.bind, pure, Except.pure]

/-- A register write that returns made exactly the three exchanges of the protocol. -/
theorem write_ok {σ : Type} (bus : Bus σ) (fuel : Nat) (cmd : SpiCommand) (value : Word)
    (s : Session σ) (hw : cmd.writeFlag = true) (s1 : Session σ)
    (h : write bus fuel cmd value s = .ok ((), s1)) :
    ∃ r1 r2 r3 : WordBuffer,
      exchanges s1.trace = exchanges s.trace ++
        [((0x80, cmd.pageId), r1),
         ((toByte (cmd.address.val ||| 0x80), toByte (value.val &&& 0xff)), r2),
         ((toByte ((cmd.address.val + 1) ||| 0x80), toByte (value.val >>> 8)), r3)] ∧
      s1.log = s.log ∧ s1.currentRecordingMode = s.currentRecordingMode := by
  simp only [write, hw, Bool.not_true, Bool.false_eq_true, if_false] at h
  obtain ⟨⟨r1, t1⟩, h1, h⟩ := (bind_ok _ _ _).1 h
  obtain ⟨⟨r2, t2⟩, h2, h⟩ := (bind_ok _ _ _).1 h
  obtain ⟨⟨r3, t3⟩, h3, h⟩ := (bind_ok _ _ _).1 h
  simp only [pure, Except.pure, Except.ok.injEq, Prod.mk.injEq, true_and] at h
  subst h
  obtain ⟨e1, l1, m1⟩ := transferBlocking_exchanges _ _ _ _ _ _ h1
  obtain ⟨e2, l2, m2⟩ := transferBlocking_exchanges _ _ _ _ _ _ h2
  obtain ⟨e3, l3, m3⟩ := transferBlocking_exchanges _ _ _ _ _ _ h3
  refine ⟨r1, r2, r3, ?_, ?_, ?_⟩
  · rw [e3, e2, e1]; simp
  · rw [l3, l2, l1]
  · rw [m3, m2, m1]

theorem write_returns {σ : Type} (bus : Bus σ) (fuel : Nat) (cmd : SpiCommand)
    (value : Word) (s : Session σ) (hb : Responsive bus fuel) :
    ∃ s1, write bus fuel cmd value s = .ok ((), s1) := by
  unfold write
  split
  · exact ⟨_, rfl⟩
  · obtain ⟨r1, t1, h1⟩ := transferBlocking_returns bus fuel (0x80, cmd.pageId) s (hb _)
    obtain ⟨r2, t2, h2⟩ := transferBlocking_returns bus fuel
      (toByte (cmd.address.val ||| 0x80), toByte (value.val &&& 0xff)) t1 (hb _)
    obtain ⟨r3, t3, h3⟩ := transferBlocking_returns bus fuel
      (toByte ((cmd.address.val + 1) ||| 0x80), toByte (value.val >>> 8)) t2 (hb _)
    refine ⟨t3, ?_⟩
    simp only [h1, h2, h3, bind, Except.bind, pure, Except.pure]

/-- C1: for every SpiCommand whose readFlag is false, `read` returns 0 without a bus
exchange and without a poll of the busy line: the bus trace and the device state are
unchanged. The only effect is the logged error. -/
theorem read_without_readFlag {σ : Type} (bus : Bus σ) (fuel : Nat) (cmd : SpiCommand)
    (s : Session σ) (h : cmd.readFlag = false) :
    ∃ s1, read bus fuel cmd s = .ok (0, s1) ∧ s1.trace = s.trace ∧ s1.dev = s.dev ∧
      s1.currentRecordingMode = s.currentRecordingMode ∧
      s1.log = s.log ++ [.readFlagNotSet cmd.pageId cmd.address] := by
  refine ⟨{ s with log := s.log ++ [.readFlagNotSet cmd.pageId cmd.address] }, ?_,
    rfl, rfl, rfl, rfl⟩
  simp [read, h]

theorem read_without_readFlag_witness :
    (SpiCommand.mk 0 0x1A false true).readFlag = false ∧
    ∃ s1, read swapBus 0 (SpiCommand.mk 0 0x1A false true) (Session.start ()) = .ok (0, s1) ∧
      s1.trace = (Session.start ()).trace ∧ s1.dev = (Session.start ()).dev ∧
      s1.currentRecordingMode = (Session.start ()).currentRecordingMode ∧
      s1.log = (Session.start ()).log ++ [.readFlagNotSet 0 0x1A] :=
  ⟨rfl, read_without_readFlag swapBus 0 (SpiCommand.mk 0 0x1A false true) (Session.start ()) rfl⟩

/-- C2: for every SpiCommand whose writeFlag is false and every 16-bit value, `write`
is a no-op on the bus: it returns without an exchange and without a poll, the bus
trace and the device state are unchanged. The only effect is the logged error. -/
theorem write_without_writeFlag {σ : Type} (bus : Bus σ) (fuel : Nat) (cmd : SpiCommand)
    (value : Word) (s : Session σ) (h : cmd.writeFlag = false) :
    ∃ s1, write bus fuel cmd value s = .ok ((), s1) ∧ s1.trace = s.trace ∧
      s1.dev = s.dev ∧ s1.currentRecordingMode = s.currentRecordingMode ∧
      s1.log = s.log ++ [.writeFlagNotSet cmd.pageId cmd.address] := by
  refine ⟨{ s with log := s.log ++ [.writeFlagNotSet cmd.pageId cmd.address] }, ?_,
    rfl, rfl, rfl, rfl⟩
  simp [write, h]

theorem write_without_writeFlag_witness :
    (SpiCommand.mk 0 0x0E true false).writeFlag = false ∧
    ∃ s1, write swapBus 0 (SpiCommand.mk 0 0x0E true false) 0x1234 (Session.start ())
        = .ok ((), s1) ∧
      s1.trace = (Session.start ()).trace ∧ s1.dev = (Session.start ()).dev ∧
      s1.currentRecordingMode = (Session.start ()).currentRecordingMode ∧
      s1.log = (Session.start ()).log ++ [.writeFlagNotSet 0 0x0E] :=
  ⟨rfl, write_without_writeFlag swapBus 0 (SpiCommand.mk 0 0x0E true false) 0x1234
    (Session.start ()) rfl⟩

/-- C3: for every SpiCommand with readFlag set, a `read` that returns has performed
exactly three exchanges, in this order: the page-select frame {0x80, pageId}, the
address frame {address, 0}, the null frame {0, 0}; its result is the third response in
standard byte order, 256 * resp[0] + resp[1], whatever the first two responses were.
On a device that answers within the poll budget, `read` does return. -/
theorem read_three_exchanges {σ : Type} (bus : Bus σ) (fuel : Nat) (cmd : SpiCommand)
    (s : Session σ) (hr : cmd.readFlag = true) :
    (∀ v s1, read bus fuel cmd s = .ok (v, s1) →
      ∃ r1 r2 r3 : WordBuffer,
        exchanges s1.trace = exchanges s.trace ++
          [((0x80, cmd.pageId), r1), ((cmd.address, 0), r2), ((0, 0), r3)] ∧
        v.val = 256 * r3.1.val + r3.2.val) ∧
    (Responsive bus fuel → ∃ v s1, read bus fuel cmd s = .ok (v, s1)) := by
  refine ⟨?_, read_returns bus fuel cmd s⟩
  intro v s1 h
  obtain ⟨r1, r2, r3, he, hv, _⟩ := read_ok bus fuel cmd s hr v s1 h
  exact ⟨r1, r2, r3, he, by rw [hv, convert_val]⟩

theorem read_three_exchanges_witness :
    (SpiCommand.mk 1 0x1A true true).readFlag = true ∧
    ((∀ v s1, read swapBus 1 (SpiCommand.mk 1 0x1A true true) (Session.start ()) = .ok (v, s1) →
      ∃ r1 r2 r3 : WordBuffer,
        exchanges s1.trace = exchanges (Session.start ()).trace ++
          [((0x80, 1), r1), ((0x1A, 0), r2), ((0, 0), r3)] ∧
        v.val = 256 * r3.1.val + r3.2.val) ∧
    (Responsive swapBus 1 →
      ∃ v s1, read swapBus 1 (SpiCommand.mk 1 0x1A true true) (Session.start ()) = .ok (v, s1))) :=
  ⟨rfl, read_three_exchanges swapBus 1 (SpiCommand.mk 1 0x1A true true) (Session.start ()) rfl⟩

/-- C4: for every SpiCommand with writeFlag set and every 16-bit value v, a `write`
that returns has performed exactly three exchanges, in this order: {0x80, pageId},
{address | 0x80, v & 0xFF}, {((address + 1) | 0x80) mod 256, v >> 8}; the two data
bytes sent recombine to v. On a device that answers within the poll budget, `write`
does return. -/
theorem write_three_exchanges {σ : Type} (bus : Bus σ) (fuel : Nat) (cmd : SpiCommand)
    (value : Word) (s : Session σ) (hw : cmd.writeFlag = true) :
    (∀ s1, write bus fuel cmd value s = .ok ((), s1) →
      ∃ r1 r2 r3 : WordBuffer, ∃ low high : Byte,
        low.val = value.val &&& 0xff ∧ high.val = value.val >>> 8 ∧
        256 * high.val + low.val = value.val ∧
        exchanges s1.trace = exchanges s.trace ++
          [((0x80, cmd.pageId), r1),
           ((toByte (cmd.address.val ||| 0x80), low), r2),
           ((toByte ((cmd.address.val + 1) ||| 0x80), high), r3)]) ∧
    (toByte (cmd.address.val ||| 0x80)).val = cmd.address.val ||| 0x80 ∧
    (toByte ((cmd.address.val + 1) ||| 0x80)).val = ((cmd.address.val + 1) ||| 0x80) % 256 ∧
    (Responsive bus fuel → ∃ s1, write bus fuel cmd value s = .ok ((), s1)) := by
  have hv := value.isLt
  have ha := cmd.address.isLt
  have hlow : value.val &&& 0xff = value.val % 256 :=
    Nat.and_pow_two_sub_one_eq_mod value.val 8
  have hhigh : value.val >>> 8 = value.val / 256 := Nat.shiftRight_eq_div_pow value.val 8
  refine ⟨?_, ?_, rfl, write_returns bus fuel cmd value s⟩
  · intro s1 h
    obtain ⟨r1, r2, r3, he, _⟩ := write_ok bus fuel cmd value s hw s1 h
    refine ⟨r1, r2, r3, toByte (value.val &&& 0xff), toByte (value.val >>> 8), ?_, ?_,
      low_high_recombine value, he⟩
    · simp only [toByte, hlow]; omega
    · simp only [toByte, hhigh]; omega
  · have hlt : cmd.address.val ||| 0x80 < 2 ^ 8 := Nat.or_lt_two_pow (by simp) (by decide)
    simp only [toByte]
    omega

theorem write_three_exchanges_witness :
    (SpiCommand.mk 1 0x1A true true).writeFlag = true ∧
    ((∀ s1, write swapBus 1 (SpiCommand.mk 1 0x1A true true) 0x1234 (Session.start ())
        = .ok ((), s1) →
      ∃ r1 r2 r3 : WordBuffer, ∃ low high : Byte,
        low.val = (0x1234 : Word).val &&& 0xff ∧ high.val = (0x1234 : Word).val >>> 8 ∧
        256 * high.val + low.val = (0x1234 : Word).val ∧
        exchanges s1.trace = exchanges (Session.start ()).trace ++
          [((0x80, 1), r1),
           ((toByte ((0x1A : Byte).val ||| 0x80), low), r2),
           ((toByte (((0x1A : Byte).val + 1) ||| 0x80), high), r3)]) ∧
    (toByte ((0x1A : Byte).val ||| 0x80)).val = (0x1A : Byte).val ||| 0x80 ∧
    (toByte (((0x1A : Byte).val + 1) ||| 0x80)).val
      = (((0x1A : Byte).val + 1) ||| 0x80) % 256 ∧
    (Responsive swapBus 1 →
      ∃ s1, write swapBus 1 (SpiCommand.mk 1 0x1A true true) 0x1234 (Session.start ())
        = .ok ((), s1))) :=
  ⟨rfl, write_three_exchanges swapBus 1 (SpiCommand.mk 1 0x1A true true) 0x1234
    (Session.start ()) rfl⟩

/-- C6: for every 2-byte frame [b0, b1], `convert` gives the big-endian value
256 * b0 + b1 and `convertRTS` the little-endian value 256 * b1 + b0, both within
0..65535; `convertRTS [b0, b1] = convert [b1, b0]`, and each is a bijection between
frames and unsigned 16-bit values. -/
theorem convert_convertRTS_byte_order :
    (∀ w : WordBuffer,
      (convert w).val = 256 * w.1.val + w.2.val ∧
      (convertRTS w).val = 256 * w.2.val + w.1.val ∧
      (convert w).val ≤ 65535 ∧ (convertRTS w).val ≤ 65535 ∧
      convertRTS w = convert (w.2, w.1)) ∧
    Function.Bijective convert ∧ Function.Bijective convertRTS := by
  refine ⟨?_, ⟨convert_injective, convert_surjective⟩, ?_, ?_⟩
  · intro w
    have h1 := (convert w).isLt
    have h2 := (convertRTS w).isLt
    exact ⟨convert_val w, convertRTS_val w, by omega, by omega, rfl⟩
  · intro a b h
    have h0 : convert (a.2, a.1) = convert (b.2, b.1) := h
    have h1 := convert_injective h0
    simp only [Prod.mk.injEq] at h1
    exact Prod.ext h1.2 h1.1
  · intro v
    obtain ⟨w, hw⟩ := convert_surjective v
    exact ⟨(w.2, w.1), hw⟩

/-! ## The round trip through the echoing mock -/

theorem or_write_bit (x : Nat) (hx : x < 128) : x ||| 0x80 = x + 128 := by
  have h := @Nat.mul_add_lt_is_or 7 x (by simpa using hx) 1
  rw [Nat.or_comm]
  simpa [Nat.add_comm] using h.symm

theorem transferBlocking_echoBus (n : Nat) (sendBuf : WordBuffer) (s : Session EchoDevice) :
    transferBlocking echoBus (n + 1) sendBuf s =
      .ok ((s.dev.exchange sendBuf).1,
        { s with
          dev := (s.dev.exchange sendBuf).2
          trace := s.trace ++ [.busyPoll true] ++ [.exchange sendBuf (s.dev.exchange sendBuf).1] }) :=
  rfl

theorem EchoDevice.exchange_write (d : EchoDevice) (a : Nat) (b : Byte) (ha : a < 128) :
    d.exchange (toByte (a ||| 0x80), b) =
      (d.answer,
        { page := if toByte a = 0 then b else d.page
          mem := fun p x =>
            if p = (if toByte a = 0 then b else d.page) ∧ x = toByte a then b else d.mem p x
          answer := (0, 0) }) := by
  have h1 : (toByte (a ||| 0x80)).val = a + 128 := by
    rw [or_write_bit a ha]
    simp only [toByte]
    omega
  have h2 : toByte ((toByte (a ||| 0x80)).val - 0x80) = toByte a := by
    rw [h1]
    simp
  have h3 : 0x80 ≤ (toByte (a ||| 0x80)).val := by omega
  simp only [EchoDevice.exchange, h3, if_true, h2]

theorem EchoDevice.exchange_address (d : EchoDevice) (a : Byte) (ha : a.val < 128) :
    d.exchange (a, 0) =
      (d.answer, { d with answer := (d.mem d.page (toByte (a.val + 1)), d.mem d.page a) }) := by
  have h : ¬ (0x80 ≤ a.val) := by omega
  simp only [EchoDevice.exchange, h, if_false]

theorem EchoDevice.exchange_select (d : EchoDevice) (p : Byte) :
    d.exchange (0x80, p) =
      (d.answer,
        { page := p
          mem := fun q x => if q = p ∧ x = 0 then p else d.mem q x
          answer := (0, 0) }) := by
  have h := EchoDevice.exchange_write d 0 p (by decide)
  have h0 : toByte 0 = 0 := rfl
  have h1 : toByte (0 ||| 0x80) = 0x80 := rfl
  simpa only [h0, h1, if_true] using h

theorem EchoDevice.exchange_fst (d : EchoDevice) (sendBuf : WordBuffer) :
    (d.exchange sendBuf).1 = d.answer := by
  unfold EchoDevice.exchange
  split <;> rfl

/-- The round trip for the registers whose two bytes lie within the page and away
from the page-select address. -/
theorem writeThenRead_echoBus (n : Nat) (cmd : SpiCommand) (value : Word)
    (s : Session EchoDevice) (hr : cmd.readFlag = true) (hw : cmd.writeFlag = true)
    (h1 : 1 ≤ cmd.address.val) (h2 : cmd.address.val ≤ 0x7E) :
    writeThenRead echoBus (n + 1) cmd value s = .ok value := by
  have ha0 : toByte cmd.address.val = cmd.address := by
    apply Fin.ext; simp only [toByte]; omega
  have ha1 : (toByte (cmd.address.val + 1)).val = cmd.address.val + 1 := by
    simp only [toByte]; omega
  have hn0 : cmd.address ≠ 0 := by
    intro h; rw [h] at h1; simp at h1
  have hn1 : toByte (cmd.address.val + 1) ≠ 0 := by
    intro h; rw [h] at ha1; simp at ha1
  have hn2 : cmd.address ≠ toByte (cmd.address.val + 1) := by
    intro h; rw [← h] at ha1; omega
  simp only [writeThenRead, write, read, hr, hw, Bool.not_true, Bool.false_eq_true, if_false,
    transferBlocking_echoBus, bind, Except.bind, pure, Except.pure,
    EchoDevice.exchange_select, EchoDevice.exchange_write _ cmd.address.val _ (by omega),
    EchoDevice.exchange_write _ (cmd.address.val + 1) _ (by omega),
    EchoDevice.exchange_address _ cmd.address (by omega), ha0, hn0, hn1, if_false]
  congr 1
  apply Fin.ext
  rw [convert_val]
  simp only [EchoDevice.exchange_fst, hn2, hn2.symm, and_false, and_true, and_self, if_true,
    if_false]
  exact low_high_recombine value

/-- C5 (as amended): round trip through the mock device that echoes writes. For every
SpiCommand with readFlag and writeFlag set and 1 <= address <= 0x7E, every 16-bit value
v, every state of the mock and every poll budget of at least one poll, `write(cmd, v)`
followed by `read(cmd)` returns v. -/
theorem write_read_roundtrip (fuel : Nat) (cmd : SpiCommand) (value : Word)
    (s : Session EchoDevice) (hf : 0 < fuel) (hr : cmd.readFlag = true)
    (hw : cmd.writeFlag = true) (h1 : 1 ≤ cmd.address.val) (h2 : cmd.address.val ≤ 0x7E) :
    writeThenRead echoBus fuel cmd value s = .ok value := by
  obtain ⟨n, rfl⟩ : ∃ n, fuel = n + 1 := ⟨fuel - 1, by omega⟩
  exact writeThenRead_echoBus n cmd value s hr hw h1 h2

theorem write_read_roundtrip_witness :
    0 < 1 ∧ (SpiCommand.mk 0 0x1A true true).readFlag = true ∧
    (SpiCommand.mk 0 0x1A true true).writeFlag = true ∧
    1 ≤ (SpiCommand.mk 0 0x1A true true).address.val ∧
    (SpiCommand.mk 0 0x1A true true).address.val ≤ 0x7E ∧
    writeThenRead echoBus 1 (SpiCommand.mk 0 0x1A true true) 0x1103
      (Session.start EchoDevice.blank) = .ok 0x1103 :=
  ⟨by decide, rfl, rfl, by decide, by decide,
    write_read_roundtrip 1 (SpiCommand.mk 0 0x1A true true) 0x1103
      (Session.start EchoDevice.blank) (by decide) rfl rfl (by decide) (by decide)⟩

/-- C5 as stated fails at address 0, which is within `address <= 0x7E`: the low-byte
frame {0x00 | 0x80, 0x01} of the write is a page select, so the bytes of 0x0201 land on
page 1 and the read of page 0 returns 0. -/
theorem roundtrip_fails_at_address_zero :
    (SpiCommand.mk 0 0 true true).readFlag = true ∧
    (SpiCommand.mk 0 0 true true).writeFlag = true ∧
    (SpiCommand.mk 0 0 true true).address.val ≤ 0x7E ∧
    writeThenRead echoBus 1 (SpiCommand.mk 0 0 true true) 0x0201
      (Session.start EchoDevice.blank) = .ok 0 ∧
    writeThenRead echoBus 1 (SpiCommand.mk 0 0 true true) 0x0201
      (Session.start EchoDevice.blank) ≠ .ok 0x0201 := by
  refine ⟨rfl, rfl, by decide, rfl, ?_⟩
  intro h
  have h0 : writeThenRead echoBus 1 (SpiCommand.mk 0 0 true true) 0x0201
      (Session.start EchoDevice.blank) = .ok 0 := rfl
  rw [h0] at h
  simp only [Except.ok.injEq] at h
  exact absurd h (by decide)

/-! ## The streaming block parser -/

theorem seen_succ (a b n : Nat) :
    seen a b (n + 1) = if a ≤ n ∧ n < a + b then seen a b n ++ [n] else seen a b n := by
  unfold seen
  split
  · rename_i h
    have h1 : min b (n + 1 - a) = min b (n - a) + 1 := by omega
    have h2 : a + min b (n - a) = n := by omega
    rw [h1, List.range'_1_concat, h2]
  · rename_i h
    have h1 : min b (n + 1 - a) = min b (n - a) := by omega
    rw [h1]

theorem parsedUpTo_zero {F : Type} [NatCast F] (resp : List Word) (vd : VibrationData F) :
    parsedUpTo resp vd 0 = vd := by
  simp [parsedUpTo, seen]

theorem parseRtsData_body_step {F : Type} [NatCast F] (resp : List Word)
    (vd : VibrationData F) (n : Nat) :
    parseRtsData.body resp (parsedUpTo resp vd n) n = parsedUpTo resp vd (n + 1) := by
  have hreg : n = 0 ∨ (1 ≤ n ∧ n ≤ 32) ∨ (33 ≤ n ∧ n ≤ 64) ∨ (65 ≤ n ∧ n ≤ 96) ∨
      n = 97 ∨ n = 98 ∨ n = 99 ∨ 100 ≤ n := by omega
  simp only [parseRtsData.body, parsedUpTo, seen_succ]
  rcases hreg with h | h | h | h | h | h | h | h <;>
    simp (disch := omega) only [if_pos, if_neg, List.map_append, List.map_cons, List.map_nil,
      List.append_assoc, wordAt]

theorem parseRtsData_loop {F : Type} [NatCast F] (resp : List Word) (vd : VibrationData F)
    (n : Nat) :
    (List.range n).foldl (parseRtsData.body resp) vd = parsedUpTo resp vd n := by
  induction n with
  | zero => simp [parsedUpTo_zero]
  | succ n ih => rw [List.range_succ, List.foldl_append, ih]; simp [parseRtsData_body_step]

theorem seen_full :
    seen 0 1 100 = [0] ∧ seen 1 32 100 = List.range' 1 32 ∧ seen 33 32 100 = List.range' 33 32 ∧
    seen 65 32 100 = List.range' 65 32 ∧ seen 97 1 100 = [97] ∧ seen 98 1 100 = [98] ∧
    seen 99 1 100 = [99] := by
  refine ⟨rfl, rfl, rfl, rfl, rfl, rfl, rfl⟩

/-- C7: for every block of exactly 100 words and every batch, `parseRtsData` returns
true and appends, in order, word 0 to sequenceNumber, words 1..32 to xAxis, words 33..64
to yAxis, words 65..96 to zAxis, word 97 to temperature, word 98 to status and word 99 to
crc; the earlier contents of every sequence, stepAxis and recordingMode stay, and nothing
is logged. From an empty batch, the block seq=5, x=1..32, y=33..64, z=65..96, temp=7,
status=8, crc=9 yields sequenceNumber=[5], xAxis of length 32 starting at 1,
temperature=[7], status=[8], crc=[9]. -/
theorem parseRtsData_appends_by_position {σ F : Type} [NatCast F] (resp : List Word)
    (vd : VibrationData F) (s : Session σ) (h : resp.length = 100) :
    parseRtsData resp vd s = .ok ((true,
      { recordingMode := vd.recordingMode
        stepAxis := vd.stepAxis
        xAxis := vd.xAxis ++ (List.range' 1 32).map (wordAt resp)
        yAxis := vd.yAxis ++ (List.range' 33 32).map (wordAt resp)
        zAxis := vd.zAxis ++ (List.range' 65 32).map (wordAt resp)
        temperature := vd.temperature ++ [wordAt resp 97]
        status := vd.status ++ [wordAt resp 98]
        crc := vd.crc ++ [wordAt resp 99]
        sequenceNumber := vd.sequenceNumber ++ [wordAt resp 0] }), s) ∧
    ∃ vd1 : VibrationData ℚ,
      parseRtsData sampleBlock (VibrationData.empty ℚ .RTS) s = .ok ((true, vd1), s) ∧
      vd1.sequenceNumber = [5] ∧ vd1.xAxis.length = 32 ∧ vd1.xAxis.head? = some 1 ∧
      vd1.temperature = [7] ∧ vd1.status = [8] ∧ vd1.crc = [9] := by
  obtain ⟨e0, e1, e2, e3, e4, e5, e6⟩ := seen_full
  have key : ∀ (G : Type) [NatCast G] (r : List Word) (v : VibrationData G),
      r.length = 100 →
      parseRtsData r v s = .ok ((true, parsedUpTo r v 100), s) := by
    intro G _ r v hr
    simp only [parseRtsData, hr, ne_eq, not_true_eq_false, if_false, parseRtsData_loop]
  constructor
  · rw [key F resp vd h]
    simp only [parsedUpTo, e0, e1, e2, e3, e4, e5, e6, List.map_cons, List.map_nil]
  · have hl : sampleBlock.length = 100 := by decide
    have g0 : sampleBlock.getD 0 0 = 5 := by decide
    have g1 : sampleBlock.getD 1 0 = 1 := by decide
    have g97 : sampleBlock.getD 97 0 = 7 := by decide
    have g98 : sampleBlock.getD 98 0 = 8 := by decide
    have g99 : sampleBlock.getD 99 0 = 9 := by decide
    refine ⟨parsedUpTo sampleBlock (VibrationData.empty ℚ .RTS) 100,
      key ℚ sampleBlock _ hl, ?_, ?_, ?_, ?_, ?_, ?_⟩
    · have w : (wordAt sampleBlock 0 : ℚ) = 5 := by
        unfold wordAt; rw [g0]; show ((5 : Nat) : ℚ) = 5; norm_num
      simp only [parsedUpTo, e0, VibrationData.empty, List.map_cons, List.map_nil,
        List.nil_append, w]
    · simp [parsedUpTo, e1, VibrationData.empty]
    · have hx : (List.range' 1 32).map (wordAt sampleBlock)
          = (wordAt sampleBlock 1 : ℚ) :: (List.range' 2 31).map (wordAt sampleBlock) := rfl
      have w : (wordAt sampleBlock 1 : ℚ) = 1 := by
        unfold wordAt; rw [g1]; show ((1 : Nat) : ℚ) = 1; norm_num
      simp only [parsedUpTo, e1, VibrationData.empty, hx, List.nil_append, List.head?_cons, w]
    · have w : (wordAt sampleBlock 97 : ℚ) = 7 := by
        unfold wordAt; rw [g97]; show ((7 : Nat) : ℚ) = 7; norm_num
      simp only [parsedUpTo, e4, VibrationData.empty, List.map_cons, List.map_nil,
        List.nil_append, w]
    · have w : (wordAt sampleBlock 98 : ℚ) = 8 := by
        unfold wordAt; rw [g98]; show ((8 : Nat) : ℚ) = 8; norm_num
      simp only [parsedUpTo, e5, VibrationData.empty, List.map_cons, List.map_nil,
        List.nil_append, w]
    · have w : (wordAt sampleBlock 99 : ℚ) = 9 := by
        unfold wordAt; rw [g99]; show ((9 : Nat) : ℚ) = 9; norm_num
      simp only [parsedUpTo, e6, VibrationData.empty, List.map_cons, List.map_nil,
        List.nil_append, w]

theorem parseRtsData_appends_by_position_witness :
    sampleBlock.length = 100 ∧
    ∃ vd1 : VibrationData ℚ,
      parseRtsData sampleBlock (VibrationData.empty ℚ .RTS) (Session.start ())
        = .ok ((true, vd1), Session.start ()) ∧
      vd1.sequenceNumber = [5] ∧ vd1.xAxis.length = 32 ∧ vd1.xAxis.head? = some 1 ∧
      vd1.temperature = [7] ∧ vd1.status = [8] ∧ vd1.crc = [9] :=
  ⟨by decide,
    (parseRtsData_appends_by_position sampleBlock (VibrationData.empty ℚ .RTS)
      (Session.start ()) (by decide)).2⟩

/-- C8: for every block whose length is not exactly 100 (99, for one), `parseRtsData`
rejects it: it returns false and leaves the batch as it was, nothing is appended to any
sequence; the rejection is logged and the bus is not touched. -/
theorem parseRtsData_rejects_other_lengths {σ F : Type} [NatCast F] (resp : List Word)
    (vd : VibrationData F) (s : Session σ) (h : resp.length ≠ 100) :
    ∃ s1, parseRtsData resp vd s = .ok ((false, vd), s1) ∧
      s1.log = s.log ++ [.rtsParsingError] ∧ s1.trace = s.trace ∧ s1.dev = s.dev ∧
      s1.currentRecordingMode = s.currentRecordingMode := by
  refine ⟨{ s with log := s.log ++ [.rtsParsingError] }, ?_, rfl, rfl, rfl, rfl⟩
  simp only [parseRtsData, h, ne_eq, not_false_eq_true, if_true]

theorem parseRtsData_rejects_other_lengths_witness :
    (List.replicate 99 (0 : Word)).length ≠ 100 ∧
    ∃ s1, parseRtsData (List.replicate 99 (0 : Word)) (VibrationData.empty ℚ .RTS)
        (Session.start ()) = .ok ((false, VibrationData.empty ℚ .RTS), s1) ∧
      s1.log = (Session.start ()).log ++ [.rtsParsingError] ∧
      s1.trace = (Session.start ()).trace ∧ s1.dev = (Session.start ()).dev ∧
      s1.currentRecordingMode = (Session.start ()).currentRecordingMode :=
  ⟨by decide,
    parseRtsData_rejects_other_lengths (List.replicate 99 (0 : Word))
      (VibrationData.empty ℚ .RTS) (Session.start ()) (by decide)⟩

/-! ## The step axis -/

theorem foldl_push_eq_map {α β : Type} (f : α → β) (l : List α) (init : List β) :
    l.foldl (fun acc i => acc ++ [f i]) init = init ++ l.map f := by
  induction l generalizing init with
  | nil => simp
  | cons a t ih => simp [ih]

/-- C9 (as amended): for every stepSize and every count >= 0, `generateSteps` returns
a sequence of length count whose element at index i is stepSize * i, for every i in
[0, count); generateSteps(0.5, 4) = [0.0, 0.5, 1.0, 1.5]. -/
theorem generateSteps_nonnegative_count {F : Type} [Mul F] [IntCast F] (stepSize : F)
    (samplesCount : Int) (h : 0 ≤ samplesCount) :
    (∃ stepAxis, generateSteps stepSize samplesCount = .ok stepAxis ∧
      (stepAxis.length : Int) = samplesCount ∧
      ∀ i : Nat, Int.ofNat i < samplesCount →
        stepAxis[i]? = some (stepSize * ((Int.ofNat i : Int) : F))) ∧
    generateSteps (1 / 2 : ℚ) 4 = .ok [0, 1 / 2, 1, 3 / 2] := by
  constructor
  · refine ⟨(List.range samplesCount.toNat).map
      (fun (i : Nat) => stepSize * ((Int.ofNat i : Int) : F)), ?_, ?_, ?_⟩
    · simp only [generateSteps, not_lt.mpr h, if_false, foldl_push_eq_map, List.nil_append]
    · simp only [List.length_map, List.length_range]
      omega
    · intro i hi
      have hi2 : i < samplesCount.toNat := by
        have : (i : Int) < samplesCount := hi
        omega
      rw [List.getElem?_map, List.getElem?_range hi2]
      rfl
  · have h4 : ¬ ((4 : Int) < 0) := by decide
    have hn : (4 : Int).toNat = 4 := rfl
    simp only [generateSteps, h4, if_false, foldl_push_eq_map, hn, List.nil_append]
    norm_num [List.range_succ]

theorem generateSteps_nonnegative_count_witness :
    (0 : Int) ≤ 4 ∧ generateSteps (1 / 2 : ℚ) 4 = .ok [0, 1 / 2, 1, 3 / 2] :=
  ⟨by decide, (generateSteps_nonnegative_count (1 / 2 : ℚ) 4 (by decide)).2⟩

/-- C9 as stated fails for a negative count: `reserve(-1)` asks for more than
`max_size()` elements, so `generateSteps(0.5, -1)` throws `std::length_error` and returns
no sequence, not the empty sequence of length max(-1, 0) = 0. -/
theorem generateSteps_negative_count_throws :
    generateSteps (1 / 2 : ℚ) (-1) = .error .lengthError ∧
    generateSteps (1 / 2 : ℚ) (-1) ≠ .ok [] := by
  have h : generateSteps (1 / 2 : ℚ) (-1) = .error .lengthError := by
    simp [generateSteps]
  exact ⟨h, by rw [h]; simp⟩

/-! ## Mode activation -/

theorem ofBits_eq_iff (k : Nat) (hk : k < 4) (m : RecordingMode) :
    RecordingMode.ofBits k = m ↔ k = m.code := by
  have hcases : k = 0 ∨ k = 1 ∨ k = 2 ∨ k = 3 := by omega
  rcases hcases with h | h | h | h <;> subst h <;> cases m <;>
    simp [RecordingMode.ofBits, RecordingMode.code]

theorem and_three (x : Nat) : x &&& 0x3 = x % 4 := Nat.and_pow_two_sub_one_eq_mod x 2

/-- What `writeRecordingControl` returns, in terms of the response to the null frame of
its read of the recording-control register. -/
theorem writeRecordingControl_ok {σ : Type} (decl : Declarations) (bus : Bus σ) (fuel : Nat)
    (mode : RecordingMode) (win : WindowSetting) (s : Session σ)
    (hr : decl.REC_CTRL.readFlag = true) (b : Bool) (s1 : Session σ)
    (h : writeRecordingControl decl bus fuel mode win s = .ok (b, s1)) :
    ∃ (ex : List (WordBuffer × WordBuffer)) (r1 r2 r : WordBuffer),
      exchanges s1.trace = ex ++
        [((0x80, decl.REC_CTRL.pageId), r1), ((decl.REC_CTRL.address, 0), r2), ((0, 0), r)] ∧
      (∃ pre, s1.trace = pre ++ [.exchange (0, 0) r]) ∧
      s1.currentRecordingMode = RecordingMode.ofBits ((convert r).val % 4) ∧
      (b = true ↔ (convert r).val % 4 = mode.code) := by
  simp only [writeRecordingControl] at h
  obtain ⟨⟨u, t1⟩, _, h⟩ := (bind_ok _ _ _).1 h
  obtain ⟨⟨v, t2⟩, hread, h⟩ := (bind_ok _ _ _).1 h
  simp only [pure, Except.pure, Except.ok.injEq, Prod.mk.injEq] at h
  obtain ⟨hb, hs⟩ := h
  obtain ⟨r1, r2, r, he, hv, hpre, _, _⟩ := read_ok bus fuel decl.REC_CTRL t1 hr v t2 hread
  subst hs
  subst hv
  refine ⟨exchanges t1.trace, r1, r2, r, he, hpre, ?_, ?_⟩
  · simp only [and_three]
  · rw [← hb, and_three]
    simp only [decide_eq_true_eq]
    exact ofBits_eq_iff _ (Nat.mod_lt _ (by decide)) mode

theorem writeRecordingControl_returns {σ : Type} (decl : Declarations) (bus : Bus σ)
    (fuel : Nat) (mode : RecordingMode) (win : WindowSetting) (s : Session σ)
    (hb : Responsive bus fuel) :
    ∃ b s1, writeRecordingControl decl bus fuel mode win s = .ok (b, s1) := by
  simp only [writeRecordingControl]
  obtain ⟨t1, h1⟩ := write_returns bus fuel decl.REC_CTRL
    (toWord ((toWord ((0x100 : Word).val ||| ((toByte win.value).val <<< 12))).val |||
      (toByte mode.code).val)) s hb
  obtain ⟨v, t2, h2⟩ := read_returns bus fuel decl.REC_CTRL t1 hb
  simp only [h1, h2, bind, Except.bind, pure, Except.pure]
  exact ⟨_, _, rfl⟩

theorem writeEach_returns {σ : Type} (bus : Bus σ) (fuel : Nat)
    (l : List (SpiCommand × Word)) (s : Session σ) (hb : Responsive bus fuel) :
    ∃ s1, writeEach bus fuel l s = .ok ((), s1) := by
  induction l generalizing s with
  | nil => exact ⟨s, rfl⟩
  | cons p rest ih =>
    obtain ⟨cmd, value⟩ := p
    obtain ⟨t1, h1⟩ := write_returns bus fuel cmd value s hb
    obtain ⟨t2, h2⟩ := ih t1
    refine ⟨t2, ?_⟩
    simp only [writeEach, h1, h2, bind, Except.bind]

theorem writeFIRFilter_returns {σ : Type} (decl : Declarations) (bus : Bus σ) (fuel : Nat)
    (firFilter : FIRFilter) (s : Session σ) (hb : Responsive bus fuel) :
    ∃ s1, writeFIRFilter decl bus fuel firFilter s = .ok ((), s1) :=
  write_returns bus fuel decl.FILT_CTRL _ s hb

/-- Mode activation ends with `writeRecordingControl`: its result is the result of that
last call. -/
theorem activateMode_ends_with_recordingControl {σ : Type} (decl : Declarations)
    (bus : Bus σ) (fuel : Nat) (cfg : RecordingConfig) (mode : RecordingMode)
    (win : WindowSetting) (s : Session σ) (b : Bool) (s1 : Session σ)
    (h : activateMode decl bus fuel cfg mode win s = .ok (b, s1)) :
    ∃ s0, writeRecordingControl decl bus fuel mode win s0 = .ok (b, s1) := by
  cases mode with
  | RTS => exact ⟨s, h⟩
  | MFFT =>
    simp only [activateMode] at h
    obtain ⟨⟨_, t1⟩, _, h⟩ := (bind_ok _ _ _).1 h
    split at h
    · obtain ⟨⟨_, t2⟩, _, h⟩ := (bind_ok _ _ _).1 h
      obtain ⟨⟨_, t3⟩, _, h⟩ := (bind_ok _ _ _).1 h
      exact ⟨t3, h⟩
    · obtain ⟨⟨_, t2⟩, _, h⟩ := (bind_ok _ _ _).1 h
      exact ⟨t2, h⟩
  | AFFT =>
    simp only [activateMode] at h
    obtain ⟨⟨_, t1⟩, _, h⟩ := (bind_ok _ _ _).1 h
    split at h
    · obtain ⟨⟨_, t2⟩, _, h⟩ := (bind_ok _ _ _).1 h
      obtain ⟨⟨_, t3⟩, _, h⟩ := (bind_ok _ _ _).1 h
      exact ⟨t3, h⟩
    · obtain ⟨⟨_, t2⟩, _, h⟩ := (bind_ok _ _ _).1 h
      exact ⟨t2, h⟩
  | MTC =>
    simp only [activateMode] at h
    obtain ⟨⟨_, t1⟩, _, h⟩ := (bind_ok _ _ _).1 h
    split at h
    · obtain ⟨⟨_, t2⟩, _, h⟩ := (bind_ok _ _ _).1 h
      obtain ⟨⟨_, t3⟩, _, h⟩ := (bind_ok _ _ _).1 h
      exact ⟨t3, h⟩
    · obtain ⟨⟨_, t2⟩, _, h⟩ := (bind_ok _ _ _).1 h
      exact ⟨t2, h⟩

theorem activateMode_returns {σ : Type} (decl : Declarations) (bus : Bus σ) (fuel : Nat)
    (cfg : RecordingConfig) (mode : RecordingMode) (win : WindowSetting) (s : Session σ)
    (hb : Responsive bus fuel) :
    ∃ b s1, activateMode decl bus fuel cfg mode win s = .ok (b, s1) := by
  have tail : ∀ t, ∃ b s1, writeRecordingControl decl bus fuel mode win t = .ok (b, s1) :=
    fun t => writeRecordingControl_returns decl bus fuel mode win t hb
  obtain ⟨t1, h1⟩ := write_returns bus fuel decl.AVG_CNT
    (toWord ((0x7420 : Word).val ||| (toByte cfg.decimationFactor.value).val)) s hb
  by_cases hc : cfg.firFilter = decl.CUSTOM
  · obtain ⟨t, ht⟩ := writeEach_returns bus fuel
      ((List.finRange 32).map fun i => (decl.FIR_COEFFS_F i, wordOfInt (cfg.customFilterTaps i)))
      t1 hb
    obtain ⟨t2, h2⟩ := writeFIRFilter_returns decl bus fuel decl.HIGH_PASS_10kHz t hb
    obtain ⟨b, s1, h3⟩ := tail t2
    cases mode with
    | RTS => exact tail s
    | MFFT =>
      exact ⟨b, s1, by
        simp only [activateMode, h1, hc, if_true, writeCustomFIRFilterTaps, ht, h2, h3, bind,
          Except.bind]⟩
    | AFFT =>
      exact ⟨b, s1, by
        simp only [activateMode, h1, hc, if_true, writeCustomFIRFilterTaps, ht, h2, h3, bind,
          Except.bind]⟩
    | MTC =>
      exact ⟨b, s1, by
        simp only [activateMode, h1, hc, if_true, writeCustomFIRFilterTaps, ht, h2, h3, bind,
          Except.bind]⟩
  · obtain ⟨t2, h2⟩ := writeFIRFilter_returns decl bus fuel cfg.firFilter t1 hb
    obtain ⟨b, s1, h3⟩ := tail t2
    cases mode with
    | RTS => exact tail s
    | MFFT =>
      exact ⟨b, s1, by simp only [activateMode, h1, hc, if_false, h2, h3, bind, Except.bind]⟩
    | AFFT =>
      exact ⟨b, s1, by simp only [activateMode, h1, hc, if_false, h2, h3, bind, Except.bind]⟩
    | MTC =>
      exact ⟨b, s1, by simp only [activateMode, h1, hc, if_false, h2, h3, bind, Except.bind]⟩

theorem captureBus_responsive (n : Nat) : Responsive captureBus (n + 1) := by
  intro d
  simp [readyWithin, captureBus]

theorem transferBlocking_captureBus (n : Nat) (sendBuf : WordBuffer) (s : Session Unit) :
    transferBlocking captureBus (n + 1) sendBuf s =
      .ok ((0x01, 0x02),
        { s with
          dev := ()
          trace := s.trace ++ [.busyPoll true] ++ [.exchange sendBuf (0x01, 0x02)] }) :=
  rfl

theorem captureBus_reports_capture :
    RecordingMode.ofBits ((convert (0x01, 0x02)).val &&& 0x3) = .MTC := by decide

/-- C10: for every requested mode, config and window setting, an `activateMode` that
returns ends with the three exchanges of the read of the recording-control register, and
it returns true if and only if the two low bits of the value re-read there (the response
to the final null frame, in standard byte order) equal the requested mode's code. On a
device that answers within the poll budget it does return. Against the mock device that
always reports mode = Capture, `activateMode(Streaming, ...)` returns false. -/
theorem activateMode_true_iff_mode_latched {σ : Type} (decl : Declarations) (bus : Bus σ)
    (fuel : Nat) (cfg : RecordingConfig) (mode : RecordingMode) (win : WindowSetting)
    (s : Session σ) (hr : decl.REC_CTRL.readFlag = true) :
    (∀ b s1, activateMode decl bus fuel cfg mode win s = .ok (b, s1) →
      ∃ (ex : List (WordBuffer × WordBuffer)) (r1 r2 r : WordBuffer),
        exchanges s1.trace = ex ++
          [((0x80, decl.REC_CTRL.pageId), r1), ((decl.REC_CTRL.address, 0), r2), ((0, 0), r)] ∧
        (b = true ↔ (256 * r.1.val + r.2.val) % 4 = mode.code)) ∧
    (Responsive bus fuel → ∃ b s1, activateMode decl bus fuel cfg mode win s = .ok (b, s1)) ∧
    (∀ (n : Nat) (t : Session Unit),
      ∃ t1, activateMode decl captureBus (n + 1) cfg .RTS win t = .ok (false, t1)) := by
  refine ⟨?_, activateMode_returns decl bus fuel cfg mode win s, ?_⟩
  · intro b s1 h
    obtain ⟨s0, h0⟩ := activateMode_ends_with_recordingControl decl bus fuel cfg mode win s b s1 h
    obtain ⟨ex, r1, r2, r, he, _, _, hb⟩ :=
      writeRecordingControl_ok decl bus fuel mode win s0 hr b s1 h0
    rw [convert_val] at hb
    exact ⟨ex, r1, r2, r, he, hb⟩
  · intro n t
    have hc := captureBus_reports_capture
    cases hw : decl.REC_CTRL.writeFlag <;>
      simp only [activateMode, writeRecordingControl, write, read, hr, hw, Bool.not_true,
        Bool.not_false, Bool.false_eq_true, if_false, if_true, transferBlocking_captureBus,
        bind, Except.bind, pure, Except.pure, hc] <;>
      exact ⟨_, rfl⟩

theorem activateMode_true_iff_mode_latched_witness :
    sampleDeclarations.REC_CTRL.readFlag = true ∧
    ∃ t1, activateMode sampleDeclarations captureBus 1 sampleConfig .RTS ⟨0⟩
      (Session.start ()) = .ok (false, t1) :=
  ⟨rfl, (activateMode_true_iff_mode_latched sampleDeclarations captureBus 1 sampleConfig .RTS
    ⟨0⟩ (Session.start ()) rfl).2.2 0 (Session.start ())⟩

/-! ## The busy wait -/

theorem transferBlocking_trace {σ : Type} (bus : Bus σ) (fuel : Nat) (sendBuf : WordBuffer)
    (s : Session σ) (r : WordBuffer) (s1 : Session σ)
    (h : transferBlocking bus fuel sendBuf s = .ok (r, s1)) :
    ∃ k d0 d1, k < fuel ∧ busyPolls bus k s.dev = some d0 ∧
      bus.gpio_read d0 = some (true, d1) ∧ bus.spi_transfer d1 sendBuf = some (r, s1.dev) ∧
      s1.trace = s.trace ++ List.replicate k (.busyPoll false)
        ++ [.busyPoll true, .exchange sendBuf r] := by
  induction fuel generalizing s with
  | zero => simp [transferBlocking] at h
  | succ n ih =>
    unfold transferBlocking at h
    split at h
    · cases h
    · rename_i notBusy d heq
      cases notBusy with
      | true =>
        simp only [if_true] at h
        obtain ⟨d2, hx, hs⟩ := transfer_ok bus sendBuf _ r s1 h
        subst hs
        exact ⟨0, s.dev, d, Nat.succ_pos n, rfl, heq, hx, by simp⟩
      | false =>
        simp only [Bool.false_eq_true, if_false] at h
        obtain ⟨k, d0, d1, hk, hp, hg, hx, ht⟩ := ih _ h
        refine ⟨k + 1, d0, d1, Nat.succ_lt_succ hk, ?_, hg, hx, ?_⟩
        · simp only [busyPolls, heq]
          exact hp
        · rw [ht]
          simp [List.replicate_succ]

theorem transferBlocking_of_polls {σ : Type} (bus : Bus σ) (fuel : Nat) (sendBuf : WordBuffer)
    (s : Session σ) (k : Nat) (d0 d1 d2 : σ) (r : WordBuffer) (hk : k < fuel)
    (hp : busyPolls bus k s.dev = some d0) (hg : bus.gpio_read d0 = some (true, d1))
    (hx : bus.spi_transfer d1 sendBuf = some (r, d2)) :
    transferBlocking bus fuel sendBuf s = .ok (r,
      { s with
        dev := d2
        trace := s.trace ++ List.replicate k (.busyPoll false)
          ++ [.busyPoll true, .exchange sendBuf r] }) := by
  induction k generalizing s fuel with
  | zero =>
    obtain ⟨n, rfl⟩ : ∃ n, fuel = n + 1 := ⟨fuel - 1, by omega⟩
    simp only [busyPolls, Option.some.injEq] at hp
    subst hp
    simp only [transferBlocking, hg, if_true, transfer, hx, List.replicate_zero,
      List.append_nil, List.append_assoc, List.singleton_append]
  | succ k ih =>
    obtain ⟨n, rfl⟩ : ∃ n, fuel = n + 1 := ⟨fuel - 1, by omega⟩
    unfold busyPolls at hp
    split at hp
    · rename_i d3 heq
      have h := ih n { s with dev := d3, trace := s.trace ++ [.busyPoll false] }
        (by omega) hp
      simp only [transferBlocking, heq, Bool.false_eq_true, if_false, h]
      simp [List.replicate_succ]
    · cases hp

theorem transferBlocking_all_busy {σ : Type} (bus : Bus σ) (fuel : Nat) (sendBuf : WordBuffer)
    (s : Session σ) (d : σ) (hp : busyPolls bus fuel s.dev = some d) :
    transferBlocking bus fuel sendBuf s = .error .busyForever := by
  induction fuel generalizing s with
  | zero => rfl
  | succ n ih =>
    unfold busyPolls at hp
    split at hp
    · rename_i d3 heq
      simp only [transferBlocking, heq, Bool.false_eq_true, if_false]
      exact ih _ hp
    · cases hp

/-- C16: `transferBlocking` never exchanges while the device is busy. A call that
returns polled busy `k` times, then polled not busy once, then made exactly one
exchange, from the device state of that poll, and returns its response. Whenever the
line first reads not busy at a poll within the budget, the call does return so. While
every poll reads busy the call makes no exchange at all: it is still waiting when the
budget is used up, whatever the exchange function is. -/
theorem transferBlocking_never_exchanges_while_busy {σ : Type} (bus : Bus σ) (fuel : Nat)
    (sendBuf : WordBuffer) (s : Session σ) :
    (∀ r s1, transferBlocking bus fuel sendBuf s = .ok (r, s1) →
      ∃ k d0 d1, k < fuel ∧ busyPolls bus k s.dev = some d0 ∧
        bus.gpio_read d0 = some (true, d1) ∧ bus.spi_transfer d1 sendBuf = some (r, s1.dev) ∧
        s1.trace = s.trace ++ List.replicate k (.busyPoll false)
          ++ [.busyPoll true, .exchange sendBuf r]) ∧
    (∀ k d0 d1 d2 r, k < fuel → busyPolls bus k s.dev = some d0 →
      bus.gpio_read d0 = some (true, d1) → bus.spi_transfer d1 sendBuf = some (r, d2) →
      transferBlocking bus fuel sendBuf s = .ok (r,
        { s with
          dev := d2
          trace := s.trace ++ List.replicate k (.busyPoll false)
            ++ [.busyPoll true, .exchange sendBuf r] })) ∧
    (∀ d, busyPolls bus fuel s.dev = some d →
      transferBlocking bus fuel sendBuf s = .error .busyForever) := by
  refine ⟨transferBlocking_trace bus fuel sendBuf s, ?_, transferBlocking_all_busy bus fuel sendBuf s⟩
  intro k d0 d1 d2 r hk hp hg hx
  exact transferBlocking_of_polls bus fuel sendBuf s k d0 d1 d2 r hk hp hg hx

theorem transferBlocking_never_exchanges_while_busy_witness :
    transferBlocking swapBus 1 (1, 2) (Session.start ()) = .ok ((2, 1),
      { Session.start () with
        dev := ()
        trace := (Session.start ()).trace ++ List.replicate 0 (.busyPoll false)
          ++ [.busyPoll true, .exchange (1, 2) (2, 1)] }) :=
  (transferBlocking_never_exchanges_while_busy swapBus 1 (1, 2) (Session.start ())).2.1
    0 () () () (2, 1) (by decide) rfl rfl rfl

/-! ## The spectrum conversion -/

theorem read_keeps_mode {σ : Type} (bus : Bus σ) (fuel : Nat) (cmd : SpiCommand)
    (s : Session σ) (v : Word) (s1 : Session σ) (h : read bus fuel cmd s = .ok (v, s1)) :
    s1.currentRecordingMode = s.currentRecordingMode ∧
      sentFrames s1 = sentFrames s ++ readFrames cmd := by
  cases hr : cmd.readFlag with
  | true =>
    obtain ⟨r1, r2, r3, he, _, _, _, hm⟩ := read_ok bus fuel cmd s hr v s1 h
    refine ⟨hm, ?_⟩
    simp only [sentFrames, he, readFrames, hr, if_true, List.map_append, List.map_cons,
      List.map_nil]
  | false =>
    simp only [read, hr, Bool.not_false, if_true, Except.ok.injEq, Prod.mk.injEq] at h
    obtain ⟨_, hs⟩ := h
    subst hs
    simp [sentFrames, readFrames, hr]

theorem write_keeps_mode {σ : Type} (bus : Bus σ) (fuel : Nat) (cmd : SpiCommand)
    (value : Word) (s : Session σ) (s1 : Session σ)
    (h : write bus fuel cmd value s = .ok ((), s1)) :
    s1.currentRecordingMode = s.currentRecordingMode ∧
      sentFrames s1 = sentFrames s ++ writeFrames cmd value := by
  cases hw : cmd.writeFlag with
  | true =>
    obtain ⟨r1, r2, r3, he, _, hm⟩ := write_ok bus fuel cmd value s hw s1 h
    refine ⟨hm, ?_⟩
    simp only [sentFrames, he, writeFrames, hw, if_true, List.map_append, List.map_cons,
      List.map_nil]
  | false =>
    simp only [write, hw, Bool.not_false, if_true, Except.ok.injEq, Prod.mk.injEq,
      true_and] at h
    subst h
    simp [sentFrames, writeFrames, hw]

/-- What the switch of `retrieveVibrationData` selects, mode by mode. -/
theorem dispatch_ok {σ F : Type} [FloatArith F] (decl : Declarations) (bus : Bus σ)
    (fuel : Nat) (s : Session σ) (r : Int × F × (Int → F)) (s1 : Session σ)
    (h : retrieveVibrationData.dispatch decl bus fuel s = .ok (r, s1)) :
    s1.currentRecordingMode = s.currentRecordingMode ∧
    (s.currentRecordingMode = .RTS → r.1 = 10 ∧ s1 = s ∧
      r.2.1 = ((1 : Nat) : F) / ((220000 : Nat) : F)) ∧
    (s.currentRecordingMode = .MTC → r.1 = 4096 ∧
      ∃ v t, read bus fuel decl.REC_INFO2 s = .ok (v, t) ∧
        r.2.1 = ((1 : Nat) : F) /
          (((220000 : Nat) : F) / ((Int.ofNat (2 ^ (v.val &&& 0x7)) : Int) : F))) ∧
    (s.currentRecordingMode ≠ .RTS → s.currentRecordingMode ≠ .MTC → r.1 = 2048 ∧
      ∃ n : Byte, r.2.2 = convertVibrationValue s.currentRecordingMode n) := by
  unfold retrieveVibrationData.dispatch at h
  split at h
  · rename_i hm
    simp only [Except.ok.injEq, Prod.mk.injEq] at h
    obtain ⟨hr, hs⟩ := h
    subst hs
    subst hr
    simp [hm]
  · rename_i hm
    obtain ⟨⟨d, t1⟩, h1, h⟩ := (bind_ok _ _ _).1 h
    simp only [pure, Except.pure, Except.ok.injEq, Prod.mk.injEq] at h
    obtain ⟨hr, hs⟩ := h
    subst hs
    subst hr
    simp only [readRecInfoDecimationFactor] at h1
    obtain ⟨⟨v, t⟩, hread, h1⟩ := (bind_ok _ _ _).1 h1
    simp only [pure, Except.pure, Except.ok.injEq, Prod.mk.injEq] at h1
    obtain ⟨hd, ht⟩ := h1
    subst ht
    subst hd
    refine ⟨(read_keeps_mode _ _ _ _ _ _ hread).1, ?_, ?_, ?_⟩
    · intro hc; rw [hm] at hc; cases hc
    · intro _; exact ⟨rfl, v, _, hread, rfl⟩
    · intro _ hc; exact absurd hm hc
  · rename_i hm1 hm2
    obtain ⟨⟨d, t1⟩, h1, h⟩ := (bind_ok _ _ _).1 h
    obtain ⟨⟨a, t2⟩, h2, h⟩ := (bind_ok _ _ _).1 h
    simp only [pure, Except.pure, Except.ok.injEq, Prod.mk.injEq] at h
    obtain ⟨hr, hs⟩ := h
    subst hs
    subst hr
    simp only [readRecInfoDecimationFactor] at h1
    obtain ⟨⟨v, t⟩, hread, h1⟩ := (bind_ok _ _ _).1 h1
    simp only [pure, Except.pure, Except.ok.injEq, Prod.mk.injEq] at h1
    obtain ⟨hd, ht⟩ := h1
    subst ht
    simp only [readRecInfoFFTAveragesCount] at h2
    obtain ⟨⟨w, u⟩, hread2, h2⟩ := (bind_ok _ _ _).1 h2
    simp only [pure, Except.pure, Except.ok.injEq, Prod.mk.injEq] at h2
    obtain ⟨ha, hu⟩ := h2
    subst hu
    refine ⟨?_, ?_, ?_, ?_⟩
    · rw [(read_keeps_mode _ _ _ _ _ _ hread2).1, (read_keeps_mode _ _ _ _ _ _ hread).1]
    · intro hc; exact absurd hc hm1
    · intro hc; exact absurd hc hm2
    · intro _ _; exact ⟨rfl, _, rfl⟩

theorem dispatch_returns {σ F : Type} [FloatArith F] (decl : Declarations) (bus : Bus σ)
    (fuel : Nat) (s : Session σ) (hb : Responsive bus fuel) :
    ∃ (r : Int × F × (Int → F)) (s1 : Session σ),
      retrieveVibrationData.dispatch decl bus fuel s = .ok (r, s1) := by
  obtain ⟨v, t, hv⟩ := read_returns bus fuel decl.REC_INFO2 s hb
  obtain ⟨w, u, hw⟩ := read_returns bus fuel decl.REC_INFO1 t hb
  unfold retrieveVibrationData.dispatch
  split
  · exact ⟨_, _, rfl⟩
  · simp only [readRecInfoDecimationFactor, hv, bind, Except.bind, pure, Except.pure]
    exact ⟨_, _, rfl⟩
  · simp only [readRecInfoDecimationFactor, readRecInfoFFTAveragesCount, hv, hw, bind,
      Except.bind, pure, Except.pure]
    exact ⟨_, _, rfl⟩

/-- C11: in Spectrum mode (MFFT or AFFT) the conversion maps the raw value 0 to exactly
0, for every spectralAvgCount in 0..255, 0 included: the closure tests for 0 before it
divides. This holds for the closure of either mode and for the closure that the mode
dispatch of a run in a spectrum mode hands to the buffer reads. -/
theorem spectrum_conversion_of_zero {σ F : Type} [FloatArith F] :
    (∀ numberOfFFTAvg : Byte,
      convertVibrationValue .MFFT numberOfFFTAvg 0 = (0 : F) ∧
      convertVibrationValue .AFFT numberOfFFTAvg 0 = (0 : F)) ∧
    (∀ (decl : Declarations) (bus : Bus σ) (fuel : Nat) (s : Session σ)
      (r : Int × F × (Int → F)) (s1 : Session σ),
      retrieveVibrationData.dispatch decl bus fuel s = .ok (r, s1) →
      s.currentRecordingMode ≠ .RTS → s.currentRecordingMode ≠ .MTC → r.2.2 0 = 0) := by
  have h0 : ∀ numberOfFFTAvg : Byte,
      convertVibrationValue .MFFT numberOfFFTAvg 0 = (0 : F) ∧
      convertVibrationValue .AFFT numberOfFFTAvg 0 = (0 : F) := by
    intro n
    simp [convertVibrationValue]
  refine ⟨h0, ?_⟩
  intro decl bus fuel s r s1 h hn1 hn2
  obtain ⟨_, _, _, h3⟩ := dispatch_ok decl bus fuel s r s1 h
  obtain ⟨_, n, hc⟩ := h3 hn1 hn2
  rw [hc]
  cases hm : s.currentRecordingMode with
  | RTS => exact absurd hm hn1
  | MTC => exact absurd hm hn2
  | MFFT => exact (h0 n).1
  | AFFT => exact (h0 n).2

theorem spectrum_conversion_of_zero_witness :
    ∃ (r : Int × ℚ × (Int → ℚ)) (s1 : Session Unit),
      @retrieveVibrationData.dispatch Unit ℚ (exactFloat ℚ (fun _ _ => 1)) sampleDeclarations
        swapBus 1 { Session.start () with currentRecordingMode := .AFFT } = .ok (r, s1) ∧
      r.2.2 0 = 0 := by
  obtain ⟨r, s1, h⟩ := @dispatch_returns Unit ℚ (exactFloat ℚ (fun _ _ => 1))
    sampleDeclarations swapBus 1 { Session.start () with currentRecordingMode := .AFFT }
    swapBus_responsive
  exact ⟨r, s1, h, (@spectrum_conversion_of_zero Unit ℚ (exactFloat ℚ (fun _ _ => 1))).2
    sampleDeclarations swapBus 1 _ r s1 h (by decide) (by decide)⟩

/-! ## Identity verification -/

/-- C15: identity verification. When the two GPIO opens, the bus open and the reset
write succeed, a `setup` that returns has read the identity register PROD_ID and returns
true if and only if the value read equals 0x0BCD; for every other value it returns
false. With PROD_ID readable the value is the response to the final null frame in
standard byte order. On a device that answers within the poll budget `setup` returns. -/
theorem setup_true_iff_identity {σ : Type} (decl : Declarations) (board : Board σ)
    (fuel : Nat) (resetPin busyPin : Nat) (spiPath : String) (speed : Nat) (s : Session σ)
    (d1 d2 d3 d4 : σ) (h1 : board.gpio_open s.dev .gpioReset resetPin = some d1)
    (h2 : board.gpio_open d1 .gpioBusy busyPin = some d2)
    (h3 : board.spi_open_advanced d2 spiPath speed = some d3)
    (h4 : board.gpio_write d3 true = some d4) :
    (∀ b s1, setup decl board fuel resetPin busyPin spiPath speed s = .ok (b, s1) →
      ∃ prodId t, read board.toBus fuel decl.PROD_ID { s with dev := d4 } = .ok (prodId, t) ∧
        (b = true ↔ prodId.val = 0x0BCD) ∧
        (decl.PROD_ID.readFlag = true →
          ∃ pre r, t.trace = pre ++ [.exchange (0, 0) r] ∧
            prodId.val = 256 * r.1.val + r.2.val)) ∧
    (Responsive board.toBus fuel →
      ∃ b s1, setup decl board fuel resetPin busyPin spiPath speed s = .ok (b, s1)) := by
  constructor
  · intro b s1 h
    simp only [setup, h1, h2, h3, h4] at h
    obtain ⟨⟨prodId, t⟩, hread, h⟩ := (bind_ok _ _ _).1 h
    refine ⟨prodId, t, hread, ?_, ?_⟩
    · by_cases hp : prodId.val = 0x0BCD
      · simp only [hp, ne_eq, not_true_eq_false, if_false, pure, Except.pure,
          Except.ok.injEq, Prod.mk.injEq] at h
        simp [← h.1, hp]
      · simp only [hp, ne_eq, not_false_eq_true, if_true, pure, Except.pure,
          Except.ok.injEq, Prod.mk.injEq] at h
        simp [← h.1, hp]
    · intro hr
      obtain ⟨r1, r2, r3, _, hv, hpre, _⟩ := read_ok _ fuel decl.PROD_ID _ hr prodId t hread
      obtain ⟨pre, hpre⟩ := hpre
      exact ⟨pre, r3, hpre, by rw [hv, convert_val]⟩
  · intro hb
    obtain ⟨v, t, hv⟩ := read_returns board.toBus fuel decl.PROD_ID { s with dev := d4 } hb
    simp only [setup, h1, h2, h3, h4, hv, bind, Except.bind, pure, Except.pure]
    split
    · exact ⟨_, _, rfl⟩
    · exact ⟨_, _, rfl⟩

theorem setup_true_iff_identity_witness :
    (sampleBoard (0x0B, 0xCD)).gpio_open (Session.start ()).dev .gpioReset 17 = some () ∧
    (sampleBoard (0x0B, 0xCD)).gpio_open () .gpioBusy 27 = some () ∧
    (sampleBoard (0x0B, 0xCD)).spi_open_advanced () "/dev/spidev0.0" 14000000 = some () ∧
    (sampleBoard (0x0B, 0xCD)).gpio_write () true = some () ∧
    ∃ b s1, setup sampleDeclarations (sampleBoard (0x0B, 0xCD)) 1 17 27 "/dev/spidev0.0"
        14000000 (Session.start ()) = .ok (b, s1) :=
  ⟨rfl, rfl, rfl, rfl,
    (setup_true_iff_identity sampleDeclarations (sampleBoard (0x0B, 0xCD)) 1 17 27
      "/dev/spidev0.0" 14000000 (Session.start ()) () () () () rfl rfl rfl rfl).2
      (fun _ => by simp [readyWithin, sampleBoard])⟩

/-! ## Draining a sample buffer -/

theorem checked_append (c : Bool) (a b : List BusEvent) :
    checked c (a ++ b) = checked c a ++ checked (carry c a) b := by
  induction a generalizing c with
  | nil => rfl
  | cons e t ih => cases e <;> simp [checked, carry, ih]

theorem carry_append (c : Bool) (a b : List BusEvent) :
    carry c (a ++ b) = carry (carry c a) b := by
  induction a generalizing c with
  | nil => rfl
  | cons e t ih => cases e <;> simp [carry, ih]

theorem checked_busy_wait (c : Bool) (k : Nat) (sendBuf r : WordBuffer) :
    checked c (List.replicate k (.busyPoll false) ++ [.busyPoll true, .exchange sendBuf r])
      = [(true, sendBuf, r)] ∧
    carry c (List.replicate k (.busyPoll false) ++ [.busyPoll true, .exchange sendBuf r])
      = false := by
  induction k generalizing c with
  | zero => exact ⟨rfl, rfl⟩
  | succ k ih =>
    simp only [List.replicate_succ, List.cons_append, checked, carry]
    exact ih false

theorem checked_exchanges (c : Bool) (l : List BusEvent) :
    (checked c l).map Prod.snd = exchanges l := by
  induction l generalizing c with
  | nil => rfl
  | cons e t ih => cases e <;> simp [checked, exchanges, ih]

/-- The events one busy-checked exchange adds: one exchange, marked busy-checked. -/
theorem transferBlocking_events {σ : Type} (bus : Bus σ) (fuel : Nat) (sendBuf : WordBuffer)
    (s : Session σ) (r : WordBuffer) (s1 : Session σ)
    (h : transferBlocking bus fuel sendBuf s = .ok (r, s1)) :
    ∃ ev, s1.trace = s.trace ++ ev ∧ (∀ c, checked c ev = [(true, sendBuf, r)]) ∧
      (∀ c, carry c ev = false) ∧ s1.log = s.log ∧
      s1.currentRecordingMode = s.currentRecordingMode := by
  obtain ⟨⟨k, _, ht⟩, hl, hm⟩ := transferBlocking_ok bus fuel sendBuf s r s1 h
  refine ⟨List.replicate k (.busyPoll false) ++ [.busyPoll true, .exchange sendBuf r], ?_,
    fun c => (checked_busy_wait c k sendBuf r).1, fun c => (checked_busy_wait c k sendBuf r).2,
    hl, hm⟩
  rw [ht, List.append_assoc]

/-- The events one raw exchange adds: one exchange and no poll. -/
theorem transfer_events {σ : Type} (bus : Bus σ) (sendBuf : WordBuffer) (s : Session σ)
    (r : WordBuffer) (s1 : Session σ) (h : transfer bus sendBuf s = .ok (r, s1)) :
    s1.trace = s.trace ++ [.exchange sendBuf r] ∧ s1.log = s.log ∧
      s1.currentRecordingMode = s.currentRecordingMode := by
  obtain ⟨d, _, hs⟩ := transfer_ok bus sendBuf s r s1 h
  subst hs
  exact ⟨rfl, rfl, rfl⟩

theorem transfer_returns {σ : Type} (bus : Bus σ) (sendBuf : WordBuffer) (s : Session σ)
    (hrel : Reliable bus) : ∃ r s1, transfer bus sendBuf s = .ok (r, s1) := by
  have h := hrel s.dev sendBuf
  unfold transfer
  cases hx : bus.spi_transfer s.dev sendBuf with
  | none => rw [hx] at h; cases h
  | some p => exact ⟨p.1, _, rfl⟩

theorem readSamplesBuffer_loop_ok {σ F : Type} (bus : Bus σ) (fuel : Nat) (cmd : SpiCommand)
    (conv : Int → F) (n : Nat) (acc : List F) (s : Session σ) (axisData : List F)
    (s1 : Session σ)
    (h : readSamplesBuffer.loop bus fuel cmd conv n acc s = .ok (axisData, s1)) :
    ∃ (rs : List WordBuffer) (ev : List BusEvent), rs.length = n ∧ s1.trace = s.trace ++ ev ∧
      (∀ c, checked c ev = rs.map fun r => (true, (cmd.address, 0), r)) ∧
      (∀ c, carry c ev = if n = 0 then c else false) ∧
      axisData = acc ++ rs.map (sampleOf conv) ∧
      s1.currentRecordingMode = s.currentRecordingMode := by
  induction n generalizing acc s with
  | zero =>
    simp only [readSamplesBuffer.loop, Except.ok.injEq, Prod.mk.injEq] at h
    obtain ⟨ha, hs⟩ := h
    subst ha
    subst hs
    exact ⟨[], [], rfl, by simp, fun _ => rfl, fun _ => rfl, by simp, rfl⟩
  | succ n ih =>
    simp only [readSamplesBuffer.loop] at h
    obtain ⟨⟨r, t⟩, h1, h⟩ := (bind_ok _ _ _).1 h
    obtain ⟨ev1, ht, hc, hcar, _, hm⟩ := transferBlocking_events _ _ _ _ _ _ h1
    obtain ⟨rs, ev, hlen, ht2, hc2, hcar2, hax, hm2⟩ := ih _ _ h
    refine ⟨r :: rs, ev1 ++ ev, by simp [hlen], ?_, ?_, ?_, ?_, ?_⟩
    · rw [ht2, ht, List.append_assoc]
    · intro c
      rw [checked_append, hc, hc2]
      rfl
    · intro c
      rw [carry_append, hcar, hcar2]
      simp
    · rw [hax]
      simp [sampleOf]
    · rw [hm2, hm]

theorem readSamplesBuffer_loop_returns {σ F : Type} (bus : Bus σ) (fuel : Nat)
    (cmd : SpiCommand) (conv : Int → F) (n : Nat) (acc : List F) (s : Session σ)
    (hb : Responsive bus fuel) :
    ∃ axisData s1, readSamplesBuffer.loop bus fuel cmd conv n acc s = .ok (axisData, s1) := by
  induction n generalizing acc s with
  | zero => exact ⟨_, _, rfl⟩
  | succ n ih =>
    obtain ⟨r, t, h1⟩ := transferBlocking_returns bus fuel (cmd.address, 0) s (hb _)
    obtain ⟨a, t2, h2⟩ := ih (acc ++ [conv (toInt16 (convert r))]) t
    exact ⟨a, t2, by simp only [readSamplesBuffer.loop, h1, h2, bind, Except.bind]⟩

/-- What a buffer read that returns has done, for `samplesCount >= 1`. -/
theorem readSamplesBuffer_ok {σ F : Type} (bus : Bus σ) (fuel : Nat) (cmd : SpiCommand)
    (samplesCount : Int) (conv : Int → F) (s : Session σ) (hn : 1 ≤ samplesCount)
    (axisData : List F) (s1 : Session σ)
    (h : readSamplesBuffer bus fuel cmd samplesCount conv s = .ok (axisData, s1)) :
    ∃ (r0 r1 : WordBuffer) (rs : List WordBuffer) (rl : WordBuffer) (ev : List BusEvent),
      s1.trace = s.trace ++ ev ∧ Int.ofNat rs.length + 1 = samplesCount ∧
      checked false ev =
        [(true, (0x80, cmd.pageId), r0), (true, (cmd.address, 0), r1)] ++
          (rs.map fun r => (true, (cmd.address, 0), r)) ++ [(false, (0, 0), rl)] ∧
      axisData = (rs ++ [rl]).map (sampleOf conv) ∧
      s1.currentRecordingMode = s.currentRecordingMode := by
  have hneg : ¬ samplesCount < 0 := by omega
  simp only [readSamplesBuffer, hneg, if_false] at h
  obtain ⟨⟨r0, t1⟩, h1, h⟩ := (bind_ok _ _ _).1 h
  obtain ⟨⟨r1, t2⟩, h2, h⟩ := (bind_ok _ _ _).1 h
  obtain ⟨⟨acc, t3⟩, h3, h⟩ := (bind_ok _ _ _).1 h
  obtain ⟨⟨rl, t4⟩, h4, h⟩ := (bind_ok _ _ _).1 h
  simp only [pure, Except.pure, Except.ok.injEq, Prod.mk.injEq] at h
  obtain ⟨hax, hs⟩ := h
  subst hs
  obtain ⟨e1, ht1, hc1, hcar1, _, hm1⟩ := transferBlocking_events _ _ _ _ _ _ h1
  obtain ⟨e2, ht2, hc2, hcar2, _, hm2⟩ := transferBlocking_events _ _ _ _ _ _ h2
  obtain ⟨rs, e3, hlen, ht3, hc3, hcar3, hacc, hm3⟩ := readSamplesBuffer_loop_ok _ _ _ _ _ _ _ _ _ h3
  obtain ⟨ht4, _, hm4⟩ := transfer_events _ _ _ _ _ h4
  refine ⟨r0, r1, rs, rl, e1 ++ (e2 ++ (e3 ++ [.exchange (0, 0) rl])), ?_, ?_, ?_, ?_, ?_⟩
  · rw [ht4, ht3, ht2, ht1]
    simp only [List.append_assoc]
  · rw [hlen]
    simp only [Int.ofNat_eq_coe]
    omega
  · have hlast : carry false e3 = false := by rw [hcar3]; simp
    rw [checked_append, hc1, hcar1, checked_append, hc2, hcar2, checked_append, hc3, hlast]
    simp [checked]
  · rw [← hax, hacc]
    simp [sampleOf]
  · rw [hm4, hm3, hm2, hm1]

theorem readSamplesBuffer_returns {σ F : Type} (bus : Bus σ) (fuel : Nat) (cmd : SpiCommand)
    (samplesCount : Int) (conv : Int → F) (s : Session σ) (hn : 0 ≤ samplesCount)
    (hb : Responsive bus fuel) (hrel : Reliable bus) :
    ∃ axisData s1, readSamplesBuffer bus fuel cmd samplesCount conv s = .ok (axisData, s1) := by
  have hneg : ¬ samplesCount < 0 := by omega
  obtain ⟨r0, t1, h1⟩ := transferBlocking_returns bus fuel (0x80, cmd.pageId) s (hb _)
  obtain ⟨r1, t2, h2⟩ := transferBlocking_returns bus fuel (cmd.address, 0) t1 (hb _)
  obtain ⟨acc, t3, h3⟩ := readSamplesBuffer_loop_returns bus fuel cmd conv
    (samplesCount - 1).toNat [] t2 hb
  obtain ⟨rl, t4, h4⟩ := transfer_returns bus (0, 0) t3 hrel
  refine ⟨acc ++ [conv (toInt16 (convert rl))], t4, ?_⟩
  simp only [readSamplesBuffer, hneg, if_false, h1, h2, h3, h4, bind, Except.bind, pure,
    Except.pure]

theorem toInt16_convert (r : WordBuffer) :
    toInt16 (convert r) =
      if 256 * r.1.val + r.2.val < 32768 then Int.ofNat (256 * r.1.val + r.2.val)
      else Int.ofNat (256 * r.1.val + r.2.val) - 65536 := by
  simp only [toInt16, convert_val]

/-- C17: buffer drain for the non-Streaming modes. For every buffer command and
sampleCount >= 1, a `readSamplesBuffer` that returns has performed exactly
sampleCount + 2 exchanges: the page select {0x80, pageId}, one address select
{address, 0}, then sampleCount - 1 busy-checked exchanges of {address, 0}, then one
final raw exchange of {0, 0} that no poll precedes. It returns exactly sampleCount
samples; sample i is the conversion of the signed 16-bit big-endian value of the
response to exchange i + 2, the first two responses being discarded. On a device that
answers within the poll budget and reports no transport error it returns. -/
theorem readSamplesBuffer_drains {σ F : Type} (bus : Bus σ) (fuel : Nat) (cmd : SpiCommand)
    (samplesCount : Int) (conv : Int → F) (s : Session σ) (hn : 1 ≤ samplesCount) :
    (∀ axisData s1, readSamplesBuffer bus fuel cmd samplesCount conv s = .ok (axisData, s1) →
      ∃ (r0 r1 : WordBuffer) (rs : List WordBuffer) (rl : WordBuffer) (ev : List BusEvent),
        s1.trace = s.trace ++ ev ∧ Int.ofNat rs.length = samplesCount - 1 ∧
        checked false ev =
          [(true, (0x80, cmd.pageId), r0), (true, (cmd.address, 0), r1)] ++
            (rs.map fun r => (true, (cmd.address, 0), r)) ++ [(false, (0, 0), rl)] ∧
        Int.ofNat (exchanges ev).length = samplesCount + 2 ∧
        Int.ofNat axisData.length = samplesCount ∧
        axisData = (rs ++ [rl]).map fun r => conv (toInt16 (convert r))) ∧
    (∀ r : WordBuffer, toInt16 (convert r) =
      if 256 * r.1.val + r.2.val < 32768 then Int.ofNat (256 * r.1.val + r.2.val)
      else Int.ofNat (256 * r.1.val + r.2.val) - 65536) ∧
    (Responsive bus fuel → Reliable bus →
      ∃ axisData s1, readSamplesBuffer bus fuel cmd samplesCount conv s = .ok (axisData, s1)) := by
  refine ⟨?_, toInt16_convert, fun hb hrel =>
    readSamplesBuffer_returns bus fuel cmd samplesCount conv s (by omega) hb hrel⟩
  intro axisData s1 h
  obtain ⟨r0, r1, rs, rl, ev, ht, hlen, hc, hax, _⟩ :=
    readSamplesBuffer_ok bus fuel cmd samplesCount conv s hn axisData s1 h
  refine ⟨r0, r1, rs, rl, ev, ht, by omega, hc, ?_, ?_, ?_⟩
  · rw [← checked_exchanges false ev, hc]
    simp only [List.map_append, List.length_append, List.length_map, List.length_cons,
      List.length_nil, Int.ofNat_eq_coe]
    simp only [Int.ofNat_eq_coe] at hlen
    omega
  · rw [hax]
    simp only [List.length_map, List.length_append, List.length_cons, List.length_nil,
      Int.ofNat_eq_coe]
    simp only [Int.ofNat_eq_coe] at hlen
    omega
  · rw [hax]; rfl

theorem swapBus_reliable : Reliable swapBus := by
  intro d f
  rfl

theorem readSamplesBuffer_drains_witness :
    (1 : Int) ≤ 3 ∧
    ∃ (axisData : List ℚ) (s1 : Session Unit),
      readSamplesBuffer swapBus 1 (SpiCommand.mk 0 0x0E true false) 3
        (fun v => ((v : Int) : ℚ)) (Session.start ()) = .ok (axisData, s1) :=
  ⟨by decide,
    (readSamplesBuffer_drains swapBus 1 (SpiCommand.mk 0 0x0E true false) 3
      (fun v => ((v : Int) : ℚ)) (Session.start ()) (by decide)).2.2
      swapBus_responsive swapBus_reliable⟩

/-! ## The streaming drain -/

theorem wordAt_append_left {F : Type} [NatCast F] (w0 w1 : List Word) (i : Nat)
    (h : i < w0.length) : (wordAt (w0 ++ w1) i : F) = wordAt w0 i := by
  simp only [wordAt, List.getD_append w0 w1 0 i h]

theorem wordAt_append_right {F : Type} [NatCast F] (w0 w1 : List Word) (i : Nat) :
    (wordAt (w0 ++ w1) (w0.length + i) : F) = wordAt w1 i := by
  simp only [wordAt, List.getD_append_right w0 w1 0 (w0.length + i) (Nat.le_add_right _ _),
    Nat.add_sub_cancel_left]

theorem gather_one {F : Type} [NatCast F] (words : List Word) (a b : Nat) :
    (gather words 1 a b : List F) = (List.range' a b).map (wordAt words) := by
  simp [gather, List.range_succ]

theorem gather_zero {F : Type} [NatCast F] (words : List Word) (a b : Nat) :
    (gather words 0 a b : List F) = [] := by
  simp [gather]

theorem gather_succ_front {F : Type} [NatCast F] (w0 w1 : List Word) (n a b : Nat)
    (h0 : w0.length = 100) (hab : a + b ≤ 100) :
    (gather (w0 ++ w1) (n + 1) a b : List F) = gather w0 1 a b ++ gather w1 n a b := by
  rw [gather_one]
  simp only [gather, List.range_succ_eq_map, List.flatMap_cons, List.flatMap_map]
  congr 1
  · simp only [Nat.mul_zero, Nat.zero_add]
    apply List.map_congr_left
    intro i hi
    rw [List.mem_range'_1] at hi
    exact wordAt_append_left w0 w1 i (by omega)
  · congr 1
    funext k
    have hr : List.range' (100 * (k + 1) + a) b
        = List.map (fun i => 100 + i) (List.range' (100 * k + a) b) := by
      rw [List.map_add_range']
      congr 1
      omega
    simp only [Function.comp, Nat.succ_eq_add_one, hr, List.map_map]
    apply List.map_congr_left
    intro i _
    have := @wordAt_append_right F _ w0 w1 i
    rw [h0] at this
    exact this

theorem gather_length {F : Type} [NatCast F] (words : List Word) (n a b : Nat) :
    (gather words n a b : List F).length = n * b := by
  induction n with
  | zero => simp [gather]
  | succ n ih =>
    simp only [gather, List.range_succ, List.flatMap_append, List.length_append] at ih ⊢
    rw [ih]
    simp [Nat.succ_mul]

theorem parseRtsData_hundred {σ F : Type} [NatCast F] (resp : List Word)
    (vd : VibrationData F) (s : Session σ) (h : resp.length = 100) :
    parseRtsData resp vd s = .ok ((true, appendBlocks vd resp 1), s) := by
  obtain ⟨e0, e1, e2, e3, e4, e5, e6⟩ := seen_full
  simp only [parseRtsData, h, ne_eq, not_true_eq_false, if_false, parseRtsData_loop,
    parsedUpTo, appendBlocks, gather_one, e0, e1, e2, e3, e4, e5, e6]
  rfl

theorem appendBlocks_front {F : Type} [NatCast F] (vd : VibrationData F) (w0 w1 : List Word)
    (n : Nat) (h0 : w0.length = 100) :
    appendBlocks (appendBlocks vd w0 1) w1 n = appendBlocks vd (w0 ++ w1) (n + 1) := by
  simp only [appendBlocks, List.append_assoc,
    gather_succ_front w0 w1 n 1 32 h0 (by decide), gather_succ_front w0 w1 n 33 32 h0 (by decide),
    gather_succ_front w0 w1 n 65 32 h0 (by decide), gather_succ_front w0 w1 n 97 1 h0 (by decide),
    gather_succ_front w0 w1 n 98 1 h0 (by decide), gather_succ_front w0 w1 n 99 1 h0 (by decide),
    gather_succ_front w0 w1 n 0 1 h0 (by decide)]

theorem appendBlocks_zero {F : Type} [NatCast F] (vd : VibrationData F) (words : List Word) :
    appendBlocks vd words 0 = vd := by
  simp [appendBlocks, gather_zero]

theorem readRtsSamplesBuffer_block_ok {σ : Type} (bus : Bus σ) (n : Nat) (acc : List Word)
    (s : Session σ) (resp : List Word) (s1 : Session σ)
    (h : readRtsSamplesBuffer.block bus n acc s = .ok (resp, s1)) :
    ∃ rs : List WordBuffer, rs.length = n ∧
      s1.trace = s.trace ++ rs.map (fun r => BusEvent.exchange (0, 0) r) ∧
      resp = acc ++ rs.map convertRTS ∧ s1.log = s.log ∧
      s1.currentRecordingMode = s.currentRecordingMode := by
  induction n generalizing acc s with
  | zero =>
    simp only [readRtsSamplesBuffer.block, Except.ok.injEq, Prod.mk.injEq] at h
    obtain ⟨ha, hs⟩ := h
    subst ha
    subst hs
    exact ⟨[], rfl, by simp, by simp, rfl, rfl⟩
  | succ n ih =>
    simp only [readRtsSamplesBuffer.block] at h
    obtain ⟨⟨r, t⟩, h1, h⟩ := (bind_ok _ _ _).1 h
    obtain ⟨ht, hl, hm⟩ := transfer_events _ _ _ _ _ h1
    obtain ⟨rs, hlen, ht2, hresp, hl2, hm2⟩ := ih _ _ h
    refine ⟨r :: rs, by simp [hlen], ?_, ?_, by rw [hl2, hl], by rw [hm2, hm]⟩
    · rw [ht2, ht]
      simp only [List.map_cons, List.append_assoc, List.singleton_append]
    · rw [hresp]
      simp only [List.map_cons, List.append_assoc, List.singleton_append]

theorem readRtsSamplesBuffer_block_returns {σ : Type} (bus : Bus σ) (n : Nat)
    (acc : List Word) (s : Session σ) (hrel : Reliable bus) :
    ∃ resp s1, readRtsSamplesBuffer.block bus n acc s = .ok (resp, s1) := by
  induction n generalizing acc s with
  | zero => exact ⟨_, _, rfl⟩
  | succ n ih =>
    obtain ⟨r, t, h1⟩ := transfer_returns bus (0, 0) s hrel
    obtain ⟨resp, t2, h2⟩ := ih (acc ++ [convertRTS r]) t
    exact ⟨resp, t2, by simp only [readRtsSamplesBuffer.block, h1, h2, bind, Except.bind]⟩

theorem readRtsSamplesBuffer_loop_ok {σ F : Type} [NatCast F] (bus : Bus σ) (n : Nat)
    (vd : VibrationData F) (s : Session σ) (vd1 : VibrationData F) (s1 : Session σ)
    (h : readRtsSamplesBuffer.loop bus n vd s = .ok (vd1, s1)) :
    ∃ rs : List WordBuffer, rs.length = 100 * n ∧
      s1.trace = s.trace ++ rs.map (fun r => BusEvent.exchange (0, 0) r) ∧
      vd1 = appendBlocks vd (rs.map convertRTS) n ∧ s1.log = s.log ∧
      s1.currentRecordingMode = s.currentRecordingMode := by
  induction n generalizing vd s with
  | zero =>
    simp only [readRtsSamplesBuffer.loop, Except.ok.injEq, Prod.mk.injEq] at h
    obtain ⟨hv, hs⟩ := h
    subst hv
    subst hs
    exact ⟨[], rfl, by simp, by simp [appendBlocks_zero], rfl, rfl⟩
  | succ n ih =>
    simp only [readRtsSamplesBuffer.loop] at h
    obtain ⟨⟨resp, t⟩, h1, h⟩ := (bind_ok _ _ _).1 h
    obtain ⟨rs0, hlen0, ht0, hresp, hl0, hm0⟩ := readRtsSamplesBuffer_block_ok _ _ _ _ _ _ h1
    simp only [List.nil_append] at hresp
    have hrl : resp.length = 100 := by rw [hresp, List.length_map, hlen0]
    obtain ⟨⟨p, t2⟩, h2, h⟩ := (bind_ok _ _ _).1 h
    rw [parseRtsData_hundred resp vd t hrl] at h2
    simp only [Except.ok.injEq, Prod.mk.injEq] at h2
    obtain ⟨hp, ht2⟩ := h2
    subst hp
    subst ht2
    obtain ⟨rs, hlen, ht, hvd, hl, hm⟩ := ih _ _ h
    refine ⟨rs0 ++ rs, by simp only [List.length_append, hlen0, hlen]; omega, ?_, ?_,
      by rw [hl, hl0], by rw [hm, hm0]⟩
    · rw [ht, ht0]
      simp only [List.map_append, List.append_assoc]
    · rw [hvd, appendBlocks_front vd resp _ n hrl, hresp, List.map_append]

theorem readRtsSamplesBuffer_loop_returns {σ F : Type} [NatCast F] (bus : Bus σ) (n : Nat)
    (vd : VibrationData F) (s : Session σ) (hrel : Reliable bus) :
    ∃ vd1 s1, readRtsSamplesBuffer.loop bus n vd s = .ok (vd1, s1) := by
  induction n generalizing vd s with
  | zero => exact ⟨_, _, rfl⟩
  | succ n ih =>
    obtain ⟨resp, t, h1⟩ := readRtsSamplesBuffer_block_returns bus 100 [] s hrel
    obtain ⟨rs0, hlen0, _, hresp, _, _⟩ := readRtsSamplesBuffer_block_ok _ _ _ _ _ _ h1
    simp only [List.nil_append] at hresp
    have hrl : resp.length = 100 := by rw [hresp, List.length_map, hlen0]
    obtain ⟨vd1, t2, h2⟩ := ih (appendBlocks vd resp 1) t
    exact ⟨vd1, t2, by
      simp only [readRtsSamplesBuffer.loop, h1, parseRtsData_hundred resp vd t hrl, h2, bind,
        Except.bind]⟩

/-- C18: streaming drain. A `readRtsSamplesBuffer` with 10 blocks that returns has
performed exactly 1000 exchanges and no poll of the busy line, every one sending the
null frame {0, 0}. Word j of block k is the little-endian value 256 * resp[1] + resp[0]
of the response to exchange 100 * k + j, and the ten blocks are appended in order: word
100 k to sequenceNumber, words 100 k + 1 .. + 32 to xAxis, 100 k + 33 .. + 64 to yAxis,
100 k + 65 .. + 96 to zAxis, words 100 k + 97, + 98, + 99 to temperature, status and crc.
On a device that reports no transport error it returns. -/
theorem readRtsSamplesBuffer_drains_ten_blocks {σ F : Type} [NatCast F] (bus : Bus σ)
    (conv : Int → F) (uninit : RecordingMode) (s : Session σ) :
    (∀ vd s1, readRtsSamplesBuffer bus 10 conv uninit s = .ok (vd, s1) →
      ∃ rs : List WordBuffer, rs.length = 1000 ∧
        s1.trace = s.trace ++ rs.map (fun r => BusEvent.exchange (0, 0) r) ∧
        vd =
          { recordingMode := uninit
            stepAxis := []
            xAxis := gather (rs.map convertRTS) 10 1 32
            yAxis := gather (rs.map convertRTS) 10 33 32
            zAxis := gather (rs.map convertRTS) 10 65 32
            temperature := gather (rs.map convertRTS) 10 97 1
            status := gather (rs.map convertRTS) 10 98 1
            crc := gather (rs.map convertRTS) 10 99 1
            sequenceNumber := gather (rs.map convertRTS) 10 0 1 }) ∧
    (∀ r : WordBuffer, (convertRTS r).val = 256 * r.2.val + r.1.val) ∧
    (Reliable bus → ∃ vd s1, readRtsSamplesBuffer bus 10 conv uninit s = .ok (vd, s1)) := by
  have hten : (10 : Int).toNat = 10 := rfl
  refine ⟨?_, convertRTS_val, ?_⟩
  · intro vd s1 h
    simp only [readRtsSamplesBuffer, hten] at h
    obtain ⟨rs, hlen, ht, hvd, _, _⟩ := readRtsSamplesBuffer_loop_ok bus 10 _ s vd s1 h
    refine ⟨rs, by omega, ht, ?_⟩
    rw [hvd]
    simp only [appendBlocks, VibrationData.empty, List.nil_append]
  · intro hrel
    simp only [readRtsSamplesBuffer, hten]
    exact readRtsSamplesBuffer_loop_returns bus 10 _ s hrel

theorem readRtsSamplesBuffer_drains_ten_blocks_witness :
    ∃ (vd : VibrationData ℚ) (s1 : Session Unit),
      readRtsSamplesBuffer swapBus 10 (fun v => ((v : Int) : ℚ)) .MFFT (Session.start ())
        = .ok (vd, s1) :=
  (readRtsSamplesBuffer_drains_ten_blocks swapBus (fun v => ((v : Int) : ℚ)) .MFFT
    (Session.start ())).2.2 swapBus_reliable

/-! ## The sample batch -/

theorem generateSteps_eq {F : Type} [Mul F] [IntCast F] (stepSize : F) (samplesCount : Int)
    (h : 0 ≤ samplesCount) :
    generateSteps stepSize samplesCount =
      .ok ((List.range samplesCount.toNat).map
        fun (i : Nat) => stepSize * ((Int.ofNat i : Int) : F)) := by
  simp only [generateSteps, not_lt.mpr h, if_false, foldl_push_eq_map, List.nil_append]

/-- The batch of a capture in Streaming mode. -/
theorem retrieveVibrationData_streaming {σ F : Type} [FloatArith F] (decl : Declarations)
    (bus : Bus σ) (fuel : Nat) (uninit : RecordingMode) (s : Session σ)
    (hm : s.currentRecordingMode = .RTS) (vd : VibrationData F) (s1 : Session σ)
    (h : retrieveVibrationData decl bus fuel uninit s = .ok (vd, s1)) :
    ∃ rs : List WordBuffer, rs.length = 1000 ∧
      s1.trace = s.trace ++ rs.map (fun r => BusEvent.exchange (0, 0) r) ∧
      vd = { appendBlocks (VibrationData.empty F uninit) (rs.map convertRTS) 10 with
        stepAxis := (List.range 320).map fun (i : Nat) =>
          (((1 : Nat) : F) / ((220000 : Nat) : F)) * ((Int.ofNat i : Int) : F)
        recordingMode := .RTS } := by
  simp only [retrieveVibrationData] at h
  obtain ⟨⟨⟨n, step, conv⟩, t⟩, hd, h⟩ := (bind_ok _ _ _).1 h
  obtain ⟨hmode, hrts, _, _⟩ := dispatch_ok decl bus fuel s _ t hd
  obtain ⟨hn, ht, hstep⟩ := hrts hm
  simp only at hn hstep
  subst hn
  subst ht
  subst hstep
  simp only [hm, if_true] at h
  obtain ⟨⟨v, t2⟩, h1, h⟩ := (bind_ok _ _ _).1 h
  have hten : (10 : Int).toNat = 10 := rfl
  simp only [readRtsSamplesBuffer, hten] at h1
  obtain ⟨rs, hlen, htr, hvd, _, hm2⟩ := readRtsSamplesBuffer_loop_ok bus 10 _ _ v t2 h1
  rw [generateSteps_eq _ (10 * 32) (by decide)] at h
  have h320 : ((10 : Int) * 32).toNat = 320 := rfl
  simp only [bind, Except.bind, pure, Except.pure, Except.ok.injEq, Prod.mk.injEq, h320] at h
  obtain ⟨hv, hs⟩ := h
  subst hs
  refine ⟨rs, by omega, htr, ?_⟩
  rw [← hv, hvd, hm2, hm]

/-- The batch of a capture in a mode other than Streaming. -/
theorem retrieveVibrationData_buffered {σ F : Type} [FloatArith F] (decl : Declarations)
    (bus : Bus σ) (fuel : Nat) (uninit : RecordingMode) (s : Session σ)
    (hm : s.currentRecordingMode ≠ .RTS) (vd : VibrationData F) (s1 : Session σ)
    (h : retrieveVibrationData decl bus fuel uninit s = .ok (vd, s1)) :
    ∃ (n : Nat) (step : F) (conv : Int → F) (t : Session σ) (xAxis yAxis zAxis : List F),
      retrieveVibrationData.dispatch decl bus fuel s = .ok ((Int.ofNat n, step, conv), t) ∧
      (s.currentRecordingMode = .MTC → n = 4096) ∧
      (s.currentRecordingMode ≠ .MTC → n = 2048) ∧
      xAxis.length = n ∧ yAxis.length = n ∧ zAxis.length = n ∧
      vd = { VibrationData.empty F uninit with
        xAxis := xAxis, yAxis := yAxis, zAxis := zAxis
        stepAxis := (List.range n).map fun (i : Nat) => step * ((Int.ofNat i : Int) : F)
        recordingMode := s.currentRecordingMode } := by
  simp only [retrieveVibrationData] at h
  obtain ⟨⟨⟨n, step, conv⟩, t⟩, hd, h⟩ := (bind_ok _ _ _).1 h
  obtain ⟨hmode, _, hmtc, hfft⟩ := dispatch_ok decl bus fuel s _ t hd
  have hn : (s.currentRecordingMode = .MTC → n = 4096) ∧
      (s.currentRecordingMode ≠ .MTC → n = 2048) :=
    ⟨fun hc => (hmtc hc).1, fun hc => (hfft hm hc).1⟩
  have hn1 : 1 ≤ n := by
    by_cases hc : s.currentRecordingMode = .MTC
    · rw [hn.1 hc]; decide
    · rw [hn.2 hc]; decide
  have hmt : ¬ (t.currentRecordingMode = .RTS) := by rw [hmode]; exact hm
  simp only [hmt, if_false] at h
  obtain ⟨⟨_, t2⟩, hw, h⟩ := (bind_ok _ _ _).1 h
  obtain ⟨⟨x, t3⟩, hx, h⟩ := (bind_ok _ _ _).1 h
  obtain ⟨⟨y, t4⟩, hy, h⟩ := (bind_ok _ _ _).1 h
  obtain ⟨⟨z, t5⟩, hz, h⟩ := (bind_ok _ _ _).1 h
  rw [generateSteps_eq _ n (by omega)] at h
  simp only [bind, Except.bind, pure, Except.pure, Except.ok.injEq, Prod.mk.injEq] at h
  obtain ⟨hv, hs⟩ := h
  subst hs
  obtain ⟨_, _, rx, lx, _, _, hlx, _, hax, hmx⟩ := readSamplesBuffer_ok _ _ _ _ _ _ hn1 _ _ hx
  obtain ⟨_, _, ry, ly, _, _, hly, _, hay, hmy⟩ := readSamplesBuffer_ok _ _ _ _ _ _ hn1 _ _ hy
  obtain ⟨_, _, rz, lz, _, _, hlz, _, haz, hmz⟩ := readSamplesBuffer_ok _ _ _ _ _ _ hn1 _ _ hz
  have hwm := (write_keeps_mode _ _ _ _ _ _ hw).1
  have hnn : Int.ofNat n.toNat = n := by
    simp only [Int.ofNat_eq_coe]; omega
  refine ⟨n.toNat, step, conv, t, x, y, z, by rw [hnn]; exact hd, ?_, ?_, ?_, ?_, ?_, ?_⟩
  · intro hc; rw [hn.1 hc]; rfl
  · intro hc; rw [hn.2 hc]; rfl
  · rw [hax]; simp only [List.length_map, List.length_append, List.length_cons,
      List.length_nil]; simp only [Int.ofNat_eq_coe] at hlx; omega
  · rw [hay]; simp only [List.length_map, List.length_append, List.length_cons,
      List.length_nil]; simp only [Int.ofNat_eq_coe] at hly; omega
  · rw [haz]; simp only [List.length_map, List.length_append, List.length_cons,
      List.length_nil]; simp only [Int.ofNat_eq_coe] at hlz; omega
  · rw [← hv, hmz, hmy, hmx, hwm, hmode]

theorem retrieveVibrationData_returns {σ F : Type} [FloatArith F] (decl : Declarations)
    (bus : Bus σ) (fuel : Nat) (uninit : RecordingMode) (s : Session σ)
    (hb : Responsive bus fuel) (hrel : Reliable bus) :
    ∃ (vd : VibrationData F) (s1 : Session σ),
      retrieveVibrationData decl bus fuel uninit s = .ok (vd, s1) := by
  obtain ⟨⟨n, step, conv⟩, t, hd⟩ := @dispatch_returns σ F _ decl bus fuel s hb
  obtain ⟨hmode, hrts, hmtc, hfft⟩ := dispatch_ok decl bus fuel s _ t hd
  by_cases hm : s.currentRecordingMode = .RTS
  · have hn : n = 10 := (hrts hm).1
    subst hn
    have hmt : t.currentRecordingMode = .RTS := by rw [hmode]; exact hm
    have hten : (10 : Int).toNat = 10 := rfl
    obtain ⟨v, t2, h1⟩ := @readRtsSamplesBuffer_loop_returns σ F _ bus 10
      (VibrationData.empty F uninit) t hrel
    simp only [retrieveVibrationData, hd, hmt, if_true, readRtsSamplesBuffer, hten, h1,
      generateSteps_eq step (10 * 32) (by decide), bind, Except.bind, pure, Except.pure]
    exact ⟨_, _, rfl⟩
  · have hn0 : 0 ≤ n := by
      by_cases hc : s.currentRecordingMode = .MTC
      · have h4 : n = 4096 := (hmtc hc).1
        rw [h4]; decide
      · have h2 : n = 2048 := (hfft hm hc).1
        rw [h2]; decide
    have hmt : ¬ (t.currentRecordingMode = .RTS) := by rw [hmode]; exact hm
    obtain ⟨t2, hw⟩ := write_returns bus fuel decl.BUF_PNTR 0 t hb
    obtain ⟨x, t3, hx⟩ := readSamplesBuffer_returns bus fuel decl.X_BUF n conv t2 hn0 hb hrel
    obtain ⟨y, t4, hy⟩ := readSamplesBuffer_returns bus fuel decl.Y_BUF n conv t3 hn0 hb hrel
    obtain ⟨z, t5, hz⟩ := readSamplesBuffer_returns bus fuel decl.Z_BUF n conv t4 hn0 hb hrel
    simp only [retrieveVibrationData, hd, hmt, if_false, hw, hx, hy, hz,
      generateSteps_eq step n hn0, bind, Except.bind, pure, Except.pure]
    exact ⟨_, _, rfl⟩

/-- C13: for every current recording mode and whatever the device answers, the batch a
`retrieveVibrationData` returns satisfies the batch invariant: xAxis, yAxis, zAxis and
stepAxis have the same length, 320 in Streaming, 4096 in Capture, 2048 in Spectrum; in
Streaming mode temperature, status, crc and sequenceNumber each have length 10 = 320 / 32
and in the other modes they are empty; the batch's recordingMode is the current mode.
On a device that answers within the poll budget and reports no transport error the call
returns. -/
theorem retrieveVibrationData_batch_invariant {σ F : Type} [FloatArith F]
    (decl : Declarations) (bus : Bus σ) (fuel : Nat) (uninit : RecordingMode)
    (s : Session σ) :
    (∀ (vd : VibrationData F) (s1 : Session σ),
      retrieveVibrationData decl bus fuel uninit s = .ok (vd, s1) →
      vd.recordingMode = s.currentRecordingMode ∧
      vd.yAxis.length = vd.xAxis.length ∧ vd.zAxis.length = vd.xAxis.length ∧
      vd.stepAxis.length = vd.xAxis.length ∧
      vd.xAxis.length =
        (match s.currentRecordingMode with
          | .RTS => 320
          | .MTC => 4096
          | _ => 2048) ∧
      (s.currentRecordingMode = .RTS →
        vd.temperature.length = vd.xAxis.length / 32 ∧ vd.status.length = vd.xAxis.length / 32 ∧
        vd.crc.length = vd.xAxis.length / 32 ∧
        vd.sequenceNumber.length = vd.xAxis.length / 32 ∧ vd.xAxis.length / 32 = 10) ∧
      (s.currentRecordingMode ≠ .RTS →
        vd.temperature = [] ∧ vd.status = [] ∧ vd.crc = [] ∧ vd.sequenceNumber = [])) ∧
    (Responsive bus fuel → Reliable bus →
      ∃ (vd : VibrationData F) (s1 : Session σ),
        retrieveVibrationData decl bus fuel uninit s = .ok (vd, s1)) := by
  refine ⟨?_, retrieveVibrationData_returns decl bus fuel uninit s⟩
  intro vd s1 h
  by_cases hm : s.currentRecordingMode = .RTS
  · obtain ⟨rs, _, _, hvd⟩ := retrieveVibrationData_streaming decl bus fuel uninit s hm vd s1 h
    subst hvd
    simp only [appendBlocks, VibrationData.empty, List.nil_append, gather_length,
      List.length_map, List.length_range, hm]
    simp
  · obtain ⟨n, step, conv, t, x, y, z, _, h1, h2, hx, hy, hz, hvd⟩ :=
      retrieveVibrationData_buffered decl bus fuel uninit s hm vd s1 h
    subst hvd
    simp only [VibrationData.empty, List.length_map, List.length_range, hx, hy, hz]
    refine ⟨trivial, trivial, trivial, trivial, ?_, fun hc => absurd hc hm,
      fun _ => ⟨trivial, trivial, trivial, trivial⟩⟩
    cases hc : s.currentRecordingMode with
    | RTS => exact absurd hc hm
    | MTC => exact h1 hc
    | MFFT => exact h2 (by rw [hc]; decide)
    | AFFT => exact h2 (by rw [hc]; decide)

theorem retrieveVibrationData_batch_invariant_witness :
    ∃ (vd : VibrationData ℚ) (s1 : Session Unit),
      @retrieveVibrationData Unit ℚ (exactFloat ℚ (fun _ _ => 1)) sampleDeclarations swapBus 1
        .MFFT { Session.start () with currentRecordingMode := .RTS } = .ok (vd, s1) :=
  (@retrieveVibrationData_batch_invariant Unit ℚ (exactFloat ℚ (fun _ _ => 1))
    sampleDeclarations swapBus 1 .MFFT
    { Session.start () with currentRecordingMode := .RTS }).2 swapBus_responsive swapBus_reliable

/-! ## The order of the register writes of mode activation -/

theorem writeEach_frames {σ : Type} (bus : Bus σ) (fuel : Nat)
    (l : List (SpiCommand × Word)) (s : Session σ) (s1 : Session σ)
    (h : writeEach bus fuel l s = .ok ((), s1)) :
    sentFrames s1 = sentFrames s ++ l.flatMap (fun p => writeFrames p.1 p.2) ∧
      s1.currentRecordingMode = s.currentRecordingMode := by
  induction l generalizing s with
  | nil =>
    simp only [writeEach, Except.ok.injEq, Prod.mk.injEq, true_and] at h
    subst h
    simp
  | cons p rest ih =>
    obtain ⟨cmd, value⟩ := p
    simp only [writeEach] at h
    obtain ⟨⟨_, t⟩, h1, h⟩ := (bind_ok _ _ _).1 h
    obtain ⟨hm1, hf1⟩ := write_keeps_mode _ _ _ _ _ _ h1
    obtain ⟨hf2, hm2⟩ := ih _ h
    refine ⟨?_, by rw [hm2, hm1]⟩
    rw [hf2, hf1]
    simp only [List.flatMap_cons, List.append_assoc]

theorem writeRecordingControl_frames {σ : Type} (decl : Declarations) (bus : Bus σ)
    (fuel : Nat) (mode : RecordingMode) (win : WindowSetting) (s : Session σ) (b : Bool)
    (s1 : Session σ) (h : writeRecordingControl decl bus fuel mode win s = .ok (b, s1)) :
    sentFrames s1 = sentFrames s ++ writeFrames decl.REC_CTRL (recCtrlWord mode win)
      ++ readFrames decl.REC_CTRL ∧
    ∃ t v t2, write bus fuel decl.REC_CTRL (recCtrlWord mode win) s = .ok ((), t) ∧
      read bus fuel decl.REC_CTRL t = .ok (v, t2) ∧
      b = decide (RecordingMode.ofBits (v.val &&& 0x3) = mode) := by
  simp only [writeRecordingControl] at h
  obtain ⟨⟨_, t⟩, h1, h⟩ := (bind_ok _ _ _).1 h
  obtain ⟨⟨v, t2⟩, h2, h⟩ := (bind_ok _ _ _).1 h
  simp only [pure, Except.pure, Except.ok.injEq, Prod.mk.injEq] at h
  obtain ⟨hb, hs⟩ := h
  subst hs
  obtain ⟨_, hf1⟩ := write_keeps_mode _ _ _ _ _ _ h1
  obtain ⟨_, hf2⟩ := read_keeps_mode _ _ _ _ _ _ h2
  refine ⟨?_, t, v, t2, h1, h2, hb.symm⟩
  have : sentFrames { t2 with currentRecordingMode := RecordingMode.ofBits (v.val &&& 0x3) }
      = sentFrames t2 := rfl
  rw [this, hf2, hf1]
  rfl

/-- C19: custom filter ordering. For every mode other than Streaming and every config
with firFilter = CUSTOM, an `activateMode` that returns has sent, in this order and
nothing else: the frames of the write of AVG_CNT, the frames of the writes of the 32
custom taps to FIR_COEFFS_F[0], .., FIR_COEFFS_F[31] (tap i to slot i), the frames of the
write of FILT_CTRL selecting filter bank F, the frames of the write of REC_CTRL, and the
frames of the read of REC_CTRL; so no filter-selection write precedes a tap write. On a
device that answers within the poll budget it returns. -/
theorem activateMode_custom_filter_order {σ : Type} (decl : Declarations) (bus : Bus σ)
    (fuel : Nat) (cfg : RecordingConfig) (mode : RecordingMode) (win : WindowSetting)
    (s : Session σ) (hm : mode ≠ .RTS) (hc : cfg.firFilter = decl.CUSTOM) :
    (∀ b s1, activateMode decl bus fuel cfg mode win s = .ok (b, s1) →
      sentFrames s1 = sentFrames s ++
        writeFrames decl.AVG_CNT (avgCntWord cfg.decimationFactor) ++
        (List.finRange 32).flatMap
          (fun i => writeFrames (decl.FIR_COEFFS_F i) (wordOfInt (cfg.customFilterTaps i))) ++
        writeFrames decl.FILT_CTRL (filtCtrlWord decl.HIGH_PASS_10kHz) ++
        writeFrames decl.REC_CTRL (recCtrlWord mode win) ++
        readFrames decl.REC_CTRL) ∧
    (Responsive bus fuel → ∃ b s1, activateMode decl bus fuel cfg mode win s = .ok (b, s1)) := by
  refine ⟨?_, activateMode_returns decl bus fuel cfg mode win s⟩
  intro b s1 h
  have key : ∀ t1 t2 t3 : Session σ,
      write bus fuel decl.AVG_CNT (avgCntWord cfg.decimationFactor) s = .ok ((), t1) →
      writeCustomFIRFilterTaps decl bus fuel cfg.customFilterTaps t1 = .ok ((), t2) →
      writeFIRFilter decl bus fuel decl.HIGH_PASS_10kHz t2 = .ok ((), t3) →
      writeRecordingControl decl bus fuel mode win t3 = .ok (b, s1) →
      sentFrames s1 = sentFrames s ++
        writeFrames decl.AVG_CNT (avgCntWord cfg.decimationFactor) ++
        (List.finRange 32).flatMap
          (fun i => writeFrames (decl.FIR_COEFFS_F i) (wordOfInt (cfg.customFilterTaps i))) ++
        writeFrames decl.FILT_CTRL (filtCtrlWord decl.HIGH_PASS_10kHz) ++
        writeFrames decl.REC_CTRL (recCtrlWord mode win) ++
        readFrames decl.REC_CTRL := by
    intro t1 t2 t3 h1 h2 h3 h4
    obtain ⟨_, f1⟩ := write_keeps_mode _ _ _ _ _ _ h1
    obtain ⟨f2, _⟩ := writeEach_frames _ _ _ _ _ h2
    obtain ⟨_, f3⟩ := write_keeps_mode _ _ _ _ _ _ h3
    obtain ⟨f4, _⟩ := writeRecordingControl_frames _ _ _ _ _ _ _ _ h4
    rw [f4, f3, f2, f1]
    simp only [List.flatMap_map, List.append_assoc]
    rfl
  cases mode with
  | RTS => exact absurd rfl hm
  | MFFT =>
    simp only [activateMode, hc, if_true] at h
    obtain ⟨⟨_, t1⟩, h1, h⟩ := (bind_ok _ _ _).1 h
    obtain ⟨⟨_, t2⟩, h2, h⟩ := (bind_ok _ _ _).1 h
    obtain ⟨⟨_, t3⟩, h3, h⟩ := (bind_ok _ _ _).1 h
    exact key t1 t2 t3 h1 h2 h3 h
  | AFFT =>
    simp only [activateMode, hc, if_true] at h
    obtain ⟨⟨_, t1⟩, h1, h⟩ := (bind_ok _ _ _).1 h
    obtain ⟨⟨_, t2⟩, h2, h⟩ := (bind_ok _ _ _).1 h
    obtain ⟨⟨_, t3⟩, h3, h⟩ := (bind_ok _ _ _).1 h
    exact key t1 t2 t3 h1 h2 h3 h
  | MTC =>
    simp only [activateMode, hc, if_true] at h
    obtain ⟨⟨_, t1⟩, h1, h⟩ := (bind_ok _ _ _).1 h
    obtain ⟨⟨_, t2⟩, h2, h⟩ := (bind_ok _ _ _).1 h
    obtain ⟨⟨_, t3⟩, h3, h⟩ := (bind_ok _ _ _).1 h
    exact key t1 t2 t3 h1 h2 h3 h

theorem activateMode_custom_filter_order_witness :
    RecordingMode.MFFT ≠ .RTS ∧
    ({ sampleConfig with firFilter := ⟨7⟩ } : RecordingConfig).firFilter
      = sampleDeclarations.CUSTOM ∧
    ∃ b s1, activateMode sampleDeclarations swapBus 1 { sampleConfig with firFilter := ⟨7⟩ }
      .MFFT ⟨1⟩ (Session.start ()) = .ok (b, s1) :=
  ⟨by decide, rfl,
    (activateMode_custom_filter_order sampleDeclarations swapBus 1
      { sampleConfig with firFilter := ⟨7⟩ } .MFFT ⟨1⟩ (Session.start ()) (by decide) rfl).2
      swapBus_responsive⟩

/-! ## The recording-control word -/

theorem recCtrlWord_mode_bits (mode : RecordingMode) (win : WindowSetting) :
    (recCtrlWord mode win).val % 4 = mode.code := by
  have hb := (toByte win.value).isLt
  have hc : (toByte mode.code).val = mode.code := by cases mode <;> rfl
  have hc4 : mode.code < 4 := by cases mode <;> decide
  have h1 : (0x100 : Word).val ||| ((toByte win.value).val <<< 12)
      = 4096 * (toByte win.value).val + 256 := by
    have h := @Nat.mul_add_lt_is_or 12 256 (by decide) (toByte win.value).val
    rw [Nat.shiftLeft_eq, Nat.or_comm, Nat.mul_comm]
    exact h.symm
  have h2 : ∀ x : Nat, x % 4 = 0 → x ||| mode.code = x + mode.code := by
    intro x hx
    have h := @Nat.mul_add_lt_is_or 2 mode.code (by simpa using hc4) (x / 4)
    have hx4 : 2 ^ 2 * (x / 4) = x := by omega
    rw [hx4] at h
    exact h.symm
  simp only [recCtrlWord, toWord, h1, hc]
  rw [h2 _ (by omega)]
  omega

theorem recCtrlWord_fields (mode : RecordingMode) (win : WindowSetting)
    (hw : win.value < 16) :
    (recCtrlWord mode win).val = 0x100 ||| (win.value <<< 12) ||| mode.code ∧
    (recCtrlWord mode win).val &&& 0x3 = mode.code ∧
    (recCtrlWord mode win).val >>> 12 = win.value ∧
    (recCtrlWord mode win).val &&& 0x100 = 0x100 := by
  obtain ⟨w⟩ := win
  simp only at hw
  interval_cases w <;> cases mode <;> decide

theorem echoBus_responsive (n : Nat) : Responsive echoBus (n + 1) := by
  intro d
  simp [readyWithin, echoBus]

/-- C20: recording-control encoding. For every mode (code m in 0..3) and window code w
in 0..15, the word written to the recording-control register is 0x100 | (w << 12) | m;
the fields decode back from it: word & 0x3 = m, word >> 12 = w, and bit 8 is set. The
frames `writeRecordingControl` sends are those of the write of this word to REC_CTRL,
then those of the read of REC_CTRL. Against the device that echoes writes, with
REC_CTRL readable and writable at an address in 1..0x7E, `activateMode` returns true for
every mode, config and window setting. -/
theorem recording_control_encoding (mode : RecordingMode) (win : WindowSetting) :
    (win.value < 16 →
      (recCtrlWord mode win).val = 0x100 ||| (win.value <<< 12) ||| mode.code ∧
      (recCtrlWord mode win).val &&& 0x3 = mode.code ∧
      (recCtrlWord mode win).val >>> 12 = win.value ∧
      (recCtrlWord mode win).val &&& 0x100 = 0x100) ∧
    (∀ (σ : Type) (decl : Declarations) (bus : Bus σ) (fuel : Nat) (s : Session σ) (b : Bool)
      (s1 : Session σ), writeRecordingControl decl bus fuel mode win s = .ok (b, s1) →
      sentFrames s1 = sentFrames s ++ writeFrames decl.REC_CTRL (recCtrlWord mode win)
        ++ readFrames decl.REC_CTRL) ∧
    (∀ (decl : Declarations) (cfg : RecordingConfig) (n : Nat) (s : Session EchoDevice),
      decl.REC_CTRL.readFlag = true → decl.REC_CTRL.writeFlag = true →
      1 ≤ decl.REC_CTRL.address.val → decl.REC_CTRL.address.val ≤ 0x7E →
      ∃ s1, activateMode decl echoBus (n + 1) cfg mode win s = .ok (true, s1)) := by
  refine ⟨recCtrlWord_fields mode win, ?_, ?_⟩
  · intro σ decl bus fuel s b s1 h
    exact (writeRecordingControl_frames decl bus fuel mode win s b s1 h).1
  · intro decl cfg n s hr hw h1 h2
    obtain ⟨b, s1, h⟩ := activateMode_returns decl echoBus (n + 1) cfg mode win s
      (echoBus_responsive n)
    obtain ⟨s0, h0⟩ := activateMode_ends_with_recordingControl decl echoBus (n + 1) cfg mode
      win s b s1 h
    obtain ⟨_, t, v, t2, hwr, hrd, hb⟩ :=
      writeRecordingControl_frames decl echoBus (n + 1) mode win s0 b s1 h0
    have hrt := writeThenRead_echoBus n decl.REC_CTRL (recCtrlWord mode win) s0 hr hw h1 h2
    simp only [writeThenRead, hwr, hrd, bind, Except.bind, pure, Except.pure,
      Except.ok.injEq] at hrt
    subst hrt
    have hbits : RecordingMode.ofBits ((recCtrlWord mode win).val &&& 0x3) = mode := by
      rw [and_three, recCtrlWord_mode_bits]
      cases mode <;> rfl
    rw [hbits] at hb
    simp only [decide_True] at hb
    subst hb
    exact ⟨s1, h⟩

theorem recording_control_encoding_witness :
    (WindowSetting.mk 2).value < 16 ∧
    sampleDeclarations.REC_CTRL.readFlag = true ∧ sampleDeclarations.REC_CTRL.writeFlag = true ∧
    1 ≤ sampleDeclarations.REC_CTRL.address.val ∧
    sampleDeclarations.REC_CTRL.address.val ≤ 0x7E ∧
    (recCtrlWord .MTC ⟨2⟩).val = 0x100 ||| ((WindowSetting.mk 2).value <<< 12) |||
      RecordingMode.MTC.code ∧
    ∃ s1, activateMode sampleDeclarations echoBus 1 sampleConfig .MTC ⟨2⟩
      (Session.start EchoDevice.blank) = .ok (true, s1) :=
  ⟨by decide, rfl, rfl, by decide, by decide,
    ((recording_control_encoding .MTC ⟨2⟩).1 (by decide)).1,
    (recording_control_encoding .MTC ⟨2⟩).2.2 sampleDeclarations sampleConfig 0
      (Session.start EchoDevice.blank) rfl rfl (by decide) (by decide)⟩

/-! ## The decimation factor -/

theorem readRecInfoDecimationFactor_ok {σ : Type} (decl : Declarations) (bus : Bus σ)
    (fuel : Nat) (s : Session σ) (d : Int) (s1 : Session σ)
    (h : readRecInfoDecimationFactor decl bus fuel s = .ok (d, s1)) :
    ∃ v, read bus fuel decl.REC_INFO2 s = .ok (v, s1) ∧ d = Int.ofNat (2 ^ (v.val &&& 0x7)) := by
  simp only [readRecInfoDecimationFactor] at h
  obtain ⟨⟨v, t⟩, hread, h⟩ := (bind_ok _ _ _).1 h
  simp only [pure, Except.pure, Except.ok.injEq, Prod.mk.injEq] at h
  obtain ⟨hd, ht⟩ := h
  subst ht
  exact ⟨v, hread, hd.symm⟩

theorem pow_three_bits (x : Nat) :
    2 ^ (x &&& 0x7) ∈ [1, 2, 4, 8, 16, 32, 64, 128] := by
  have h : x &&& 0x7 = x % 8 := Nat.and_pow_two_sub_one_eq_mod x 3
  rw [h]
  have h8 : x % 8 < 8 := Nat.mod_lt x (by decide)
  interval_cases (x % 8) <;> decide

/-- In every mode but Streaming the switch reads the decimation factor first and
divides by it in the step size. -/
theorem dispatch_decimation {σ F : Type} [FloatArith F] (decl : Declarations) (bus : Bus σ)
    (fuel : Nat) (s : Session σ) (r : Int × F × (Int → F)) (s1 : Session σ)
    (h : retrieveVibrationData.dispatch decl bus fuel s = .ok (r, s1))
    (hn : s.currentRecordingMode ≠ .RTS) :
    ∃ d t, readRecInfoDecimationFactor decl bus fuel s = .ok (d, t) ∧
      (s.currentRecordingMode = .MTC →
        r.2.1 = ((1 : Nat) : F) / (((220000 : Nat) : F) / ((d : Int) : F))) ∧
      (s.currentRecordingMode ≠ .MTC →
        r.2.1 = ((110000 : Nat) : F) / ((d : Int) : F) / (((2048 : Int) : Int) : F)) := by
  unfold retrieveVibrationData.dispatch at h
  split at h
  · rename_i hm; exact absurd hm hn
  · rename_i hm
    obtain ⟨⟨d, t1⟩, h1, h⟩ := (bind_ok _ _ _).1 h
    simp only [pure, Except.pure, Except.ok.injEq, Prod.mk.injEq] at h
    obtain ⟨hr, _⟩ := h
    subst hr
    exact ⟨d, t1, h1, fun _ => rfl, fun hc => absurd hm hc⟩
  · rename_i hm1 hm2
    obtain ⟨⟨d, t1⟩, h1, h⟩ := (bind_ok _ _ _).1 h
    obtain ⟨⟨a, t2⟩, h2, h⟩ := (bind_ok _ _ _).1 h
    simp only [pure, Except.pure, Except.ok.injEq, Prod.mk.injEq] at h
    obtain ⟨hr, _⟩ := h
    subst hr
    exact ⟨d, t1, h1, fun hc => absurd hc hm2, fun _ => rfl⟩

theorem readRecInfoDecimationFactor_returns {σ : Type} (decl : Declarations) (bus : Bus σ)
    (fuel : Nat) (s : Session σ) (hb : Responsive bus fuel) :
    ∃ d s1, readRecInfoDecimationFactor decl bus fuel s = .ok (d, s1) := by
  obtain ⟨v, t, hv⟩ := read_returns bus fuel decl.REC_INFO2 s hb
  simp only [readRecInfoDecimationFactor, hv, bind, Except.bind, pure, Except.pure]
  exact ⟨_, _, rfl⟩

/-- C21: for every value of the status register REC_INFO2, a
`readRecInfoDecimationFactor` that returns gives 2^(value & 0x7), one of 1, 2, 4, 8, 16,
32, 64, 128, so never zero. In Capture and Spectrum mode the step size is computed by
dividing by this factor (Capture: 1 / (220000 / factor), Spectrum: 110000 / factor /
2048); with the float operations taken exactly neither the factor nor 220000 / factor is
zero, so no division is a division by zero. On a device that answers within the poll
budget the function returns. -/
theorem decimation_factor_never_zero {σ F : Type} [LinearOrderedField F] (pow : F → F → F)
    (decl : Declarations) (bus : Bus σ) (fuel : Nat) (s : Session σ) :
    (∀ d s1, readRecInfoDecimationFactor decl bus fuel s = .ok (d, s1) →
      ∃ v, read bus fuel decl.REC_INFO2 s = .ok (v, s1) ∧
        d = Int.ofNat (2 ^ (v.val &&& 0x7)) ∧ d ∈ [1, 2, 4, 8, 16, 32, 64, 128] ∧ d ≠ 0 ∧
        ((d : Int) : F) ≠ 0 ∧ (220000 : F) / ((d : Int) : F) ≠ 0) ∧
    (∀ (r : Int × F × (Int → F)) (s1 : Session σ),
      @retrieveVibrationData.dispatch σ F (exactFloat F pow) decl bus fuel s = .ok (r, s1) →
      s.currentRecordingMode ≠ .RTS →
      ∃ d t, readRecInfoDecimationFactor decl bus fuel s = .ok (d, t) ∧
        (s.currentRecordingMode = .MTC → r.2.1 = 1 / (220000 / ((d : Int) : F))) ∧
        (s.currentRecordingMode ≠ .MTC → r.2.1 = 110000 / ((d : Int) : F) / 2048)) ∧
    (Responsive bus fuel → ∃ d s1, readRecInfoDecimationFactor decl bus fuel s = .ok (d, s1)) := by
  refine ⟨?_, ?_, readRecInfoDecimationFactor_returns decl bus fuel s⟩
  · intro d s1 h
    obtain ⟨v, hread, hd⟩ := readRecInfoDecimationFactor_ok decl bus fuel s d s1 h
    have hmem := pow_three_bits v.val
    have hlist : d ∈ [(1 : Int), 2, 4, 8, 16, 32, 64, 128] := by
      rw [hd]
      simp only [List.mem_cons, List.mem_singleton, List.not_mem_nil, or_false] at hmem ⊢
      rcases hmem with h | h | h | h | h | h | h | h <;> rw [h] <;> simp
    have hpos : 0 < d := by
      simp only [List.mem_cons, List.mem_singleton, List.not_mem_nil, or_false] at hlist
      rcases hlist with h | h | h | h | h | h | h | h <;> rw [h] <;> decide
    have hF : (0 : F) < ((d : Int) : F) := by exact_mod_cast hpos
    exact ⟨v, hread, hd, hlist, by omega, ne_of_gt hF, ne_of_gt (div_pos (by norm_num) hF)⟩
  · intro r s1 h hn
    obtain ⟨d, t, hd, h1, h2⟩ :=
      @dispatch_decimation σ F (exactFloat F pow) decl bus fuel s r s1 h hn
    refine ⟨d, t, hd, ?_, ?_⟩
    · intro hc
      rw [h1 hc]
      simp
    · intro hc
      rw [h2 hc]
      simp

theorem decimation_factor_never_zero_witness :
    ∃ d s1, readRecInfoDecimationFactor sampleDeclarations captureBus 1 (Session.start ())
      = .ok (d, s1) :=
  (decimation_factor_never_zero (fun _ _ => (1 : ℚ)) sampleDeclarations captureBus 1
    (Session.start ())).2.2 (captureBus_responsive 0)

/-! ## The values of a streaming batch -/

theorem gather_mem {F : Type} [NatCast F] (words : List Word) (n a b : Nat)
    (hab : a + b ≤ 100) (x : F) (hx : x ∈ gather words n a b) :
    ∃ i, i < 100 * n ∧ x = wordAt words i := by
  simp only [gather, List.mem_flatMap, List.mem_range, List.mem_map, List.mem_range'_1] at hx
  obtain ⟨k, hk, i, hi, hxi⟩ := hx
  exact ⟨i, by omega, hxi.symm⟩

theorem wordAt_convertRTS {F : Type} [NatCast F] (rs : List WordBuffer) (i : Nat)
    (hi : i < rs.length) :
    ∃ r, rs[i]? = some r ∧
      (wordAt (rs.map convertRTS) i : F) = ((256 * r.2.val + r.1.val : Nat) : F) := by
  refine ⟨rs[i], List.getElem?_eq_getElem hi, ?_⟩
  have hg : (rs.map convertRTS).getD i 0 = convertRTS rs[i] := by
    rw [List.getD_eq_getElem?_getD, List.getElem?_map, List.getElem?_eq_getElem hi]
    rfl
  simp only [wordAt, hg, convertRTS_val]

theorem gather_value {F : Type} [NatCast F] (rs : List WordBuffer) (n a b : Nat)
    (hab : a + b ≤ 100) (hlen : rs.length = 100 * n) (x : F)
    (hx : x ∈ gather (rs.map convertRTS) n a b) :
    ∃ (i : Nat) (r : WordBuffer), rs[i]? = some r ∧ x = ((256 * r.2.val + r.1.val : Nat) : F) := by
  obtain ⟨i, hi, hxi⟩ := gather_mem (rs.map convertRTS) n a b hab x hx
  obtain ⟨r, hr, hw⟩ := @wordAt_convertRTS F _ rs i (by omega)
  exact ⟨i, r, hr, by rw [hxi, hw]⟩

/-- C22: in Streaming mode the conversion closure that the mode dispatch selects is not
applied. The batch a `retrieveVibrationData` returns holds, position by position, the
words of the ten blocks, each the unsigned little-endian value 256 * resp[1] + resp[0] of
its response converted to float: every axis sample and every per-block value lies in
[0, 65535] (float operations taken exactly). `readRtsSamplesBuffer` gives the same result
for every closure. A word >= 0x8000 is stored as a value >= 32768, whereas the closure
applied to its signed 16-bit reading would give that value minus 65536, a negative
number. -/
theorem streaming_values_are_unsigned {σ F : Type} [LinearOrderedField F] (pow : F → F → F)
    (decl : Declarations) (bus : Bus σ) (fuel : Nat) (uninit : RecordingMode)
    (s : Session σ) (hm : s.currentRecordingMode = .RTS) :
    (∀ (vd : VibrationData F) (s1 : Session σ),
      @retrieveVibrationData σ F (exactFloat F pow) decl bus fuel uninit s = .ok (vd, s1) →
      ∃ rs : List WordBuffer, rs.length = 1000 ∧
        s1.trace = s.trace ++ rs.map (fun r => BusEvent.exchange (0, 0) r) ∧
        vd.xAxis = gather (rs.map convertRTS) 10 1 32 ∧
        vd.yAxis = gather (rs.map convertRTS) 10 33 32 ∧
        vd.zAxis = gather (rs.map convertRTS) 10 65 32 ∧
        vd.temperature = gather (rs.map convertRTS) 10 97 1 ∧
        vd.status = gather (rs.map convertRTS) 10 98 1 ∧
        vd.crc = gather (rs.map convertRTS) 10 99 1 ∧
        vd.sequenceNumber = gather (rs.map convertRTS) 10 0 1 ∧
        ∀ x ∈ vd.xAxis ++ vd.yAxis ++ vd.zAxis ++ vd.temperature ++ vd.status ++ vd.crc
            ++ vd.sequenceNumber,
          (∃ (i : Nat) (r : WordBuffer), rs[i]? = some r ∧ x = ((256 * r.2.val + r.1.val : Nat) : F)) ∧
          0 ≤ x ∧ x ≤ 65535) ∧
    (∀ (conv1 conv2 : Int → F) (samplesCount : Int),
      readRtsSamplesBuffer bus samplesCount conv1 uninit s
        = readRtsSamplesBuffer bus samplesCount conv2 uninit s) ∧
    (∀ w : Word, 0x8000 ≤ w.val →
      (32768 : F) ≤ ((w.val : Nat) : F) ∧
      @convertVibrationValue F (exactFloat F pow) .RTS 0 (toInt16 w)
        = ((w.val : Nat) : F) - 65536 ∧
      @convertVibrationValue F (exactFloat F pow) .RTS 0 (toInt16 w) < 0) := by
  refine ⟨?_, fun _ _ _ => rfl, ?_⟩
  · intro vd s1 h
    obtain ⟨rs, hlen, htr, hvd⟩ :=
      @retrieveVibrationData_streaming σ F (exactFloat F pow) decl bus fuel uninit s hm vd s1 h
    have hl : rs.length = 100 * 10 := by omega
    have bound : ∀ (a b : Nat), a + b ≤ 100 → ∀ x ∈ gather (rs.map convertRTS) 10 a b,
        (∃ (i : Nat) (r : WordBuffer), rs[i]? = some r ∧ x = ((256 * r.2.val + r.1.val : Nat) : F)) ∧
        0 ≤ x ∧ x ≤ 65535 := by
      intro a b hab x hx
      obtain ⟨i, r, hr, hxr⟩ := @gather_value F _ rs 10 a b hab hl x hx
      refine ⟨⟨i, r, hr, hxr⟩, ?_, ?_⟩
      · rw [hxr]; exact Nat.cast_nonneg _
      · rw [hxr]
        have h1 := r.1.isLt
        have h2 := r.2.isLt
        have : 256 * r.2.val + r.1.val ≤ 65535 := by omega
        exact_mod_cast this
    subst hvd
    simp only [appendBlocks, VibrationData.empty, List.nil_append]
    refine ⟨rs, hlen, htr, rfl, rfl, rfl, rfl, rfl, rfl, rfl, ?_⟩
    intro x hx
    simp only [List.mem_append] at hx
    rcases hx with (((((hx | hx) | hx) | hx) | hx) | hx) | hx
    · exact bound 1 32 (by decide) x hx
    · exact bound 33 32 (by decide) x hx
    · exact bound 65 32 (by decide) x hx
    · exact bound 97 1 (by decide) x hx
    · exact bound 98 1 (by decide) x hx
    · exact bound 99 1 (by decide) x hx
    · exact bound 0 1 (by decide) x hx
  · intro w hw
    have hlt := w.isLt
    have h1 : (32768 : F) ≤ ((w.val : Nat) : F) := by exact_mod_cast hw
    have h2 : @convertVibrationValue F (exactFloat F pow) .RTS 0 (toInt16 w)
        = ((w.val : Nat) : F) - 65536 := by
      have hn : ¬ w.val < 32768 := by omega
      simp only [convertVibrationValue, toInt16, hn, if_false, Int.ofNat_eq_coe]
      push_cast
      rfl
    refine ⟨h1, h2, ?_⟩
    rw [h2]
    have : ((w.val : Nat) : F) < 65536 := by exact_mod_cast hlt
    linarith

theorem streaming_values_are_unsigned_witness :
    ({ Session.start () with currentRecordingMode := .RTS } : Session Unit).currentRecordingMode
      = .RTS ∧
    ∃ (vd : VibrationData ℚ) (s1 : Session Unit),
      @retrieveVibrationData Unit ℚ (exactFloat ℚ (fun _ _ => 1)) sampleDeclarations swapBus 1
        .MFFT { Session.start () with currentRecordingMode := .RTS } = .ok (vd, s1) ∧
      ∀ x ∈ vd.xAxis ++ vd.yAxis ++ vd.zAxis ++ vd.temperature ++ vd.status ++ vd.crc
          ++ vd.sequenceNumber, 0 ≤ x ∧ x ≤ 65535 := by
  refine ⟨rfl, ?_⟩
  obtain ⟨vd, s1, h⟩ := @retrieveVibrationData_returns Unit ℚ (exactFloat ℚ (fun _ _ => 1))
    sampleDeclarations swapBus 1 .MFFT { Session.start () with currentRecordingMode := .RTS }
    swapBus_responsive swapBus_reliable
  obtain ⟨rs, _, _, _, _, _, _, _, _, _, hb⟩ :=
    (streaming_values_are_unsigned (fun _ _ => (1 : ℚ)) sampleDeclarations swapBus 1 .MFFT
      { Session.start () with currentRecordingMode := .RTS } rfl).1 vd s1 h
  exact ⟨vd, s1, h, fun x hx => (hb x hx).2⟩

/-! ## The session after a mode activation -/

theorem retrieveVibrationData_follows_mode {σ F : Type} [FloatArith F] (decl : Declarations)
    (bus : Bus σ) (fuel : Nat) (uninit : RecordingMode) (s : Session σ)
    (vd : VibrationData F) (s1 : Session σ)
    (h : retrieveVibrationData decl bus fuel uninit s = .ok (vd, s1)) :
    vd.recordingMode = s.currentRecordingMode ∧
    vd.xAxis.length =
      (match s.currentRecordingMode with
        | .RTS => 320
        | .MTC => 4096
        | _ => 2048) := by
  by_cases hm : s.currentRecordingMode = .RTS
  · obtain ⟨rs, _, _, hvd⟩ := retrieveVibrationData_streaming decl bus fuel uninit s hm vd s1 h
    subst hvd
    simp only [appendBlocks, VibrationData.empty, List.nil_append, gather_length, hm]
    exact ⟨trivial, trivial⟩
  · obtain ⟨n, step, conv, t, x, y, z, _, h1, h2, hx, hy, hz, hvd⟩ :=
      retrieveVibrationData_buffered decl bus fuel uninit s hm vd s1 h
    subst hvd
    simp only [VibrationData.empty, hx]
    refine ⟨trivial, ?_⟩
    cases hc : s.currentRecordingMode with
    | RTS => exact absurd hc hm
    | MTC => exact h1 hc
    | MFFT => exact h2 (by rw [hc]; decide)
    | AFFT => exact h2 (by rw [hc]; decide)

/-- C23: session state after activation. After an `activateMode` that returns, whether
true or false, the session's current recording mode is the mode encoded by the two low
bits of the recording-control value re-read from the device, not the requested mode; the
result is true exactly when the two agree. A failed activation is therefore not atomic:
against the mock that always reports Capture, activating Streaming from a session in
MFFT returns false and leaves the session in MTC. The next `retrieveVibrationData`
dispatches on the device-reported mode: its batch carries that mode and has the sample
count of that mode. -/
theorem activation_keeps_device_reported_mode {σ F : Type} [FloatArith F]
    (decl : Declarations) (bus : Bus σ) (fuel : Nat) (cfg : RecordingConfig)
    (mode : RecordingMode) (win : WindowSetting) (s : Session σ)
    (hr : decl.REC_CTRL.readFlag = true) :
    (∀ b s1, activateMode decl bus fuel cfg mode win s = .ok (b, s1) →
      ∃ (pre : List BusEvent) (r : WordBuffer),
        s1.trace = pre ++ [.exchange (0, 0) r] ∧
        s1.currentRecordingMode = RecordingMode.ofBits ((256 * r.1.val + r.2.val) % 4) ∧
        (b = true ↔ s1.currentRecordingMode = mode) ∧
        ∀ (fuel2 : Nat) (uninit : RecordingMode) (vd : VibrationData F) (s2 : Session σ),
          retrieveVibrationData decl bus fuel2 uninit s1 = .ok (vd, s2) →
          vd.recordingMode = RecordingMode.ofBits ((256 * r.1.val + r.2.val) % 4) ∧
          vd.xAxis.length =
            (match RecordingMode.ofBits ((256 * r.1.val + r.2.val) % 4) with
              | .RTS => 320
              | .MTC => 4096
              | _ => 2048)) ∧
    (∀ (n : Nat),
      ∃ t1, activateMode decl captureBus (n + 1) cfg .RTS win (Session.start ()) = .ok (false, t1) ∧
        (Session.start ()).currentRecordingMode = .MFFT ∧ t1.currentRecordingMode = .MTC) := by
  constructor
  · intro b s1 h
    obtain ⟨s0, h0⟩ := activateMode_ends_with_recordingControl decl bus fuel cfg mode win s b s1 h
    obtain ⟨_, _, _, r, _, ⟨pre, hpre⟩, hmode, hb⟩ :=
      writeRecordingControl_ok decl bus fuel mode win s0 hr b s1 h0
    rw [convert_val] at hmode hb
    refine ⟨pre, r, hpre, hmode, ?_, ?_⟩
    · rw [hb, hmode]
      exact (ofBits_eq_iff _ (Nat.mod_lt _ (by decide)) mode).symm
    · intro fuel2 uninit vd s2 h2
      have := retrieveVibrationData_follows_mode decl bus fuel2 uninit s1 vd s2 h2
      rw [hmode] at this
      exact this
  · intro n
    have hc := captureBus_reports_capture
    cases hw : decl.REC_CTRL.writeFlag <;>
      simp only [activateMode, writeRecordingControl, write, read, hr, hw, Bool.not_true,
        Bool.not_false, Bool.false_eq_true, if_false, if_true, transferBlocking_captureBus,
        bind, Except.bind, pure, Except.pure, hc] <;>
      exact ⟨_, rfl, rfl, rfl⟩

theorem activation_keeps_device_reported_mode_witness :
    sampleDeclarations.REC_CTRL.readFlag = true ∧
    ∃ t1, activateMode sampleDeclarations captureBus 1 sampleConfig .RTS ⟨0⟩ (Session.start ())
        = .ok (false, t1) ∧
      (Session.start ()).currentRecordingMode = .MFFT ∧ t1.currentRecordingMode = .MTC :=
  ⟨rfl, (@activation_keeps_device_reported_mode Unit ℚ (exactFloat ℚ (fun _ _ => 1))
    sampleDeclarations captureBus 1 sampleConfig .RTS ⟨0⟩ (Session.start ()) rfl).2 0⟩

/-! ## The indices of the row loop -/

theorem retrieveVibrationData_lengths {σ F : Type} [FloatArith F] (decl : Declarations)
    (bus : Bus σ) (fuel : Nat) (uninit : RecordingMode) (s : Session σ)
    (vd : VibrationData F) (s1 : Session σ)
    (h : retrieveVibrationData decl bus fuel uninit s = .ok (vd, s1)) :
    vd.stepAxis.length = vd.xAxis.length ∧ vd.yAxis.length = vd.xAxis.length ∧
    vd.zAxis.length = vd.xAxis.length ∧
    (vd.recordingMode = .RTS →
      vd.xAxis.length = 320 ∧ vd.temperature.length = 10 ∧ vd.status.length = 10 ∧
      vd.crc.length = 10 ∧ vd.sequenceNumber.length = 10) := by
  by_cases hm : s.currentRecordingMode = .RTS
  · obtain ⟨rs, _, _, hvd⟩ := retrieveVibrationData_streaming decl bus fuel uninit s hm vd s1 h
    subst hvd
    simp only [appendBlocks, VibrationData.empty, List.nil_append, gather_length,
      List.length_map, List.length_range]
    simp
  · obtain ⟨n, step, conv, t, x, y, z, _, _, _, hx, hy, hz, hvd⟩ :=
      retrieveVibrationData_buffered decl bus fuel uninit s hm vd s1 h
    subst hvd
    simp only [VibrationData.empty, List.length_map, List.length_range, hx, hy, hz]
    exact ⟨trivial, trivial, trivial, fun hc => absurd hc hm⟩

theorem storeVibrationData_row_some {F : Type} (vd : VibrationData F) (i : Nat)
    (hs : i < vd.stepAxis.length) (hx : i < vd.xAxis.length) (hy : i < vd.yAxis.length)
    (hz : i < vd.zAxis.length)
    (hrts : vd.recordingMode = .RTS →
      i / 32 < vd.temperature.length ∧ i / 32 < vd.status.length ∧ i / 32 < vd.crc.length ∧
      i / 32 < vd.sequenceNumber.length) :
    ∃ row, storeVibrationData.row vd i = some row := by
  unfold storeVibrationData.row
  split
  · rename_i hm
    obtain ⟨h1, h2, h3, h4⟩ := hrts hm
    simp only [List.getElem?_eq_getElem hs, List.getElem?_eq_getElem hx,
      List.getElem?_eq_getElem hy, List.getElem?_eq_getElem hz, List.getElem?_eq_getElem h1,
      List.getElem?_eq_getElem h2, List.getElem?_eq_getElem h3, List.getElem?_eq_getElem h4,
      Option.bind_eq_bind, Option.some_bind, pure]
    exact ⟨_, rfl⟩
  · simp only [List.getElem?_eq_getElem hs, List.getElem?_eq_getElem hx,
      List.getElem?_eq_getElem hy, List.getElem?_eq_getElem hz, Option.bind_eq_bind,
      Option.some_bind, pure]
    exact ⟨_, rfl⟩

theorem storeVibrationData_loop_some {F : Type} (vd : VibrationData F) (l : List Nat)
    (h : ∀ i ∈ l, ∃ row, storeVibrationData.row vd i = some row) :
    ∃ rows, storeVibrationData.loop vd l = some rows ∧ rows.length = l.length := by
  induction l with
  | nil => exact ⟨[], rfl, rfl⟩
  | cons i rest ih =>
    obtain ⟨row, hrow⟩ := h i (List.mem_cons_self i rest)
    obtain ⟨rows, hrows, hlen⟩ := ih (fun j hj => h j (List.mem_cons_of_mem i hj))
    refine ⟨row :: rows, ?_, by simp [hlen]⟩
    simp only [storeVibrationData.loop, hrow, hrows, Option.bind_eq_bind, Option.some_bind,
      pure]

/-- C24: for every batch a `retrieveVibrationData` returns, every index the row loop of
`storeVibrationData` uses is in bounds: for each i < xAxis.size, i is a valid index of
stepAxis, yAxis and zAxis, and in Streaming mode i / 32 is a valid index of temperature,
status, crc and sequenceNumber; so the loop writes one row per sample and makes no access
out of bounds. -/
theorem storeVibrationData_indices_in_bounds {σ F : Type} [FloatArith F]
    (decl : Declarations) (bus : Bus σ) (fuel : Nat) (uninit : RecordingMode)
    (s : Session σ) :
    (∀ (vd : VibrationData F) (s1 : Session σ),
      retrieveVibrationData decl bus fuel uninit s = .ok (vd, s1) →
      (∀ i, i < vd.xAxis.length →
        i < vd.stepAxis.length ∧ i < vd.yAxis.length ∧ i < vd.zAxis.length ∧
        (vd.recordingMode = .RTS →
          i / 32 < vd.temperature.length ∧ i / 32 < vd.status.length ∧
          i / 32 < vd.crc.length ∧ i / 32 < vd.sequenceNumber.length)) ∧
      ∃ rows, storeVibrationData.rows vd = some rows ∧ rows.length = vd.xAxis.length) ∧
    (Responsive bus fuel → Reliable bus →
      ∃ (vd : VibrationData F) (s1 : Session σ),
        retrieveVibrationData decl bus fuel uninit s = .ok (vd, s1)) := by
  refine ⟨?_, retrieveVibrationData_returns decl bus fuel uninit s⟩
  intro vd s1 h
  obtain ⟨hs, hy, hz, hrts⟩ := retrieveVibrationData_lengths decl bus fuel uninit s vd s1 h
  have hb : ∀ i, i < vd.xAxis.length →
      i < vd.stepAxis.length ∧ i < vd.yAxis.length ∧ i < vd.zAxis.length ∧
      (vd.recordingMode = .RTS →
        i / 32 < vd.temperature.length ∧ i / 32 < vd.status.length ∧
        i / 32 < vd.crc.length ∧ i / 32 < vd.sequenceNumber.length) := by
    intro i hi
    refine ⟨by omega, by omega, by omega, ?_⟩
    intro hm
    obtain ⟨h1, h2, h3, h4, h5⟩ := hrts hm
    refine ⟨?_, ?_, ?_, ?_⟩ <;> omega
  refine ⟨hb, ?_⟩
  obtain ⟨rows, hrows, hlen⟩ := storeVibrationData_loop_some vd (List.range vd.xAxis.length)
    (fun i hi => by
      have hi2 : i < vd.xAxis.length := List.mem_range.mp hi
      obtain ⟨a, b, c, d⟩ := hb i hi2
      exact storeVibrationData_row_some vd i a hi2 b c d)
  exact ⟨rows, hrows, by rw [hlen, List.length_range]⟩

theorem storeVibrationData_indices_in_bounds_witness :
    ∃ (vd : VibrationData ℚ) (s1 : Session Unit) (rows : List (List ℚ)),
      @retrieveVibrationData Unit ℚ (exactFloat ℚ (fun _ _ => 1)) sampleDeclarations swapBus 1
        .MFFT { Session.start () with currentRecordingMode := .RTS } = .ok (vd, s1) ∧
      storeVibrationData.rows vd = some rows ∧ rows.length = vd.xAxis.length := by
  have hthm := @storeVibrationData_indices_in_bounds Unit ℚ (exactFloat ℚ (fun _ _ => 1))
    sampleDeclarations swapBus 1 .MFFT { Session.start () with currentRecordingMode := .RTS }
  obtain ⟨vd, s1, h⟩ := hthm.2 swapBus_responsive swapBus_reliable
  obtain ⟨_, rows, hrows, hlen⟩ := hthm.1 vd s1 h
  exact ⟨vd, s1, rows, h, hrows, hlen⟩

/-! ## Rounding in binary32 -/

theorem roundHalfEven_err (y : ℚ) : |((roundHalfEven y : ℤ) : ℚ) - y| ≤ 1 / 2 := by
  have h1 := Int.floor_le y
  have h2 := Int.lt_floor_add_one y
  unfold roundHalfEven
  split_ifs with ha hb hc
  · rw [abs_le]; constructor <;> linarith
  · rw [abs_le]; push_cast; constructor <;> linarith
  · have : y - ⌊y⌋ = 1 / 2 := le_antisymm (not_lt.mp hb) (not_lt.mp ha)
    rw [abs_le]; constructor <;> linarith
  · have : y - ⌊y⌋ = 1 / 2 := le_antisymm (not_lt.mp hb) (not_lt.mp ha)
    rw [abs_le]; push_cast; constructor <;> linarith

theorem roundHalfEven_intCast (z : ℤ) : roundHalfEven (z : ℚ) = z := by
  unfold roundHalfEven
  simp

theorem roundBinary32_err (x : ℚ) (hx : (2 : ℚ) ^ (-126 : ℤ) ≤ x) :
    |roundBinary32 x - x| ≤ x * 2 ^ (-24 : ℤ) := by
  have hpos : 0 < x := lt_of_lt_of_le (by positivity) hx
  have hne : x ≠ 0 := ne_of_gt hpos
  have habs : |x| = x := abs_of_pos hpos
  have hlog : (-126 : ℤ) ≤ Int.log 2 x :=
    (Int.zpow_le_iff_le_log (by decide) hpos).1 (by exact_mod_cast hx)
  have hle : ((2 : ℕ) : ℚ) ^ Int.log 2 x ≤ x := Int.zpow_log_le_self (by decide) hpos
  simp only [roundBinary32, hne, if_false, habs, max_eq_left hlog]
  set e := Int.log 2 x with he
  set q : ℚ := 2 ^ (e - 23) with hq
  have hqpos : 0 < q := by positivity
  have herr := roundHalfEven_err (x / q)
  have h1 : ((roundHalfEven (x / q) : ℤ) : ℚ) * q - x
      = (((roundHalfEven (x / q) : ℤ) : ℚ) - x / q) * q := by
    field_simp
  rw [h1, abs_mul, abs_of_pos hqpos]
  have h2 : (1 / 2 : ℚ) * q = 2 ^ e * 2 ^ (-24 : ℤ) := by
    rw [hq, show e - 23 = e + (-24) + 1 by ring, zpow_add₀ (by norm_num), zpow_add₀ (by norm_num)]
    norm_num
    ring
  calc |((roundHalfEven (x / q) : ℤ) : ℚ) - x / q| * q ≤ (1 / 2) * q :=
        mul_le_mul_of_nonneg_right herr hqpos.le
    _ = 2 ^ e * 2 ^ (-24 : ℤ) := h2
    _ ≤ x * 2 ^ (-24 : ℤ) := by
        apply mul_le_mul_of_nonneg_right _ (by positivity)
        exact_mod_cast hle

theorem roundBinary32_natCast (n : ℕ) (hn : n < 2 ^ 24) : roundBinary32 (n : ℚ) = n := by
  rcases Nat.eq_zero_or_pos n with h0 | hpos
  · subst h0; simp [roundBinary32]
  have hposq : (0 : ℚ) < n := by exact_mod_cast hpos
  have hne : (n : ℚ) ≠ 0 := ne_of_gt hposq
  have habs : |(n : ℚ)| = n := abs_of_pos hposq
  have h0 : (0 : ℤ) ≤ Int.log 2 (n : ℚ) :=
    (Int.zpow_le_iff_le_log (by decide) hposq).1 (by simpa using (by exact_mod_cast hpos : (1 : ℚ) ≤ n))
  have h24 : Int.log 2 (n : ℚ) < 24 :=
    (Int.lt_zpow_iff_log_lt (by decide) hposq).1 (by
      have : (n : ℚ) < 2 ^ (24 : ℕ) := by exact_mod_cast hn
      norm_num at this ⊢
      exact this)
  simp only [roundBinary32, hne, if_false, habs, max_eq_left (by omega : (-126 : ℤ) ≤ Int.log 2 (n : ℚ))]
  set e := Int.log 2 (n : ℚ) with he
  obtain ⟨k, hk⟩ : ∃ k : ℕ, e - 23 = -(k : ℤ) := ⟨(23 - e).toNat, by omega⟩
  rw [hk]
  have hq : (2 : ℚ) ^ (-(k : ℤ)) = 1 / 2 ^ k := by
    rw [zpow_neg, zpow_natCast, one_div]
  rw [hq]
  have hint : (n : ℚ) / (1 / 2 ^ k) = ((n * 2 ^ k : ℤ) : ℚ) := by
    push_cast
    field_simp
  rw [hint, roundHalfEven_intCast]
  push_cast
  field_simp

theorem roundBinary32_step : roundBinary32 (1 / 220000) = 1249445 / 274877906944 := by
  have hpos : (0 : ℚ) < 1 / 220000 := by norm_num
  have habs : |(1 / 220000 : ℚ)| = 1 / 220000 := abs_of_pos hpos
  have hlog : Int.log 2 (1 / 220000 : ℚ) = -18 := by
    have h1 : (-18 : ℤ) ≤ Int.log 2 (1 / 220000 : ℚ) :=
      (Int.zpow_le_iff_le_log (by decide) hpos).1 (by norm_num)
    have h2 : Int.log 2 (1 / 220000 : ℚ) < -17 :=
      (Int.lt_zpow_iff_log_lt (by decide) hpos).1 (by norm_num)
    omega
  have hne : (1 / 220000 : ℚ) ≠ 0 := ne_of_gt hpos
  simp only [roundBinary32, hne, if_false, habs, hlog]
  have hfloor : ⌊(1 / 220000 : ℚ) / 2 ^ (max (-18 : ℤ) (-126) - 23)⌋ = 9995560 := by
    rw [Int.floor_eq_iff]
    norm_num
  have hr : roundHalfEven ((1 / 220000 : ℚ) / 2 ^ (max (-18 : ℤ) (-126) - 23)) = 9995560 := by
    unfold roundHalfEven
    rw [hfloor]
    norm_num
  rw [hr]
  norm_num

theorem finite32_of_lt {y : ℚ} (h : |y| < 2 ^ 128) : finite32 y = some y := by
  simp [finite32, h]

theorem binary32_natCast (n : ℕ) (hn : n < 2 ^ 24) :
    @Nat.cast (Option ℚ) binary32.toNatCast n = some (n : ℚ) := by
  show finite32 (roundBinary32 (n : ℚ)) = some (n : ℚ)
  rw [roundBinary32_natCast n hn]
  apply finite32_of_lt
  rw [abs_of_nonneg (by positivity)]
  have : (n : ℚ) < 2 ^ 24 := by exact_mod_cast hn
  linarith [show (2 : ℚ) ^ 24 < 2 ^ 128 by norm_num]

theorem binary32_intCast (n : ℕ) (hn : n < 2 ^ 24) :
    @Int.cast (Option ℚ) binary32.toIntCast (Int.ofNat n) = some (n : ℚ) := by
  show finite32 (roundBinary32 ((Int.ofNat n : ℤ) : ℚ)) = some (n : ℚ)
  have h : ((Int.ofNat n : ℤ) : ℚ) = (n : ℚ) := by simp
  rw [h, roundBinary32_natCast n hn]
  apply finite32_of_lt
  rw [abs_of_nonneg (by positivity)]
  have : (n : ℚ) < 2 ^ 24 := by exact_mod_cast hn
  linarith [show (2 : ℚ) ^ 24 < 2 ^ 128 by norm_num]

theorem binary32_div (x y : ℚ) (hy : y ≠ 0) :
    @HDiv.hDiv (Option ℚ) (Option ℚ) (Option ℚ) (@instHDiv (Option ℚ) binary32.toDiv)
      (some x) (some y) = finite32 (roundBinary32 (x / y)) := by
  show (if y = 0 then none else finite32 (roundBinary32 (x / y))) = _
  rw [if_neg hy]

theorem binary32_mul (x y : ℚ) :
    @HMul.hMul (Option ℚ) (Option ℚ) (Option ℚ) (@instHMul (Option ℚ) binary32.toMul)
      (some x) (some y) = finite32 (roundBinary32 (x * y)) := rfl

/-- The step size of a capture at decimation factor 1 in binary32. -/
theorem binary32_stepSize :
    @HDiv.hDiv (Option ℚ) (Option ℚ) (Option ℚ) (@instHDiv (Option ℚ) binary32.toDiv)
      (@Nat.cast (Option ℚ) binary32.toNatCast 1)
      (@HDiv.hDiv (Option ℚ) (Option ℚ) (Option ℚ) (@instHDiv (Option ℚ) binary32.toDiv)
        (@Nat.cast (Option ℚ) binary32.toNatCast 220000)
        (@Int.cast (Option ℚ) binary32.toIntCast (Int.ofNat (2 ^ 0))))
      = some (1249445 / 274877906944) := by
  rw [binary32_natCast 1 (by norm_num), binary32_natCast 220000 (by norm_num),
    show Int.ofNat (2 ^ 0) = Int.ofNat 1 from rfl, binary32_intCast 1 (by norm_num),
    binary32_div _ _ (by norm_num)]
  have h1 : ((220000 : ℕ) : ℚ) / ((1 : ℕ) : ℚ) = ((220000 : ℕ) : ℚ) := by norm_num
  rw [h1, roundBinary32_natCast 220000 (by norm_num), finite32_of_lt (by norm_num),
    binary32_div _ _ (by norm_num)]
  have h2 : ((1 : ℕ) : ℚ) / ((220000 : ℕ) : ℚ) = 1 / 220000 := by norm_num
  rw [h2, roundBinary32_step]
  apply finite32_of_lt
  norm_num [abs_of_pos]

theorem stepValue_bounds (i : ℕ) (hi : 1 ≤ i) :
    (1249445 / 274877906944 : ℚ) * i * (1 - 2 ^ (-24 : ℤ))
        ≤ roundBinary32 (1249445 / 274877906944 * i) ∧
      roundBinary32 (1249445 / 274877906944 * i)
        ≤ (1249445 / 274877906944 : ℚ) * i * (1 + 2 ^ (-24 : ℤ)) := by
  have hi1 : (1 : ℚ) ≤ i := by exact_mod_cast hi
  have hx : (2 : ℚ) ^ (-126 : ℤ) ≤ 1249445 / 274877906944 * i := by
    have h0 : (2 : ℚ) ^ (-126 : ℤ) ≤ 1249445 / 274877906944 := by
      rw [zpow_neg, show (126 : ℤ) = ((126 : ℕ) : ℤ) from rfl, zpow_natCast]
      norm_num
    nlinarith
  have h := roundBinary32_err _ hx
  rw [abs_le] at h
  constructor <;> nlinarith [h.1, h.2]

theorem stepValue_lt (i j : ℕ) (hij : i < j) (hj : j < 4096) :
    roundBinary32 (1249445 / 274877906944 * i) < roundBinary32 (1249445 / 274877906944 * j) := by
  have hu : (2 : ℚ) ^ (-24 : ℤ) = 1 / 16777216 := by
    rw [zpow_neg, show (24 : ℤ) = ((24 : ℕ) : ℤ) from rfl, zpow_natCast]
    norm_num
  have hj1 : 1 ≤ j := by omega
  obtain ⟨hjl, _⟩ := stepValue_bounds j hj1
  rw [hu] at hjl
  have hjq : (1 : ℚ) ≤ j := by exact_mod_cast hj1
  rcases Nat.eq_zero_or_pos i with h0 | hpos
  · subst h0
    have : roundBinary32 (1249445 / 274877906944 * ((0 : ℕ) : ℚ)) = 0 := by
      simp [roundBinary32]
    rw [this]
    linarith
  · obtain ⟨_, hiu⟩ := stepValue_bounds i hpos
    rw [hu] at hiu
    have h1 : (i : ℚ) + 1 ≤ j := by exact_mod_cast hij
    have h2 : (j : ℚ) < 4096 := by exact_mod_cast hj
    linarith

theorem stepValue_lt_one (i : ℕ) (hi : i < 4096) :
    |roundBinary32 (1249445 / 274877906944 * i)| < 2 ^ 128 := by
  have hu : (2 : ℚ) ^ (-24 : ℤ) = 1 / 16777216 := by
    rw [zpow_neg, show (24 : ℤ) = ((24 : ℕ) : ℤ) from rfl, zpow_natCast]
    norm_num
  rcases Nat.eq_zero_or_pos i with h0 | hpos
  · subst h0
    simp [roundBinary32]
  · obtain ⟨hl, hu1⟩ := stepValue_bounds i hpos
    rw [hu] at hl hu1
    have h1 : (1 : ℚ) ≤ i := by exact_mod_cast hpos
    have h2 : (i : ℚ) < 4096 := by exact_mod_cast hi
    rw [abs_of_nonneg (by linarith)]
    have : (1 : ℚ) < 2 ^ 128 := by norm_num
    linarith

theorem stepValue_near (i : ℕ) :
    |roundBinary32 (1249445 / 274877906944 * i) - (i : ℚ) * (1 / 220000)|
      ≤ (i : ℚ) * (1 / 220000) * 2 ^ (-22 : ℤ) := by
  have hu : (2 : ℚ) ^ (-24 : ℤ) = 1 / 16777216 := by
    rw [zpow_neg, show (24 : ℤ) = ((24 : ℕ) : ℤ) from rfl, zpow_natCast]
    norm_num
  have hv : (2 : ℚ) ^ (-22 : ℤ) = 1 / 4194304 := by
    rw [zpow_neg, show (22 : ℤ) = ((22 : ℕ) : ℤ) from rfl, zpow_natCast]
    norm_num
  rw [hv]
  rcases Nat.eq_zero_or_pos i with h0 | hpos
  · subst h0
    simp [roundBinary32]
  · obtain ⟨hl, hu1⟩ := stepValue_bounds i hpos
    rw [hu] at hl hu1
    have h1 : (1 : ℚ) ≤ i := by exact_mod_cast hpos
    rw [abs_le]
    constructor <;> linarith

theorem binary32_step_entry (i : ℕ) (hi : i < 4096) :
    @HMul.hMul (Option ℚ) (Option ℚ) (Option ℚ) (@instHMul (Option ℚ) binary32.toMul)
      (@HDiv.hDiv (Option ℚ) (Option ℚ) (Option ℚ) (@instHDiv (Option ℚ) binary32.toDiv)
        (@Nat.cast (Option ℚ) binary32.toNatCast 1)
        (@HDiv.hDiv (Option ℚ) (Option ℚ) (Option ℚ) (@instHDiv (Option ℚ) binary32.toDiv)
          (@Nat.cast (Option ℚ) binary32.toNatCast 220000)
          (@Int.cast (Option ℚ) binary32.toIntCast (Int.ofNat (2 ^ 0)))))
      (@Int.cast (Option ℚ) binary32.toIntCast (Int.ofNat i))
      = some (roundBinary32 (1249445 / 274877906944 * i)) := by
  rw [binary32_stepSize, binary32_intCast i (by omega), binary32_mul]
  exact finite32_of_lt (stepValue_lt_one i hi)

theorem stepValue_one : roundBinary32 (1249445 / 274877906944 * ((1 : ℕ) : ℚ))
    = 1249445 / 274877906944 := by
  have hx : (1249445 / 274877906944 : ℚ) * ((1 : ℕ) : ℚ) = 1249445 / 274877906944 := by
    norm_num
  rw [hx]
  have hpos : (0 : ℚ) < 1249445 / 274877906944 := by norm_num
  have habs : |(1249445 / 274877906944 : ℚ)| = 1249445 / 274877906944 := abs_of_pos hpos
  have hlog : Int.log 2 (1249445 / 274877906944 : ℚ) = -18 := by
    have h1 : (-18 : ℤ) ≤ Int.log 2 (1249445 / 274877906944 : ℚ) :=
      (Int.zpow_le_iff_le_log (by decide) hpos).1 (by norm_num)
    have h2 : Int.log 2 (1249445 / 274877906944 : ℚ) < -17 :=
      (Int.lt_zpow_iff_log_lt (by decide) hpos).1 (by norm_num)
    omega
  have hne : (1249445 / 274877906944 : ℚ) ≠ 0 := ne_of_gt hpos
  simp only [roundBinary32, hne, if_false, habs, hlog]
  have hq : (1249445 / 274877906944 : ℚ) / 2 ^ (max (-18 : ℤ) (-126) - 23)
      = ((9995560 : ℤ) : ℚ) := by
    norm_num
  rw [hq, roundHalfEven_intCast]
  norm_num

/-! ## A capture in Capture mode -/

theorem retrieveVibrationData_capture {σ F : Type} [FloatArith F] (decl : Declarations)
    (bus : Bus σ) (fuel : Nat) (uninit : RecordingMode) (s : Session σ) (v : Word)
    (t : Session σ) (hm : s.currentRecordingMode = .MTC)
    (hread : read bus fuel decl.REC_INFO2 s = .ok (v, t)) (hdec : v.val &&& 0x7 = 0)
    (vd : VibrationData F) (s1 : Session σ)
    (h : retrieveVibrationData decl bus fuel uninit s = .ok (vd, s1)) :
    vd.recordingMode = .MTC ∧
    vd.xAxis.length = 4096 ∧ vd.yAxis.length = 4096 ∧ vd.zAxis.length = 4096 ∧
    vd.stepAxis = (List.range 4096).map fun (i : Nat) =>
      (((1 : Nat) : F) / (((220000 : Nat) : F) / ((Int.ofNat (2 ^ 0) : Int) : F)))
        * ((Int.ofNat i : Int) : F) := by
  have hne : s.currentRecordingMode ≠ .RTS := by rw [hm]; decide
  obtain ⟨n, step, conv, t1, x, y, z, hd, h1, _, hx, hy, hz, hvd⟩ :=
    retrieveVibrationData_buffered decl bus fuel uninit s hne vd s1 h
  have hn : n = 4096 := h1 hm
  subst hn
  obtain ⟨_, _, hmtc, _⟩ := dispatch_ok decl bus fuel s _ t1 hd
  obtain ⟨_, v1, t2, hread1, hstep⟩ := hmtc hm
  rw [hread] at hread1
  simp only [Except.ok.injEq, Prod.mk.injEq] at hread1
  obtain ⟨hv, _⟩ := hread1
  subst hv
  simp only [hdec] at hstep
  subst hvd
  simp only [VibrationData.empty, hx, hy, hz, hm, hstep]
  exact ⟨trivial, trivial, trivial, trivial, trivial⟩

theorem capture_stepAxis_binary32 {σ : Type} (decl : Declarations)
    (bus : Bus σ) (fuel : Nat) (uninit : RecordingMode) (s : Session σ) (v : Word)
    (t : Session σ) (hm : s.currentRecordingMode = .MTC)
    (hread : read bus fuel decl.REC_INFO2 s = .ok (v, t)) (hdec : v.val &&& 0x7 = 0)
    (vd : VibrationData (Option ℚ)) (s1 : Session σ)
    (h : @retrieveVibrationData σ (Option ℚ) binary32 decl bus fuel uninit s = .ok (vd, s1)) :
    vd.stepAxis = (List.range 4096).map fun (i : Nat) =>
      some (roundBinary32 (1249445 / 274877906944 * (i : ℚ))) := by
  obtain ⟨_, _, _, _, hs⟩ :=
    @retrieveVibrationData_capture σ (Option ℚ) binary32 decl bus fuel uninit s v t hm hread
      hdec vd s1 h
  rw [hs]
  apply List.map_congr_left
  intro i hi
  exact binary32_step_entry i (List.mem_range.1 hi)

/-- C14 (as amended): end to end in Capture mode. When the session's current mode is
Capture and the device reports a decimation field of 0 (decimationFactor = 1), a
`retrieveVibrationData` that returns yields a batch of mode Capture with exactly 4096
samples on each of the three axes and a stepAxis of 4096 entries, entry i being the
`float` product of the step size and i, where the step size is the `float` quotient
1 / (220000 / 1); this holds for every interpretation of the float operations. In
IEEE 754 binary32 the step size is 1249445 / 274877906944, the `float` nearest to
1 / 220000, and entry i is the rounding of 1249445 / 274877906944 * i, which lies within
the relative error 2^-22 of i * (1 / 220000); the axis starts at 0 and is strictly
increasing. On a device that answers within the poll budget and reports no transport
error the call returns. -/
theorem capture_end_to_end_rounded {σ F : Type} [FloatArith F]
    (decl : Declarations) (bus : Bus σ) (fuel : Nat) (uninit : RecordingMode)
    (s : Session σ) (v : Word) (t : Session σ) (hm : s.currentRecordingMode = .MTC)
    (hread : read bus fuel decl.REC_INFO2 s = .ok (v, t)) (hdec : v.val &&& 0x7 = 0) :
    (∀ (vd : VibrationData F) (s1 : Session σ),
      retrieveVibrationData decl bus fuel uninit s = .ok (vd, s1) →
      vd.recordingMode = .MTC ∧
      vd.xAxis.length = 4096 ∧ vd.yAxis.length = 4096 ∧ vd.zAxis.length = 4096 ∧
      vd.stepAxis.length = 4096 ∧
      (∀ i : Nat, i < 4096 → vd.stepAxis[i]? = some
        ((((1 : Nat) : F) / (((220000 : Nat) : F) / (((1 : Int)) : F)))
          * ((Int.ofNat i : Int) : F)))) ∧
    (∀ (vd : VibrationData (Option ℚ)) (s1 : Session σ),
      @retrieveVibrationData σ (Option ℚ) binary32 decl bus fuel uninit s = .ok (vd, s1) →
      vd.recordingMode = .MTC ∧
      vd.xAxis.length = 4096 ∧ vd.yAxis.length = 4096 ∧ vd.zAxis.length = 4096 ∧
      vd.stepAxis.length = 4096 ∧
      (∀ i : Nat, i < 4096 → ∃ a : ℚ, vd.stepAxis[i]? = some (some a) ∧
        a = roundBinary32 (roundBinary32 (1 / 220000) * (i : ℚ)) ∧
        |a - (i : ℚ) * (1 / 220000)| ≤ (i : ℚ) * (1 / 220000) * 2 ^ (-22 : ℤ)) ∧
      vd.stepAxis[0]? = some (some 0) ∧
      vd.stepAxis[1]? = some (some (1249445 / 274877906944)) ∧
      List.Pairwise (fun a b => ∃ x y : ℚ, a = some x ∧ b = some y ∧ x < y) vd.stepAxis) ∧
    (Responsive bus fuel → Reliable bus →
      (∃ (vd : VibrationData F) (s1 : Session σ),
        retrieveVibrationData decl bus fuel uninit s = .ok (vd, s1)) ∧
      ∃ (vd : VibrationData (Option ℚ)) (s1 : Session σ),
        @retrieveVibrationData σ (Option ℚ) binary32 decl bus fuel uninit s
          = .ok (vd, s1)) := by
  refine ⟨?_, ?_, fun hb hrel =>
    ⟨retrieveVibrationData_returns decl bus fuel uninit s hb hrel,
      @retrieveVibrationData_returns σ (Option ℚ) binary32 decl bus fuel uninit s hb hrel⟩⟩
  · intro vd s1 h
    obtain ⟨h1, h2, h3, h4, hs⟩ :=
      retrieveVibrationData_capture decl bus fuel uninit s v t hm hread hdec vd s1 h
    refine ⟨h1, h2, h3, h4, ?_, ?_⟩
    · rw [hs, List.length_map, List.length_range]
    · intro i hi
      rw [hs, List.getElem?_map, List.getElem?_range hi]
      rfl
  · intro vd s1 h
    obtain ⟨h1, h2, h3, h4, _⟩ :=
      @retrieveVibrationData_capture σ (Option ℚ) binary32 decl bus fuel uninit s v t hm
        hread hdec vd s1 h
    have hs := capture_stepAxis_binary32 decl bus fuel uninit s v t hm hread hdec vd s1 h
    refine ⟨h1, h2, h3, h4, ?_, ?_, ?_, ?_, ?_⟩
    · rw [hs, List.length_map, List.length_range]
    · intro i hi
      refine ⟨roundBinary32 (1249445 / 274877906944 * (i : ℚ)), ?_, ?_, stepValue_near i⟩
      · rw [hs, List.getElem?_map, List.getElem?_range hi]
        rfl
      · rw [roundBinary32_step]
    · rw [hs, List.getElem?_map, List.getElem?_range (by decide)]
      simp [roundBinary32]
    · rw [hs, List.getElem?_map, List.getElem?_range (by decide)]
      simp only [Option.map_some']
      rw [stepValue_one]
    · rw [hs, List.pairwise_map]
      refine List.Pairwise.imp_of_mem ?_ (List.pairwise_lt_range 4096)
      intro a b _ hb hab
      exact ⟨_, _, rfl, rfl, stepValue_lt a b hab (List.mem_range.1 hb)⟩

theorem capture_end_to_end_rounded_witness :
    ∃ (vd : VibrationData (Option ℚ)) (s1 : Session Unit),
      @retrieveVibrationData Unit (Option ℚ) binary32 sampleDeclarations swapBus
        1 .MFFT { Session.start () with currentRecordingMode := .MTC } = .ok (vd, s1) :=
  ((@capture_end_to_end_rounded Unit (Option ℚ) binary32 sampleDeclarations swapBus 1 .MFFT
    { Session.start () with currentRecordingMode := .MTC } 0
    { Session.start () with
      currentRecordingMode := .MTC
      trace := [.busyPoll true, .exchange (0x80, 0) (0, 0x80), .busyPoll true,
        .exchange (0x68, 0) (0, 0x68), .busyPoll true, .exchange (0, 0) (0, 0)] }
    rfl rfl (by decide)).2.2 swapBus_responsive swapBus_reliable).2

/-- C14 as stated fails: in IEEE 754 binary32, for the Capture session on `swapBus`, whose
device reports a decimation field of 0, `retrieveVibrationData` returns a batch whose
stepAxis entry 1 is 1249445 / 274877906944, the `float` nearest to 1 / 220000, and not
1 * (1 / 220000). -/
theorem capture_step_is_rounded :
    ({ Session.start () with currentRecordingMode := .MTC } : Session Unit).currentRecordingMode
        = .MTC ∧
      (∃ t : Session Unit, read swapBus 1 sampleDeclarations.REC_INFO2
        { Session.start () with currentRecordingMode := .MTC } = .ok (0, t)) ∧
      ∃ (vd : VibrationData (Option ℚ)) (s1 : Session Unit),
        @retrieveVibrationData Unit (Option ℚ) binary32 sampleDeclarations swapBus
          1 .MFFT { Session.start () with currentRecordingMode := .MTC } = .ok (vd, s1) ∧
        vd.stepAxis[1]? = some (some (1249445 / 274877906944)) ∧
        (1249445 / 274877906944 : ℚ) ≠ ((1 : ℕ) : ℚ) * (1 / 220000) := by
  refine ⟨rfl, ⟨_, rfl⟩, ?_⟩
  obtain ⟨vd, s1, h⟩ := @retrieveVibrationData_returns Unit (Option ℚ) binary32
    sampleDeclarations swapBus 1 .MFFT { Session.start () with currentRecordingMode := .MTC }
    swapBus_responsive swapBus_reliable
  refine ⟨vd, s1, h, ?_, by norm_num⟩
  have hs := capture_stepAxis_binary32 sampleDeclarations swapBus 1 .MFFT
    { Session.start () with currentRecordingMode := .MTC } 0
    { Session.start () with
      currentRecordingMode := .MTC
      trace := [.busyPoll true, .exchange (0x80, 0) (0, 0x80), .busyPoll true,
        .exchange (0x68, 0) (0, 0x68), .busyPoll true, .exchange (0, 0) (0, 0)] }
    rfl rfl (by decide) vd s1 h
  rw [hs, List.getElem?_map, List.getElem?_range (by decide)]
  simp only [Option.map_some']
  rw [stepValue_one]

end VibrationDAQ
